import Mathlib

/-!
# CommandCenter: the custom-command rewrite engine and its persisted configuration

A shallow embedding of `CustomCommandsService` (src/CommandCenter.plugin.js): the
`sendMessage` before-hook installed by `start`, the configuration loader and savers, and the
click handlers of the settings panel that mutate the configuration.

JavaScript strings are modelled as lists of characters (one list element per string unit), and
the JavaScript values that can sit in the command table or in a parsed JSON document by the
inductive type `Value`.

The second part embeds the slash commands of `PatchesService`: the remind command and the
state machine of `ReminderService` (calls of `setReminder` and firings of timers, also under
the clock of the host, where time passes and the host runs the callbacks that are due), the
registration hook with the thirteen command records, and the `execute` callbacks of the
avatar, rainbow, petpet, swirl, pizza and money commands. A run of a command is described by
the list of its effects on the surroundings and by the fate of the promise it returns; what
the surroundings answer is the parameter `Collaborators`.

The third part embeds `Utils.isValidIPv4` with a matcher for its regular expression, the
built-in `encodeURIComponent`, the lookup adapters (`UrbanDictionaryService`,
`WebsterDictionaryService`, `WhoisService`, `QRCodeService`, `LmgtfyService`), the whois and
urban2 commands, and the rows that `getSettingsPanel` builds from the command table.
-/

namespace CommandCenter

/-! ## Strings -/

/-- A JavaScript string: the sequence of its units. -/
abbrev JsString := List Char

/-- Reading a string literal of the source as a `JsString`. -/
def js (s : String) : JsString := s.toList

/-- The space character U+0020, the separator handed to `split(" ")`. -/
def space : Char := Char.ofNat 32

/-- `s.startsWith(p)`. -/
def startsWith (s p : JsString) : Bool := p.isPrefixOf s

/-- `s.split(" ")[0]`: the text before the first U+0020, the whole string when there is none. -/
def firstToken (s : JsString) : JsString := s.takeWhile (fun c => c != space)

/-- `s.slice(n)` for a non-negative `n`. -/
def sliceFrom (s : JsString) (n : Nat) : JsString := s.drop n

/-- The code points removed by `String.prototype.trim`: WhiteSpace and LineTerminator. -/
def isJsWhitespace (c : Char) : Bool :=
  let n := c.toNat
  n == 0x09 || n == 0x0A || n == 0x0B || n == 0x0C || n == 0x0D || n == 0x20 || n == 0xA0 ||
  n == 0x1680 || (0x2000 ≤ n && n ≤ 0x200A) || n == 0x2028 || n == 0x2029 || n == 0x202F ||
  n == 0x205F || n == 0x3000 || n == 0xFEFF

/-- `s.trim()`. -/
def trim (s : JsString) : JsString :=
  ((s.dropWhile isJsWhitespace).reverse.dropWhile isJsWhitespace).reverse

/-! ## Values and objects -/

/-- The functions that a plain object inherits from `Object.prototype`. -/
inductive ProtoFn
  | objectConstructor
  | hasOwnProperty
  | isPrototypeOf
  | propertyIsEnumerable
  | toLocaleString
  | toString
  | valueOf
  | defineGetter
  | defineSetter
  | lookupGetter
  | lookupSetter
  deriving DecidableEq, Repr

/-- JavaScript values: the JSON values, `undefined`, and what a property read on a plain
object can yield through its prototype (`Object.prototype` itself, its functions, and the
`String` wrapper object that `Object(s)` returns). Numbers are kept as integers: the code
only tests a number for being zero. -/
inductive Value
  | undefined
  | null
  | bool (b : Bool)
  | num (n : Int)
  | str (s : JsString)
  | array (items : List Value)
  | object (props : List (JsString × Value))
  | stringObject (s : JsString)
  | objectPrototype
  | fn (f : ProtoFn)

/-- The own enumerable properties of a plain object, in insertion order. -/
abbrev Obj := List (JsString × Value)

/-- Own-property read: `Object.hasOwn(o, k) ? o[k] : <absent>`. -/
def Obj.getOwn (o : Obj) (k : JsString) : Option Value :=
  match o with
  | [] => none
  | (k', v) :: rest => if k' = k then some v else Obj.getOwn rest k

/-- Defining or overwriting the own data property `k`; an existing key keeps its position. -/
def Obj.set (o : Obj) (k : JsString) (v : Value) : Obj :=
  match o with
  | [] => [(k, v)]
  | (k', v') :: rest => if k' = k then (k, v) :: rest else (k', v') :: Obj.set rest k v

/-- The statement `delete o[k]` on a plain object. -/
def Obj.delete (o : Obj) (k : JsString) : Obj :=
  o.filter (fun kv => decide (kv.1 ≠ k))

/-- The property names of the object. -/
def Obj.keys (o : Obj) : List JsString := o.map Prod.fst

/-- What `Object.prototype` holds under the name `k`; `undefined` when it has no such
property. -/
def objectPrototypeGet (k : JsString) : Value :=
  if k = js "constructor" then .fn .objectConstructor
  else if k = js "hasOwnProperty" then .fn .hasOwnProperty
  else if k = js "isPrototypeOf" then .fn .isPrototypeOf
  else if k = js "propertyIsEnumerable" then .fn .propertyIsEnumerable
  else if k = js "toLocaleString" then .fn .toLocaleString
  else if k = js "toString" then .fn .toString
  else if k = js "valueOf" then .fn .valueOf
  else if k = js "__defineGetter__" then .fn .defineGetter
  else if k = js "__defineSetter__" then .fn .defineSetter
  else if k = js "__lookupGetter__" then .fn .lookupGetter
  else if k = js "__lookupSetter__" then .fn .lookupSetter
  else if k = js "__proto__" then .objectPrototype
  else .undefined

/-- The property read `o[k]` on a plain object (an object literal, the result of `JSON.parse`
or of an object spread): the own property when there is one, otherwise the property inherited
from `Object.prototype`. -/
def getProp (o : Obj) (k : JsString) : Value :=
  match Obj.getOwn o k with
  | some v => v
  | none => objectPrototypeGet k

/-- The conversion `ToBoolean`, as applied by `if (v)`. -/
def toBoolean : Value → Bool
  | .undefined => false
  | .null => false
  | .bool b => b
  | .num n => decide (n ≠ 0)
  | .str s => !s.isEmpty
  | .array _ => true
  | .object _ => true
  | .stringObject _ => true
  | .objectPrototype => true
  | .fn _ => true

/-- The exceptions the modelled code can raise: a `TypeError`, a `ReferenceError`, and
whatever a collaborator of the host throws or rejects with. -/
inductive JsError
  | typeError
  | referenceError
  | hostError
  deriving DecidableEq, Repr

/-- The call `f(arg)` of a function of `Object.prototype` as a plain function (its `this` is
`undefined`) on one string argument. -/
def callBuiltin (f : ProtoFn) (arg : JsString) : Except JsError Value :=
  match f with
  | .objectConstructor => .ok (.stringObject arg)
  | .toString => .ok (.str (js "[object Undefined]"))
  | .isPrototypeOf => .ok (.bool false)
  | .hasOwnProperty => .error .typeError
  | .propertyIsEnumerable => .error .typeError
  | .toLocaleString => .error .typeError
  | .valueOf => .error .typeError
  | .defineGetter => .error .typeError
  | .defineSetter => .error .typeError
  | .lookupGetter => .error .typeError
  | .lookupSetter => .error .typeError

/-! ## The send hook -/

/-- The configuration as the send hook reads it: `this.config.prefix` is a string and
`this.config.commands` a plain object. -/
structure Config where
  commandPrefix : JsString
  commands : Obj

/-- The outgoing message object: its `content` field and its other fields. -/
structure Message where
  content : Value
  others : Obj

/-- The string on which `message.content.startsWith`, `.split` and `.slice` operate; `none` when
`content` has no such methods and the call raises a `TypeError`. -/
def contentString : Value → Option JsString
  | .str s => some s
  | .stringObject s => some s
  | _ => none

/-- What one run of the send hook leaves behind: the message object after the call (it is
mutated in place) and what the callback returned or raised. A returned `none` is the callback
returning `undefined`, a returned `some (channelId, message)` the replacement argument list. -/
structure HookOutcome where
  message : Message
  result : Except JsError (Option (Value × Message))

/-- `typeof replacement === "function" ? replacement(args) : replacement`. -/
def applyReplacement (replacement : Value) (args : JsString) : Except JsError Value :=
  match replacement with
  | .fn f => callBuiltin f args
  | v => .ok v

/-- The local constant `command` of the hook:
`message.content.split(" ")[0].slice(this.config.prefix.length)`. -/
def sendMessageHook.command (config : Config) (content : JsString) : JsString :=
  sliceFrom (firstToken content) config.commandPrefix.length

/-- The callback that `CustomCommandsService.start` installs before `sendMessage`. -/
def sendMessageHook (config : Config) (channelId : Value) (message : Message) : HookOutcome :=
  match contentString message.content with
  | none => ⟨message, .error .typeError⟩
  | some content =>
    if !startsWith content config.commandPrefix then ⟨message, .ok none⟩
    else
      let command := sendMessageHook.command config content
      if toBoolean (getProp config.commands command) then
        let args := trim (sliceFrom content (command.length + config.commandPrefix.length))
        let replacement := getProp config.commands command
        match applyReplacement replacement args with
        | .error e => ⟨message, .error e⟩
        | .ok newMessage =>
          ⟨{ message with content := newMessage },
            .ok (some (channelId, { message with content := newMessage }))⟩
      else ⟨message, .ok none⟩

/-! ## Persistence -/

/-- The configuration file as `fs.existsSync` and `fs.readFileSync` see it. -/
inductive FileState
  | absent
  | unreadable
  | present (text : JsString)

/-- One call `BdApi.alert(title, body)`. -/
structure Alert where
  title : JsString
  body : JsString
  deriving DecidableEq

/-- The two functions of the `JSON` library the service calls: `JSON.parse(text)`, with `none`
for a raised `SyntaxError`, and `JSON.stringify(value, null, 2)`. -/
structure Host where
  parse : JsString → Option Value
  stringify : Value → JsString

/-- The state of the service and of its surroundings: the object `this.config`, the
configuration file, and the alerts shown so far, oldest first. -/
structure Service where
  config : Obj
  file : FileState
  alerts : List Alert

/-- The text of the `rules` response, the same literal at both places of the source. -/
def rulesText : JsString :=
  js "**Server Rules:**\n1. **Be Respectful** - Treat everyone with respect. No harassment or hate speech.\n2. **No Spamming** - Avoid excessive messages or disruptive content.\n3. **Stay On Topic** - Keep discussions relevant to the channel.\n4. **Follow Discord TOS** - Ensure your actions align with Discord's Terms of Service."

/-- The initial value of the class field `config`. -/
def initialConfig : Obj :=
  [ (js "prefix", .str (js "./")),
    (js "commands", .object
      [ (js "hello", .str (js "Hello, world!")),
        (js "rules", .str rulesText),
        (js "bye", .str (js "Goodbye, cruel world!")),
        (js "triforce", .str (js "‌ ‌  ▲\n▲‌ ▲")) ]) ]

/-- The local constant `defaultConfig` of `createDefaultConfig`. -/
def createDefaultConfig.defaultConfig : Obj :=
  [ (js "prefix", .str (js "./")),
    (js "commands", .object
      [ (js "hello", .str (js "Hello, world!")),
        (js "rules", .str (js "**Server Rules:**\n1. **Be Respectful** - Treat everyone with respect. No harassment or hate speech.\n2. **No Spamming** - Avoid excessive messages or disruptive content.\n3. **Stay On Topic** - Keep discussions relevant to the channel.\n4. **Follow Discord TOS** - Ensure your actions align with Discord's Terms of Service.")),
        (js "bye", .str (js "Goodbye, cruel world!")),
        (js "triforce", .str (js "‌ ‌  ▲\n▲‌ ▲")) ]) ]

/-- The service as constructed, before `loadConfig` runs. -/
def Service.initial (file : FileState) : Service :=
  { config := initialConfig, file := file, alerts := [] }

/-- The decimal name of an array index. -/
def indexKey (i : Nat) : JsString := Nat.toDigits 10 i

/-- Pairing the elements of a list with their index names, counting from `i`. -/
def indexed {α : Type} (f : α → Value) : Nat → List α → Obj
  | _, [] => []
  | i, x :: xs => (indexKey i, f x) :: indexed f (i + 1) xs

/-- The own enumerable properties that a spread `...v` copies. -/
def ownEnumerable : Value → Obj
  | .object props => props
  | .array items => indexed id 0 items
  | .str s => indexed (fun c => Value.str [c]) 0 s
  | .stringObject s => indexed (fun c => Value.str [c]) 0 s
  | _ => []

/-- Copying properties one by one onto `target`, in order: a later source property of the same
name overrides. -/
def assignAll (target : Obj) (source : Obj) : Obj :=
  source.foldl (fun acc kv => Obj.set acc kv.1 kv.2) target

/-- The object spread `{ ...a, ...b }`. -/
def spread (a b : Obj) : Obj := assignAll (assignAll [] a) b

/-- The alert of a failed load. -/
def loadErrorAlert : Alert := ⟨js "Error", js "Failed to load commands from file."⟩

/-- The alert of a failed save. -/
def saveErrorAlert : Alert := ⟨js "Error", js "Failed to save commands."⟩

/-- `createDefaultConfig()`; `writeOk` tells whether `fs.writeFileSync` succeeds. -/
def createDefaultConfig (host : Host) (writeOk : Bool) (s : Service) : Service :=
  let data := host.stringify (.object createDefaultConfig.defaultConfig)
  if writeOk then
    { s with
      file := .present data
      alerts := s.alerts ++ [⟨js "Custom Commands", js "Default config file created. CustomCommands.config.json can be edited in a text editor as well. Have fun!"⟩] }
  else
    { s with alerts := s.alerts ++ [⟨js "Error", js "Failed to create default config."⟩] }

/-- The body of the `try` block of `loadConfig`: read, parse, merge. An exception of
`readFileSync` or `JSON.parse` is `none`. -/
def loadConfig.tryBlock (host : Host) (s : Service) : Option Service :=
  match s.file with
  | .present data =>
    match host.parse data with
    | some parsedData => some { s with config := spread s.config (ownEnumerable parsedData) }
    | none => none
  | _ => none

/-- `loadConfig()`. -/
def loadConfig (host : Host) (writeOk : Bool) (s : Service) : Service :=
  match s.file with
  | .absent => createDefaultConfig host writeOk s
  | _ =>
    match loadConfig.tryBlock host s with
    | some s' => s'
    | none => { s with alerts := s.alerts ++ [loadErrorAlert] }

/-- `saveConfigPrefix()`. -/
def saveConfigPrefix (host : Host) (writeOk : Bool) (s : Service) : Service :=
  let data := host.stringify (.object s.config)
  if writeOk then
    { s with
      file := .present data
      alerts := s.alerts ++ [⟨js "Success", js "Prefix updated successfully!"⟩] }
  else
    { s with alerts := s.alerts ++ [saveErrorAlert] }

/-- `saveConfigCommands()`. -/
def saveConfigCommands (host : Host) (writeOk : Bool) (s : Service) : Service :=
  let data := host.stringify (.object s.config)
  if writeOk then
    { s with
      file := .present data
      alerts := s.alerts ++ [⟨js "Success", js "Commands saved successfully!"⟩] }
  else
    { s with alerts := s.alerts ++ [saveErrorAlert] }

/-- `saveConfigDelete()`. -/
def saveConfigDelete (host : Host) (writeOk : Bool) (s : Service) : Service :=
  let data := host.stringify (.object s.config)
  if writeOk then
    { s with
      file := .present data
      alerts := s.alerts ++ [⟨js "Success", js "Command deleted!"⟩] }
  else
    { s with alerts := s.alerts ++ [saveErrorAlert] }

/-! ## The settings panel handlers -/

/-- `savePrefixButton.onclick`, with `value` the text of the prefix field. -/
def savePrefixClick (host : Host) (writeOk : Bool) (value : JsString) (s : Service) : Service :=
  saveConfigPrefix host writeOk { s with config := Obj.set s.config (js "prefix") (.str value) }

/-- The assignment `o[k] = v` of a string `v` on a plain object: the inherited setter of
`__proto__` ignores a value that is not an object, any other name becomes an own property. -/
def assignString (o : Obj) (k : JsString) (v : JsString) : Obj :=
  if k = js "__proto__" ∧ (Obj.getOwn o k).isNone then o else Obj.set o k (.str v)

/-- One pass of the `forEach` of `saveCommandsButton.onclick` over a row of the panel, given
by the values of its command field and of its response field. -/
def saveCommandsClick.step (newCommands : Obj) (row : JsString × JsString) : Obj :=
  let command := trim row.1
  let response := trim row.2
  if !command.isEmpty && !response.isEmpty then assignString newCommands command response
  else newCommands

/-- `saveCommandsButton.onclick`, with `rows` the command rows of the panel in document order. -/
def saveCommandsClick (host : Host) (writeOk : Bool) (rows : List (JsString × JsString))
    (s : Service) : Service :=
  let newCommands : Obj := rows.foldl saveCommandsClick.step []
  saveConfigCommands host writeOk
    { s with config := Obj.set s.config (js "commands") (.object (spread [] newCommands)) }

/-- `removeButton.onclick` of the row built for the table key `command`. The handler is
modelled for a `commands` field holding a plain object; `none` stands for any other value. -/
def removeClick (host : Host) (writeOk : Bool) (command : JsString) (s : Service) :
    Option Service :=
  match Obj.getOwn s.config (js "commands") with
  | some (.object table) =>
    some (saveConfigDelete host writeOk
      { s with config := Obj.set s.config (js "commands") (.object (Obj.delete table command)) })
  | _ => none

/-- Reading the raw object `this.config` as the configuration of the send hook. -/
def Config.ofObj (o : Obj) : Option Config :=
  match Obj.getOwn o (js "prefix"), Obj.getOwn o (js "commands") with
  | some (.str p), some (.object table) => some ⟨p, table⟩
  | _, _ => none

/-- Well-formedness of an object: no property name occurs twice. -/
def Obj.WF (o : Obj) : Prop := (Obj.keys o).Nodup

instance (o : Obj) : Decidable (Obj.WF o) :=
  inferInstanceAs (Decidable (Obj.keys o).Nodup)

/-- The object that `saveCommandsButton.onclick` assigns to `this.config.commands`: the copy
`{ ...newCommands }` of the table collected from the rows of the panel. -/
def saveCommandsClick.commands (rows : List (JsString × JsString)) : Obj :=
  spread [] (rows.foldl saveCommandsClick.step [])

instance : Inhabited Value := ⟨Value.undefined⟩

/-- What holds of the table that the Save Commands handler collects: distinct keys, never the
key `__proto__`, every name non-empty and trimmed, every response a non-empty trimmed string. -/
def CollectedTable (o : Obj) : Prop :=
  Obj.WF o ∧ js "__proto__" ∉ Obj.keys o ∧
    ∀ kv ∈ o, kv.1 ≠ [] ∧ trim kv.1 = kv.1 ∧
      ∃ r, kv.2 = Value.str r ∧ r ≠ [] ∧ trim r = r

/-! ## Numbers -/

/-- The Number values that the remind command computes with: the non-negative integers that a
double holds, `Infinity` and `NaN`. -/
inductive Num
  | fin (n : Nat)
  | inf
  | nan
  deriving DecidableEq, Repr

/-- How many low bits of `n` do not fit into the 53 significant bits of a double: the least
`e` with `n / 2 ^ e < 2 ^ 53`, found by halving at most `fuel` times. -/
def excessBits : Nat → Nat → Nat
  | 0, _ => 0
  | fuel + 1, n => if n < 2 ^ 53 then 0 else excessBits fuel (n / 2) + 1

/-- The Number value for the non-negative integer `n`: `n` itself below `2 ^ 53`, otherwise
`n` rounded to 53 significant bits, to nearest and on a tie to the even significand, and
`Infinity` when the rounded value reaches `2 ^ 1024`. -/
def toNumber (n : Nat) : Num :=
  let e := excessBits n n
  if e = 0 then .fin n
  else
    let q := n / 2 ^ e
    let r := n % 2 ^ e
    let q' := if 2 ^ (e - 1) < r ∨ (r = 2 ^ (e - 1) ∧ q % 2 = 1) then q + 1 else q
    if q' * 2 ^ e < 2 ^ 1024 then .fin (q' * 2 ^ e) else .inf

/-- The product `a * b` of two Number values. -/
def Num.mul : Num → Num → Num
  | .nan, _ => .nan
  | _, .nan => .nan
  | .inf, .inf => .inf
  | .inf, .fin b => if b = 0 then .nan else .inf
  | .fin a, .inf => if a = 0 then .nan else .inf
  | .fin a, .fin b => toNumber (a * b)

/-- The integer denoted by a string of decimal digits. -/
def digitsValue (digits : JsString) : Nat :=
  digits.foldl (fun acc c => acc * 10 + (c.toNat - 48)) 0

/-- `parseInt(digits)` for a non-empty string of decimal digits. -/
def parseInt (digits : JsString) : Num := toNumber (digitsValue digits)

/-- `time.match(/^(\d+)([mh])$/)`: the two captured groups, `none` for `null`. The greedy
`\d+` takes the longest run of ASCII digits at the start; what follows must be the single
character `m` or `h`, up to the end of the string. -/
def matchTime (time : JsString) : Option (JsString × Char) :=
  let digits := time.takeWhile Char.isDigit
  match time.dropWhile Char.isDigit with
  | [u] => if !digits.isEmpty && (u == 'm' || u == 'h') then some (digits, u) else none
  | _ => none

/-! ## Slash commands: surroundings and effects -/

/-- A user record of the host, by the text that `${user.avatar}` yields: the avatar hash, or
`null` for a user without one. -/
structure User where
  avatar : Option JsString

/-- The text of `${user.avatar}`. -/
def User.avatarText (user : User) : JsString :=
  match user.avatar with
  | some a => a
  | none => js "null"

/-- What a request `BdApi.Net.fetch(url)` followed by `response.json()` yields: the fetch
rejects, the body is not JSON, or the parsed body. -/
inductive FetchResult
  | networkError
  | notJson
  | body (data : Value)

/-- What the surroundings do during the run of a command: whether the module lookups
`BdApi.findModuleByProps('sendMessage')` and `('getUser')` find their module (they return
`undefined` otherwise), whether `sendMessage` throws, the user store, the value of
`getCurrentlySelectedChannelId()` (`none` when the channel module is missing), the answers of
the network, and the library functions `encodeURIComponent`, the conversion of a value that is
not a string to a string, and the text of a number from `1e21` on. -/
structure Collaborators where
  hasSendMessage : Bool
  hasGetUser : Bool
  sendFails : Bool
  getUser : JsString → Option User
  selectedChannelId : Option Value
  fetch : JsString → FetchResult
  encodeURIComponent : JsString → JsString
  toText : Value → JsString
  exponentText : Nat → JsString

/-- The argument of `execute`: the property `channelId` of the event and the values
`event[i]?.value` of its options, `none` for a missing one. -/
structure Event where
  channelId : Value
  args : List (Option JsString)

/-- `event[i]?.value ?? ''`. -/
def argValue (event : Event) (i : Nat) : JsString :=
  match event.args.get? i with
  | some (some v) => v
  | _ => []

/-- What a command does to its surroundings. -/
inductive Effect
  | send (channelId : Value) (message : Message)
  | setReminder (userId : JsString) (time : Num) (message : JsString) (channelId : Value)
  | logError (text : JsString)
  | fetch (url : JsString)
  | alert (a : Alert)

/-- The effects of a piece of code and how it ends: normally, or by an exception. -/
abbrev Block := List Effect × Except JsError Unit

/-- One run of `execute`: its effects in order, the fate of the promise it returns, and the
rejections of promises that nothing awaits. -/
structure Run where
  effects : List Effect
  result : Except JsError Unit
  unhandled : List JsError

/-- The message `{ content }`. -/
def plainMessage (content : JsString) : Message := ⟨.str content, []⟩

/-- The message `{ content, invalidEmojis: [], tts: false, validNonShortcutEmojis: [] }`. -/
def chatMessage (content : JsString) : Message :=
  ⟨.str content,
    [(js "invalidEmojis", .array []), (js "tts", .bool false),
      (js "validNonShortcutEmojis", .array [])]⟩

/-- The call `sendMessage(channelId, message)`. -/
def sendMessage (env : Collaborators) (channelId : Value) (message : Message) : Block :=
  if env.sendFails then ([], .error .hostError) else ([.send channelId message], .ok ())

/-- `event.channelId || modulesService.channelModule.getCurrentlySelectedChannelId()`. -/
def resolveChannel (env : Collaborators) (event : Event) : Except JsError Value :=
  if toBoolean event.channelId then .ok event.channelId
  else
    match env.selectedChannelId with
    | some c => .ok c
    | none => .error .typeError

/-- The text of `${amount}` for a Number. -/
def numberText (env : Collaborators) : Num → JsString
  | .fin n => if n < 10 ^ 21 then Nat.toDigits 10 n else env.exponentText n
  | .inf => js "Infinity"
  | .nan => js "NaN"

/-! ## The remind command -/

/-- The variable `timeInMs` of the remind command, `none` in the branch of an invalid unit. -/
def remindCommand.timeInMs (amount : Num) (unit : Char) : Option Num :=
  if unit = 'm' then some ((amount.mul (.fin 60)).mul (.fin 1000))
  else if unit = 'h' then some (((amount.mul (.fin 60)).mul (.fin 60)).mul (.fin 1000))
  else none

/-- The `try` block of `remindCommand.execute`. -/
def remindCommand.tryBlock (env : Collaborators) (event : Event) : Block :=
  if !env.hasSendMessage then ([], .error .typeError)
  else if !env.hasGetUser then ([], .error .typeError)
  else
    match resolveChannel env event with
    | .error e => ([], .error e)
    | .ok channelId =>
      let userId := argValue event 0
      let time := argValue event 1
      let message := argValue event 2
      if userId.isEmpty || time.isEmpty || message.isEmpty then ([], .ok ())
      else
        match env.getUser userId with
        | none => sendMessage env channelId (plainMessage (js "User not found!"))
        | some _ =>
          match matchTime time with
          | none =>
            sendMessage env channelId
              (plainMessage (js "Invalid time format. Use '10m' for minutes or '1h' for hours."))
          | some (digits, unit) =>
            let amount := parseInt digits
            match remindCommand.timeInMs amount unit with
            | none =>
              sendMessage env channelId
                (plainMessage (js "Invalid time unit. Use 'm' for minutes or 'h' for hours."))
            | some timeInMs =>
              let confirmation := sendMessage env channelId
                (chatMessage (js "Reminder set for <@" ++ userId ++ js "> in "
                  ++ numberText env amount ++ [unit] ++ js "."))
              (Effect.setReminder userId timeInMs message channelId :: confirmation.1,
                confirmation.2)

/-- `remindCommand.execute`: the `catch` block logs the error and then calls `sendMessage`
with `channelId`, two constants of the `try` block that are not in scope there, which raises
a `ReferenceError`. -/
def remindCommand.execute (env : Collaborators) (event : Event) : Run :=
  match remindCommand.tryBlock env event with
  | (effects, .ok _) => ⟨effects, .ok (), []⟩
  | (effects, .error _) =>
    ⟨effects ++ [.logError (js "Error executing remind command:")], .error .referenceError, []⟩

/-! ## The reminder service -/

/-- A timer armed by `setTimeout` and not yet fired: its handle, the delay it was armed with,
and the variables its callback closes over. -/
structure Timer where
  handle : Nat
  delay : Num
  userId : JsString
  message : JsString
  channelId : Value

/-- The reminder service and the timers of the host: the map `reminders` from user id to
timer handle, the pending timers in the order they were armed, the next fresh handle, what the
fired callbacks have done so far, and the rejections of their `sendReminder` promises. -/
structure ReminderService where
  reminders : List (JsString × Nat)
  timers : List Timer
  nextHandle : Nat
  effects : List Effect
  unhandled : List JsError

/-- The service as constructed: `reminders = new Map()`, no timer armed. -/
def ReminderService.initial : ReminderService :=
  { reminders := [], timers := [], nextHandle := 0, effects := [], unhandled := [] }

/-- `map.get(key)`. -/
def mapGet (m : List (JsString × Nat)) (key : JsString) : Option Nat :=
  match m with
  | [] => none
  | (k, v) :: rest => if k = key then some v else mapGet rest key

/-- `map.set(key, value)`: an existing key keeps its position. -/
def mapSet (m : List (JsString × Nat)) (key : JsString) (value : Nat) : List (JsString × Nat) :=
  match m with
  | [] => [(key, value)]
  | (k, v) :: rest => if k = key then (key, value) :: rest else (k, v) :: mapSet rest key value

/-- `map.delete(key)`. -/
def mapDelete (m : List (JsString × Nat)) (key : JsString) : List (JsString × Nat) :=
  m.filter (fun kv => decide (kv.1 ≠ key))

/-- `setReminder(userId, time, message, channelId)`: arms a timer and stores its handle under
the user id. -/
def ReminderService.setReminder (svc : ReminderService) (userId : JsString) (time : Num)
    (message : JsString) (channelId : Value) : ReminderService :=
  { svc with
    timers := svc.timers ++ [⟨svc.nextHandle, time, userId, message, channelId⟩]
    reminders := mapSet svc.reminders userId svc.nextHandle
    nextHandle := svc.nextHandle + 1 }

/-- `sendReminder(userId, message, channelId)`. -/
def ReminderService.sendReminder (env : Collaborators) (userId message : JsString)
    (channelId : Value) : Block :=
  if !env.hasSendMessage then ([], .error .typeError)
  else if !toBoolean channelId then ([], .ok ())
  else sendMessage env channelId (chatMessage (js "<@" ++ userId ++ js ">, reminder: " ++ message))

/-- The timer with the given handle fires: its callback calls `sendReminder`, whose promise
nothing awaits, and then `this.reminders.delete(userId)`. Without a pending timer of that
handle nothing happens. -/
def ReminderService.fire (env : Collaborators) (svc : ReminderService) (handle : Nat) :
    ReminderService :=
  match svc.timers.find? (fun t => t.handle == handle) with
  | none => svc
  | some t =>
    let sent := ReminderService.sendReminder env t.userId t.message t.channelId
    { reminders := mapDelete svc.reminders t.userId
      timers := svc.timers.filter (fun t' => t'.handle != handle)
      nextHandle := svc.nextHandle
      effects := svc.effects ++ sent.1
      unhandled := svc.unhandled ++
        (match sent.2 with
         | .ok _ => []
         | .error e => [e]) }

/-- A step of the reminder state machine: a call of `setReminder`, or the firing of a
timer. -/
inductive ReminderStep
  | set (userId : JsString) (time : Num) (message : JsString) (channelId : Value)
  | fire (handle : Nat)

/-- One step of the reminder state machine. -/
def ReminderService.step (env : Collaborators) (svc : ReminderService) :
    ReminderStep → ReminderService
  | .set userId time message channelId => svc.setReminder userId time message channelId
  | .fire handle => ReminderService.fire env svc handle

/-- A sequence of steps from the service as constructed. -/
def ReminderService.run (env : Collaborators) (steps : List ReminderStep) : ReminderService :=
  steps.foldl (ReminderService.step env) ReminderService.initial

/-- Consistency of the reminder bookkeeping: the handles of the pending timers are pairwise
distinct and below the next fresh handle, and every entry of the map `reminders` holds the
handle of a pending timer of that user. -/
def ReminderService.Consistent (svc : ReminderService) : Prop :=
  (∀ t ∈ svc.timers, t.handle < svc.nextHandle) ∧
  (svc.timers.map Timer.handle).Nodup ∧
  ∀ kv ∈ svc.reminders, ∃ t ∈ svc.timers, t.handle = kv.2 ∧ t.userId = kv.1

/-! ## The reminder service and the clock of the host -/

/-- One run of the callback of a timer: the handle of the timer, the time at which the host
ran it, and what the callback added to the effects of the service. -/
structure Firing where
  handle : Nat
  time : Nat
  effects : List Effect

/-- The reminder service together with the clock of the host: the time now, in milliseconds,
for every timer armed so far its handle with the time at which the host runs its callback, and
the runs of callbacks so far, in order. -/
structure HostClock where
  svc : ReminderService
  now : Nat
  dueAt : List (Nat × Nat)
  firings : List Firing

/-- The service as constructed, at time zero. -/
def HostClock.initial : HostClock :=
  { svc := ReminderService.initial, now := 0, dueAt := [], firings := [] }

/-- A call of `setReminder` at the time now: the callback of the timer it arms is due `wait time`
milliseconds later, where `wait` gives the time that the `setTimeout` of the host waits for a
delay. -/
def HostClock.setReminder (wait : Num → Nat) (c : HostClock) (userId : JsString) (time : Num)
    (message : JsString) (channelId : Value) : HostClock :=
  { svc := c.svc.setReminder userId time message channelId
    now := c.now
    dueAt := c.dueAt ++ [(c.svc.nextHandle, c.now + wait time)]
    firings := c.firings }

/-- The host runs the callback of the timer with handle `p.1` at its due time `p.2`; a timer
that is not pending has no callback left to run. -/
def HostClock.fire (env : Collaborators) (c : HostClock) (p : Nat × Nat) : HostClock :=
  match c.svc.timers.find? (fun t => t.handle == p.1) with
  | none => c
  | some _ =>
    { svc := ReminderService.fire env c.svc p.1
      now := c.now
      dueAt := c.dueAt
      firings := c.firings ++
        [⟨p.1, p.2, (ReminderService.fire env c.svc p.1).effects.drop c.svc.effects.length⟩] }

/-- The order in which the host runs callbacks: by due time. -/
def HostClock.earlier (a b : Nat × Nat) : Prop := a.2 ≤ b.2

instance : DecidableRel HostClock.earlier :=
  fun a b => inferInstanceAs (Decidable (a.2 ≤ b.2))

/-- The timers due up to the time `t`, in the order in which the host runs their callbacks: by
due time, timers of equal due time in the order they were armed. -/
def HostClock.due (c : HostClock) (t : Nat) : List (Nat × Nat) :=
  (c.dueAt.filter (fun p => decide (p.2 ≤ t))).insertionSort HostClock.earlier

/-- The time `ms` passes: the host runs the callbacks that are due up to the new time, and no
others. -/
def HostClock.elapse (env : Collaborators) (c : HostClock) (ms : Nat) : HostClock :=
  { (c.due (c.now + ms)).foldl (HostClock.fire env) c with now := c.now + ms }

/-- A step of the reminder service under the clock: a call of `setReminder`, or the passing of
time. -/
inductive ClockStep
  | set (userId : JsString) (time : Num) (message : JsString) (channelId : Value)
  | elapse (ms : Nat)

/-- One step of the reminder service under the clock. -/
def HostClock.step (wait : Num → Nat) (env : Collaborators) (c : HostClock) :
    ClockStep → HostClock
  | .set userId time message channelId => c.setReminder wait userId time message channelId
  | .elapse ms => c.elapse env ms

/-- A sequence of steps from the service as constructed. -/
def HostClock.run (wait : Num → Nat) (env : Collaborators) (steps : List ClockStep) :
    HostClock :=
  steps.foldl (HostClock.step wait env) HostClock.initial

/-- A sequence of steps from the state `c`. -/
def HostClock.after (wait : Num → Nat) (env : Collaborators) (c : HostClock)
    (steps : List ClockStep) : HostClock :=
  steps.foldl (HostClock.step wait env) c

/-- The time that passes in a sequence of steps. -/
def elapsedTime : List ClockStep → Nat
  | [] => 0
  | .set _ _ _ _ :: rest => elapsedTime rest
  | .elapse ms :: rest => ms + elapsedTime rest

/-- An example of a host, to run scenarios: its `setTimeout` waits for the delay itself when the
delay is an integer (as hosts do for a delay below `2 ^ 31`), and does not wait for the delays
`Infinity` and `NaN`. -/
def HostClock.exactWait : Num → Nat
  | .fin n => n
  | _ => 0

/-- Consistency of the timers under the clock: the handles of the pending timers, of the due
times and of the runs of callbacks are below the next fresh handle, no two pending timers share
a handle, and no handle has two due times. -/
def HostClock.Consistent (c : HostClock) : Prop :=
  (∀ t ∈ c.svc.timers, t.handle < c.svc.nextHandle) ∧
  (c.svc.timers.map Timer.handle).Nodup ∧
  (∀ p ∈ c.dueAt, p.1 < c.svc.nextHandle) ∧
  (c.dueAt.map Prod.fst).Nodup ∧
  ∀ f ∈ c.firings, f.handle < c.svc.nextHandle

/-! ## Command registration -/

/-- An entry of the `options` list of a command record. -/
structure CommandOption where
  name : JsString
  displayName : JsString
  description : JsString
  displayDescription : JsString
  required : Bool
  type : Nat
  deriving DecidableEq

/-- A command record of the host's command list, without its `execute` callback. -/
structure CommandRecord where
  id : JsString
  untranslatedName : JsString
  displayName : JsString
  type : Nat
  inputType : Nat
  applicationId : JsString
  untranslatedDescription : JsString
  displayDescription : JsString
  options : List CommandOption
  deriving DecidableEq

/-- The constant `profilePicName` of `PatchesService.start`. -/
def PatchesService.start.profilePicName : JsString :=
  js "avatar"

/-- The constant `profilePicDescription` of `PatchesService.start`. -/
def PatchesService.start.profilePicDescription : JsString :=
  js "Get the avatar URL for a user"

/-- The constant `urbanName` of `PatchesService.start`. -/
def PatchesService.start.urbanName : JsString :=
  js "urbanlookup"

/-- The constant `urbanDescription` of `PatchesService.start`. -/
def PatchesService.start.urbanDescription : JsString :=
  js "Look up a term on Urban Dictionary"

/-- The constant `urban2Name` of `PatchesService.start`. -/
def PatchesService.start.urban2Name : JsString :=
  js "urban2"

/-- The constant `urban2Description` of `PatchesService.start`. -/
def PatchesService.start.urban2Description : JsString :=
  js "Look up a term on Urban Dictionary and display detailed definitions in an alert window"

/-- The constant `lmgtfyName` of `PatchesService.start`. -/
def PatchesService.start.lmgtfyName : JsString :=
  js "lmgtfy"

/-- The constant `lmgtfyDescription` of `PatchesService.start`. -/
def PatchesService.start.lmgtfyDescription : JsString :=
  js "Generate a \"Let Me Google That For You\" link"

/-- The constant `petPetName` of `PatchesService.start`. -/
def PatchesService.start.petPetName : JsString :=
  js "petpet"

/-- The constant `petPetDescription` of `PatchesService.start`. -/
def PatchesService.start.petPetDescription : JsString :=
  js "Generate a PetPet GIF from the user avatar"

/-- The constant `swirlName` of `PatchesService.start`. -/
def PatchesService.start.swirlName : JsString :=
  js "swirl"

/-- The constant `swirlDescription` of `PatchesService.start`. -/
def PatchesService.start.swirlDescription : JsString :=
  js "Generate a Swirl GIF from the user avatar"

/-- The constant `defineName` of `PatchesService.start`. -/
def PatchesService.start.defineName : JsString :=
  js "define"

/-- The constant `defineDescription` of `PatchesService.start`. -/
def PatchesService.start.defineDescription : JsString :=
  js "Look up a term on Webster's Dictionary"

/-- The constant `whoisName` of `PatchesService.start`. -/
def PatchesService.start.whoisName : JsString :=
  js "whois"

/-- The constant `whoisDescription` of `PatchesService.start`. -/
def PatchesService.start.whoisDescription : JsString :=
  js "Look up WHOIS information for an IP address"

/-- The constant `rainbowName` of `PatchesService.start`. -/
def PatchesService.start.rainbowName : JsString :=
  js "rainbow"

/-- The constant `rainbowDescription` of `PatchesService.start`. -/
def PatchesService.start.rainbowDescription : JsString :=
  js "Post a rainbow video URL"

/-- The constant `qrName` of `PatchesService.start`. -/
def PatchesService.start.qrName : JsString :=
  js "qr"

/-- The constant `qrDescription` of `PatchesService.start`. -/
def PatchesService.start.qrDescription : JsString :=
  js "Generate a QR code for the given URL"

/-- The constant `pizzaName` of `PatchesService.start`. -/
def PatchesService.start.pizzaName : JsString :=
  js "pizza"

/-- The constant `pizzaDescription` of `PatchesService.start`. -/
def PatchesService.start.pizzaDescription : JsString :=
  js "Generate a Pizza GIF from the user avatar"

/-- The constant `moneyName` of `PatchesService.start`. -/
def PatchesService.start.moneyName : JsString :=
  js "money"

/-- The constant `moneyDescription` of `PatchesService.start`. -/
def PatchesService.start.moneyDescription : JsString :=
  js "Generate a Money GIF from the user avatar"

/-- The constant `remindName` of `PatchesService.start`. -/
def PatchesService.start.remindName : JsString :=
  js "remind"

/-- The constant `remindDescription` of `PatchesService.start`. -/
def PatchesService.start.remindDescription : JsString :=
  js "Set a reminder for a user"

/-- The record assigned to `this.profilePicCommand` by `PatchesService.start`, without its `execute`
callback. -/
def PatchesService.start.profilePicCommand : CommandRecord :=
  { id := js "Avatar-Command"
    untranslatedName := PatchesService.start.profilePicName
    displayName := PatchesService.start.profilePicName
    type := 1
    inputType := 0
    applicationId := js "-1"
    untranslatedDescription := PatchesService.start.profilePicDescription
    displayDescription := PatchesService.start.profilePicDescription
    options := [
      ⟨js "user", js "User", js "The user to get the avatar URL for",
        js "The user to get the avatar URL for", true, 6⟩ ] }

/-- The record assigned to `this.urbanCommand` by `PatchesService.start`, without its `execute`
callback. -/
def PatchesService.start.urbanCommand : CommandRecord :=
  { id := js "UrbanDictionary-Lookup"
    untranslatedName := PatchesService.start.urbanName
    displayName := PatchesService.start.urbanName
    type := 1
    inputType := 0
    applicationId := js "-1"
    untranslatedDescription := PatchesService.start.urbanDescription
    displayDescription := PatchesService.start.urbanDescription
    options := [
      ⟨js "term", js "Term", js "The term to look up on Urban Dictionary",
        js "The term to look up on Urban Dictionary", true, 3⟩ ] }

/-- The record assigned to `this.urban2Command` by `PatchesService.start`, without its `execute`
callback. -/
def PatchesService.start.urban2Command : CommandRecord :=
  { id := js "UrbanDictionary-Lookup-Detailed"
    untranslatedName := PatchesService.start.urban2Name
    displayName := PatchesService.start.urban2Name
    type := 1
    inputType := 0
    applicationId := js "-1"
    untranslatedDescription := PatchesService.start.urban2Description
    displayDescription := PatchesService.start.urban2Description
    options := [
      ⟨js "term", js "Term", js "The term to look up on Urban Dictionary",
        js "The term to look up on Urban Dictionary", true, 3⟩ ] }

/-- The record assigned to `this.lmgtfyCommand` by `PatchesService.start`, without its `execute`
callback. -/
def PatchesService.start.lmgtfyCommand : CommandRecord :=
  { id := js "Lmgtfy-Link"
    untranslatedName := PatchesService.start.lmgtfyName
    displayName := PatchesService.start.lmgtfyName
    type := 1
    inputType := 0
    applicationId := js "-1"
    untranslatedDescription := PatchesService.start.lmgtfyDescription
    displayDescription := PatchesService.start.lmgtfyDescription
    options := [
      ⟨js "query", js "Query", js "The search query to generate the LMGTFY link for",
        js "The search query to generate the LMGTFY link for", true, 3⟩ ] }

/-- The record assigned to `this.petPetCommand` by `PatchesService.start`, without its `execute`
callback. -/
def PatchesService.start.petPetCommand : CommandRecord :=
  { id := js "PetPet-Generator"
    untranslatedName := PatchesService.start.petPetName
    displayName := PatchesService.start.petPetName
    type := 1
    inputType := 0
    applicationId := js "-1"
    untranslatedDescription := PatchesService.start.petPetDescription
    displayDescription := PatchesService.start.petPetDescription
    options := [
      ⟨js "user", js "User", js "The user to generate the PetPet GIF for",
        js "The user to generate the PetPet GIF for", true, 6⟩ ] }

/-- The record assigned to `this.swirlCommand` by `PatchesService.start`, without its `execute`
callback. -/
def PatchesService.start.swirlCommand : CommandRecord :=
  { id := js "Swirl-Generator"
    untranslatedName := PatchesService.start.swirlName
    displayName := PatchesService.start.swirlName
    type := 1
    inputType := 0
    applicationId := js "-1"
    untranslatedDescription := PatchesService.start.swirlDescription
    displayDescription := PatchesService.start.swirlDescription
    options := [
      ⟨js "user", js "User", js "The user to generate the Swirl GIF for",
        js "The user to generate the Swirl GIF for", true, 6⟩ ] }

/-- The record assigned to `this.defineCommand` by `PatchesService.start`, without its `execute`
callback. -/
def PatchesService.start.defineCommand : CommandRecord :=
  { id := js "WebsterDictionary-Lookup"
    untranslatedName := PatchesService.start.defineName
    displayName := PatchesService.start.defineName
    type := 1
    inputType := 0
    applicationId := js "-1"
    untranslatedDescription := PatchesService.start.defineDescription
    displayDescription := PatchesService.start.defineDescription
    options := [
      ⟨js "term", js "Term", js "The term to look up on Webster's Dictionary",
        js "The term to look up on Webster's Dictionary", true, 3⟩ ] }

/-- The record assigned to `this.whoisCommand` by `PatchesService.start`, without its `execute`
callback. -/
def PatchesService.start.whoisCommand : CommandRecord :=
  { id := js "Whois-Lookup"
    untranslatedName := PatchesService.start.whoisName
    displayName := PatchesService.start.whoisName
    type := 1
    inputType := 0
    applicationId := js "-1"
    untranslatedDescription := PatchesService.start.whoisDescription
    displayDescription := PatchesService.start.whoisDescription
    options := [
      ⟨js "ip", js "IP Address", js "The IP address to look up WHOIS information for",
        js "The IP address to look up WHOIS information for", true, 3⟩ ] }

/-- The record assigned to `this.rainbowCommand` by `PatchesService.start`, without its `execute`
callback. -/
def PatchesService.start.rainbowCommand : CommandRecord :=
  { id := js "Rainbow-Command"
    untranslatedName := PatchesService.start.rainbowName
    displayName := PatchesService.start.rainbowName
    type := 1
    inputType := 0
    applicationId := js "-1"
    untranslatedDescription := PatchesService.start.rainbowDescription
    displayDescription := PatchesService.start.rainbowDescription
    options := [] }

/-- The record assigned to `this.qrCommand` by `PatchesService.start`, without its `execute`
callback. -/
def PatchesService.start.qrCommand : CommandRecord :=
  { id := js "QRCode-Generator"
    untranslatedName := PatchesService.start.qrName
    displayName := PatchesService.start.qrName
    type := 1
    inputType := 0
    applicationId := js "-1"
    untranslatedDescription := PatchesService.start.qrDescription
    displayDescription := PatchesService.start.qrDescription
    options := [
      ⟨js "url", js "URL", js "The URL to generate a QR code for",
        js "The URL to generate a QR code for", true, 3⟩ ] }

/-- The record assigned to `this.pizzaCommand` by `PatchesService.start`, without its `execute`
callback. -/
def PatchesService.start.pizzaCommand : CommandRecord :=
  { id := js "Pizza-Generator"
    untranslatedName := PatchesService.start.pizzaName
    displayName := PatchesService.start.pizzaName
    type := 1
    inputType := 0
    applicationId := js "-1"
    untranslatedDescription := PatchesService.start.pizzaDescription
    displayDescription := PatchesService.start.pizzaDescription
    options := [
      ⟨js "user", js "User", js "The user to generate the Pizza GIF for",
        js "The user to generate the Pizza GIF for", true, 6⟩ ] }

/-- The record assigned to `this.moneyCommand` by `PatchesService.start`, without its `execute`
callback. -/
def PatchesService.start.moneyCommand : CommandRecord :=
  { id := js "Money-Generator"
    untranslatedName := PatchesService.start.moneyName
    displayName := PatchesService.start.moneyName
    type := 1
    inputType := 0
    applicationId := js "-1"
    untranslatedDescription := PatchesService.start.moneyDescription
    displayDescription := PatchesService.start.moneyDescription
    options := [
      ⟨js "user", js "User", js "The user to generate the Money GIF for",
        js "The user to generate the Money GIF for", true, 6⟩ ] }

/-- The record assigned to `this.remindCommand` by `PatchesService.start`, without its `execute`
callback. -/
def PatchesService.start.remindCommand : CommandRecord :=
  { id := js "Remind-Command"
    untranslatedName := PatchesService.start.remindName
    displayName := PatchesService.start.remindName
    type := 1
    inputType := 0
    applicationId := js "-1"
    untranslatedDescription := PatchesService.start.remindDescription
    displayDescription := PatchesService.start.remindDescription
    options := [
      ⟨js "user", js "User", js "The user to remind",
        js "The user to remind", true, 6⟩,
      ⟨js "time", js "Time", js "The time to wait before reminding (e.g., 10m, 1h)",
        js "The time to wait before reminding (e.g., 10m, 1h)", true, 3⟩,
      ⟨js "message", js "Message", js "The message to remind the user of",
        js "The message to remind the user of", true, 3⟩ ] }

/-- The thirteen command fields of `PatchesService`; `none` is `undefined`. -/
structure PatchesService where
  profilePicCommand : Option CommandRecord
  urbanCommand : Option CommandRecord
  urban2Command : Option CommandRecord
  lmgtfyCommand : Option CommandRecord
  petPetCommand : Option CommandRecord
  swirlCommand : Option CommandRecord
  defineCommand : Option CommandRecord
  whoisCommand : Option CommandRecord
  rainbowCommand : Option CommandRecord
  qrCommand : Option CommandRecord
  pizzaCommand : Option CommandRecord
  moneyCommand : Option CommandRecord
  remindCommand : Option CommandRecord

/-- The service as constructed: every command field is `undefined`. -/
def PatchesService.initial : PatchesService :=
  { profilePicCommand := none
    urbanCommand := none
    urban2Command := none
    lmgtfyCommand := none
    petPetCommand := none
    swirlCommand := none
    defineCommand := none
    whoisCommand := none
    rainbowCommand := none
    qrCommand := none
    pizzaCommand := none
    moneyCommand := none
    remindCommand := none }

/-- The assignments of `PatchesService.start` to the thirteen command fields. -/
def PatchesService.start (_p : PatchesService) : PatchesService :=
  { profilePicCommand := some PatchesService.start.profilePicCommand
    urbanCommand := some PatchesService.start.urbanCommand
    urban2Command := some PatchesService.start.urban2Command
    lmgtfyCommand := some PatchesService.start.lmgtfyCommand
    petPetCommand := some PatchesService.start.petPetCommand
    swirlCommand := some PatchesService.start.swirlCommand
    defineCommand := some PatchesService.start.defineCommand
    whoisCommand := some PatchesService.start.whoisCommand
    rainbowCommand := some PatchesService.start.rainbowCommand
    qrCommand := some PatchesService.start.qrCommand
    pizzaCommand := some PatchesService.start.pizzaCommand
    moneyCommand := some PatchesService.start.moneyCommand
    remindCommand := some PatchesService.start.remindCommand }

/-- The assignments of `PatchesService.stop` to the thirteen command fields. -/
def PatchesService.stop (_p : PatchesService) : PatchesService :=
  { profilePicCommand := none
    urbanCommand := none
    urban2Command := none
    lmgtfyCommand := none
    petPetCommand := none
    swirlCommand := none
    defineCommand := none
    whoisCommand := none
    rainbowCommand := none
    qrCommand := none
    pizzaCommand := none
    moneyCommand := none
    remindCommand := none }

/-- The thirteen command fields in the order in which the registration hook tests them and
pushes them. -/
def PatchesService.commands (p : PatchesService) : List (Option CommandRecord) :=
  [p.profilePicCommand,
    p.urbanCommand,
    p.urban2Command,
    p.lmgtfyCommand,
    p.petPetCommand,
    p.swirlCommand,
    p.defineCommand,
    p.whoisCommand,
    p.rainbowCommand,
    p.qrCommand,
    p.pizzaCommand,
    p.moneyCommand,
    p.remindCommand]

/-- The callback that `PatchesService.start` installs after the host's command lookup, applied
to the list `result` that the lookup returned: the list after the call, and what was logged.
When one of the thirteen fields is falsy it logs an error and returns; otherwise it pushes the
thirteen records. -/
def PatchesService.registerCommands (p : PatchesService) (result : List CommandRecord) :
    List CommandRecord × List Effect :=
  if (PatchesService.commands p).all Option.isSome then
    (result ++ (PatchesService.commands p).filterMap id, [])
  else (result, [.logError (js "One or more commands are undefined.")])

/-! ## The avatar, rainbow and GIF commands -/

/-- The `try` block of `profilePicCommand.execute`. -/
def profilePicCommand.tryBlock (env : Collaborators) (event : Event) : Block :=
  if !env.hasSendMessage then ([], .error .typeError)
  else if !env.hasGetUser then ([], .error .typeError)
  else
    match resolveChannel env event with
    | .error e => ([], .error e)
    | .ok channelId =>
      let userId := argValue event 0
      if userId.isEmpty then ([], .ok ())
      else
        match env.getUser userId with
        | none => sendMessage env channelId (plainMessage (js "User not found!"))
        | some user =>
          sendMessage env channelId
            (chatMessage (js "https://cdn.discordapp.com/avatars/" ++ userId ++ js "/"
              ++ user.avatarText ++ js ".png"))

/-- `profilePicCommand.execute`: the `catch` block logs the error. -/
def profilePicCommand.execute (env : Collaborators) (event : Event) : Run :=
  match profilePicCommand.tryBlock env event with
  | (effects, .ok _) => ⟨effects, .ok (), []⟩
  | (effects, .error _) =>
    ⟨effects ++ [.logError (js "Error executing avatar command:")], .ok (), []⟩

/-- The `try` block of `rainbowCommand.execute`. -/
def rainbowCommand.tryBlock (env : Collaborators) (event : Event) : Block :=
  if !env.hasSendMessage then ([], .error .typeError)
  else
    match resolveChannel env event with
    | .error e => ([], .error e)
    | .ok channelId =>
      sendMessage env channelId
        (chatMessage (js "https://tehurn.com/media/RainbowTroloload.webm"))

/-- `rainbowCommand.execute`: the `catch` block logs the error and then calls `sendMessage`
with `channelId`, two constants of the `try` block that are not in scope there, which raises
a `ReferenceError`. -/
def rainbowCommand.execute (env : Collaborators) (event : Event) : Run :=
  match rainbowCommand.tryBlock env event with
  | (effects, .ok _) => ⟨effects, .ok (), []⟩
  | (effects, .error _) =>
    ⟨effects ++ [.logError (js "Error executing rainbow command:")], .error .referenceError, []⟩

/-- The property read `data.name` on a parsed response body, for the names that the commands
and the adapters read (`error`, `url`, `result_type`, `list`, `definition`, `example`, `title`,
`meanings`, `definitions`, `country_name`, `state`, `city`, `IPv4`), none of which a string, a
number, a boolean or an array has: a `TypeError` on `null` or `undefined`, the property of an
object, and `undefined` on any other value. -/
def readField (data : Value) (name : JsString) : Except JsError Value :=
  match data with
  | .null => .error .typeError
  | .undefined => .error .typeError
  | .object props => .ok (getProp props name)
  | _ => .ok .undefined

/-- The text of `${value}`: the string itself, and the conversion of the runtime for any other
value. -/
def templateText (env : Collaborators) : Value → JsString
  | .str s => s
  | v => env.toText v

/-- The inner asynchronous function `generatePetPet`, `generateSwirl`, `generatePizza` or
`generateMoney`, for the endpoint and the failure text of the command. -/
def gifCommand.generate (env : Collaborators) (channelId : Value)
    (endpoint failure avatarUrl : JsString) : Block :=
  let url := js "https://gifstuffapi.com/" ++ endpoint ++ js "/?image="
    ++ env.encodeURIComponent avatarUrl
  match env.fetch url with
  | .networkError => ([.fetch url], .error .hostError)
  | .notJson => ([.fetch url], .error .hostError)
  | .body result =>
    match readField result (js "error"), readField result (js "url") with
    | .error e, _ => ([.fetch url], .error e)
    | .ok _, .error e => ([.fetch url], .error e)
    | .ok error, .ok resultUrl =>
      let sent :=
        if toBoolean error || !toBoolean resultUrl then
          sendMessage env channelId (plainMessage failure)
        else sendMessage env channelId (chatMessage (templateText env resultUrl))
      (Effect.fetch url :: sent.1, sent.2)

/-- The `execute` callback shared, up to the endpoint and the failure text, by the petpet,
swirl, pizza and money commands. It has no `try` block, and it calls the inner asynchronous
function without awaiting it. -/
def gifCommand.execute (endpoint failure : JsString) (env : Collaborators) (event : Event) :
    Run :=
  if !env.hasSendMessage then ⟨[], .error .typeError, []⟩
  else if !env.hasGetUser then ⟨[], .error .typeError, []⟩
  else
    match resolveChannel env event with
    | .error e => ⟨[], .error e, []⟩
    | .ok channelId =>
      let userId := argValue event 0
      if userId.isEmpty then ⟨[], .ok (), []⟩
      else
        match env.getUser userId with
        | none =>
          let sent := sendMessage env channelId (plainMessage (js "User not found!"))
          ⟨sent.1, sent.2, []⟩
        | some user =>
          let avatarUrl := js "https://cdn.discordapp.com/avatars/" ++ userId ++ js "/"
            ++ user.avatarText ++ js ".png"
          let generated := gifCommand.generate env channelId endpoint failure avatarUrl
          ⟨generated.1, .ok (),
            match generated.2 with
            | .ok _ => []
            | .error e => [e]⟩

/-- `petPetCommand.execute`. -/
def petPetCommand.execute (env : Collaborators) (event : Event) : Run :=
  gifCommand.execute (js "petpet") (js "Failed to generate PetPet GIF.") env event

/-- `swirlCommand.execute`. -/
def swirlCommand.execute (env : Collaborators) (event : Event) : Run :=
  gifCommand.execute (js "swirl") (js "Failed to generate Swirl GIF.") env event

/-- `pizzaCommand.execute`. -/
def pizzaCommand.execute (env : Collaborators) (event : Event) : Run :=
  gifCommand.execute (js "pizza") (js "Failed to generate Pizza GIF.") env event

/-- `moneyCommand.execute`. -/
def moneyCommand.execute (env : Collaborators) (event : Event) : Run :=
  gifCommand.execute (js "money") (js "Failed to generate Money GIF.") env event

/-! ## Regular expressions and `isValidIPv4` -/

/-- The regular expressions of `Utils.isValidIPv4`: a class of characters `[lo-hi]` (a single
character when `lo = hi`), a sequence, an alternative, and an optional item `a?`. -/
inductive Regex
  | range (lo hi : Char)
  | seq (a b : Regex)
  | alt (a b : Regex)
  | opt (a : Regex)
  deriving DecidableEq

/-- Matching with backtracking: the strings that can remain after the expression has matched
at the start of `s`, in the order in which the matcher tries them (the left alternative first,
an optional item first taken, then skipped). -/
def Regex.rests : Regex → JsString → List JsString
  | .range _ _, [] => []
  | .range lo hi, c :: s => if lo.toNat ≤ c.toNat ∧ c.toNat ≤ hi.toNat then [s] else []
  | .seq a b, s => (a.rests s).flatMap (fun t => b.rests t)
  | .alt a b, s => a.rests s ++ b.rests s
  | .opt a, s => a.rests s ++ [s]

/-- The test of the anchored expression: `/^r$/.test(s)`, true when some way of matching
leaves nothing. -/
def Regex.test (r : Regex) (s : JsString) : Bool := (r.rests s).any List.isEmpty

/-- The group `(25[0-5]|2[0-4][0-9]|[01]?[0-9][0-9]?)` of the expression of `isValidIPv4`. -/
def Utils.isValidIPv4.group : Regex :=
  .alt (.seq (.range '2' '2') (.seq (.range '5' '5') (.range '0' '5')))
    (.alt (.seq (.range '2' '2') (.seq (.range '0' '4') (.range '0' '9')))
      (.seq (.opt (.range '0' '1')) (.seq (.range '0' '9') (.opt (.range '0' '9')))))

/-- The constant `regex` of `isValidIPv4`, between its anchors `^` and `$`: four groups
separated by `\.`. -/
def Utils.isValidIPv4.regex : Regex :=
  .seq Utils.isValidIPv4.group (.seq (.range '.' '.')
    (.seq Utils.isValidIPv4.group (.seq (.range '.' '.')
      (.seq Utils.isValidIPv4.group (.seq (.range '.' '.') Utils.isValidIPv4.group)))))

/-- `Utils.isValidIPv4(ip)`. -/
def Utils.isValidIPv4 (ip : JsString) : Bool := Regex.test Utils.isValidIPv4.regex ip

/-- A group of an IPv4 address as the claim words it: one to three ASCII decimal digits of
numeric value at most 255 (leading zeros allowed). -/
def IPv4Group (g : JsString) : Prop :=
  1 ≤ g.length ∧ g.length ≤ 3 ∧ (∀ c ∈ g, c.isDigit = true) ∧ digitsValue g ≤ 255

/-! ## The lookup adapters -/

/-- The character `"`. -/
def doubleQuote : Char := Char.ofNat 34

/-- The line feed. -/
def lineFeed : Char := Char.ofNat 10

/-- The carriage return. -/
def carriageReturn : Char := Char.ofNat 13

/-- The characters that `encodeURIComponent` leaves as they are: the ASCII letters and digits
and the marks `- _ . ! ~ * ' ( )`. -/
def isUnreserved (c : Char) : Bool :=
  c.isAlphanum || c == '-' || c == '_' || c == '.' || c == '!' || c == '~' || c == '*' ||
    c == Char.ofNat 39 || c == '(' || c == ')'

/-- The upper-case hexadecimal digit of a number below 16. -/
def hexDigit (d : Nat) : Char :=
  if d < 10 then Char.ofNat (48 + d) else Char.ofNat (55 + d)

/-- The escape `%XX` of one octet. -/
def percentByte (b : Nat) : JsString := ['%', hexDigit (b / 16), hexDigit (b % 16)]

/-- The octets of the UTF-8 encoding of a code point. -/
def utf8Bytes (n : Nat) : List Nat :=
  if n < 0x80 then [n]
  else if n < 0x800 then [0xC0 + n / 64, 0x80 + n % 64]
  else if n < 0x10000 then [0xE0 + n / 4096, 0x80 + n / 64 % 64, 0x80 + n % 64]
  else [0xF0 + n / 262144, 0x80 + n / 4096 % 64, 0x80 + n / 64 % 64, 0x80 + n % 64]

/-- The built-in `encodeURIComponent(s)` on a string of whole code points: an unreserved
character stays, any other character becomes the escapes of the octets of its UTF-8 encoding. -/
def encodeURIComponent (s : JsString) : JsString :=
  s.flatMap (fun c =>
    if isUnreserved c then [c] else (utf8Bytes c.toNat).flatMap percentByte)

/-- The element read `value[0]`: a `TypeError` on `null` or `undefined`, the first element of
an array, the property `0` of an object, the first character of a string, and `undefined`
where there is none and on any other value. -/
def readIndex0 (value : Value) : Except JsError Value :=
  match value with
  | .null => .error .typeError
  | .undefined => .error .typeError
  | .array items => .ok (items.head?.getD .undefined)
  | .object props => .ok (getProp props (js "0"))
  | .str (c :: _) => .ok (.str [c])
  | .stringObject (c :: _) => .ok (.str [c])
  | _ => .ok .undefined

/-- The comparison `value === text` with a string `text`. -/
def strictEqualsString (value : Value) (text : JsString) : Bool :=
  match value with
  | .str s => s == text
  | _ => false

/-- Whether the conversion of a value to a string raises a `TypeError`: it does for a parsed
object with an own property `toString` (which is never a function, and the inherited `valueOf`
returns the object itself), and for an array with such an element, which `join` converts in
turn. -/
def conversionThrows : Value → Bool
  | .object props => (Obj.getOwn props (js "toString")).isSome
  | .array items => go items
  | _ => false
where
  /-- Whether the conversion of one of the values raises a `TypeError`. -/
  go : List Value → Bool
  | [] => false
  | v :: vs => conversionThrows v || go vs

/-- The conversion of `${value}` inside a template, which may raise a `TypeError`. -/
def convertText (env : Collaborators) (value : Value) : Except JsError JsString :=
  if conversionThrows value then .error .typeError else .ok (templateText env value)

/-- The text of `${value || fallback}`. -/
def convertTextOr (env : Collaborators) (value : Value) (fallback : JsString) :
    Except JsError JsString :=
  if toBoolean value then convertText env value else .ok fallback

/-- The effects of an asynchronous method of an adapter and the fate of the promise it
returns: the value it resolves to, or the exception it rejects with. -/
abbrev Lookup (α : Type) := List Effect × Except JsError α

/-- The address that `UrbanDictionaryService.lookup(term)` requests. -/
def UrbanDictionaryService.lookup.url (term : JsString) : JsString :=
  js "https://api.urbandictionary.com/v0/define?term=" ++ encodeURIComponent term

/-- What `UrbanDictionaryService.lookup` makes of the parsed body `data`. -/
def UrbanDictionaryService.lookup.format (env : Collaborators) (term : JsString)
    (data : Value) : Except JsError JsString := do
  let resultType ← readField data (js "result_type")
  if strictEqualsString resultType (js "no_results") then
    pure (js "No results found for " ++ doubleQuote :: term
      ++ doubleQuote :: js " on Urban Dictionary.")
  else
    let list ← readField data (js "list")
    let first ← readIndex0 list
    let definition ← readField first (js "definition")
    let exampleValue ← readField first (js "example")
    let definitionText ← convertText env definition
    let exampleText ← convertText env exampleValue
    pure (js "**" ++ encodeURIComponent term ++ js "**" ++ lineFeed :: js "**Definition**: "
      ++ definitionText ++ lineFeed :: js "**Example**: " ++ exampleText)

/-- The `try` block of `UrbanDictionaryService.lookup`. -/
def UrbanDictionaryService.lookup.tryBlock (env : Collaborators) (term : JsString) :
    Lookup JsString :=
  let url := UrbanDictionaryService.lookup.url term
  match env.fetch url with
  | .networkError => ([.fetch url], .error .hostError)
  | .notJson => ([.fetch url], .error .hostError)
  | .body data => ([.fetch url], UrbanDictionaryService.lookup.format env term data)

/-- `UrbanDictionaryService.lookup(term)`: the `catch` block logs the error through the logger
that `BaseService` sets, and returns the fixed text. -/
def UrbanDictionaryService.lookup (env : Collaborators) (term : JsString) : Lookup JsString :=
  match UrbanDictionaryService.lookup.tryBlock env term with
  | (effects, .ok text) => (effects, .ok text)
  | (effects, .error _) =>
    (effects ++ [.logError (js "Error looking up term:")],
      .ok (js "An error occurred while looking up the term."))

/-- `LmgtfyService.generateLink(query)`. -/
def LmgtfyService.generateLink (query : JsString) : JsString :=
  js "https://letmegooglethat.com/?q=" ++ encodeURIComponent query

/-- The address that `WebsterDictionaryService.lookup(term)` requests. -/
def WebsterDictionaryService.lookup.url (term : JsString) : JsString :=
  js "https://api.dictionaryapi.dev/api/v2/entries/en/" ++ encodeURIComponent term

/-- What `WebsterDictionaryService.lookup` makes of the parsed body `data`. -/
def WebsterDictionaryService.lookup.format (env : Collaborators) (term : JsString)
    (data : Value) : Except JsError JsString := do
  let title ← readField data (js "title")
  if strictEqualsString title (js "No Definitions Found") then
    pure (js "No results found for " ++ doubleQuote :: term
      ++ doubleQuote :: js " on Webster's Dictionary.")
  else
    let entry ← readIndex0 data
    let meanings ← readField entry (js "meanings")
    let meaning ← readIndex0 meanings
    let definitions ← readField meaning (js "definitions")
    let first ← readIndex0 definitions
    let definition ← readField first (js "definition")
    let exampleValue ← readField first (js "example")
    let definitionText ← convertText env definition
    let exampleText ← convertTextOr env exampleValue (js "No example available.")
    pure (js "**" ++ encodeURIComponent term ++ js "**" ++ lineFeed :: js "**Definition**: "
      ++ definitionText ++ lineFeed :: js "**Example**: " ++ exampleText)

/-- The `try` block of `WebsterDictionaryService.lookup`. -/
def WebsterDictionaryService.lookup.tryBlock (env : Collaborators) (term : JsString) :
    Lookup JsString :=
  let url := WebsterDictionaryService.lookup.url term
  match env.fetch url with
  | .networkError => ([.fetch url], .error .hostError)
  | .notJson => ([.fetch url], .error .hostError)
  | .body data => ([.fetch url], WebsterDictionaryService.lookup.format env term data)

/-- `WebsterDictionaryService.lookup(term)`: the `catch` block logs the error through the
logger that `BaseService` sets, and returns the fixed text. -/
def WebsterDictionaryService.lookup (env : Collaborators) (term : JsString) :
    Lookup JsString :=
  match WebsterDictionaryService.lookup.tryBlock env term with
  | (effects, .ok text) => (effects, .ok text)
  | (effects, .error _) =>
    (effects ++ [.logError (js "Error looking up term:")],
      .ok (js "An error occurred while looking up the term on Webster's Dictionary."))

/-- The address that `WhoisService.lookup(ip)` requests: `ip` is inserted as it is. -/
def WhoisService.lookup.url (ip : JsString) : JsString :=
  js "https://geolocation-db.com/json/" ++ ip ++ js "&position=true"

/-- What `WhoisService.lookup` makes of the parsed body `data`. -/
def WhoisService.lookup.format (env : Collaborators) (ip : JsString) (data : Value) :
    Except JsError JsString := do
  let countryName ← readField data (js "country_name")
  if !toBoolean countryName then
    pure (js "No WHOIS data found for IP address " ++ doubleQuote :: ip
      ++ doubleQuote :: js ".")
  else
    let state ← readField data (js "state")
    let city ← readField data (js "city")
    let address ← readField data (js "IPv4")
    let addressText ← convertText env address
    let countryText ← convertText env countryName
    let stateText ← convertTextOr env state (js "N/A")
    let cityText ← convertTextOr env city (js "N/A")
    pure (js "**IP Address**: " ++ addressText ++ lineFeed :: js "**Country**: " ++ countryText
      ++ lineFeed :: js "**State**: " ++ stateText ++ lineFeed :: js "**City**: " ++ cityText)

/-- The `try` block of `WhoisService.lookup`. -/
def WhoisService.lookup.tryBlock (env : Collaborators) (ip : JsString) : Lookup JsString :=
  let url := WhoisService.lookup.url ip
  match env.fetch url with
  | .networkError => ([.fetch url], .error .hostError)
  | .notJson => ([.fetch url], .error .hostError)
  | .body data => ([.fetch url], WhoisService.lookup.format env ip data)

/-- `WhoisService.lookup(ip)`. The class `WhoisService` does not extend `BaseService` and has
no constructor of its own, so `this.logger` is `undefined`: in the `catch` block the call
`this.logger.error(...)` raises a `TypeError`, nothing is logged and the fixed text is not
returned. -/
def WhoisService.lookup (env : Collaborators) (ip : JsString) : Lookup JsString :=
  match WhoisService.lookup.tryBlock env ip with
  | (effects, .ok text) => (effects, .ok text)
  | (effects, .error _) => (effects, .error .typeError)

/-- The address that `QRCodeService.generateQRCode(url)` requests. -/
def QRCodeService.generateQRCode.apiUrl (url : JsString) : JsString :=
  js "https://gifstuffapi.com/qr/?url=" ++ encodeURIComponent url

/-- The `try` block of `QRCodeService.generateQRCode`. -/
def QRCodeService.generateQRCode.tryBlock (env : Collaborators) (url : JsString) :
    Lookup Value :=
  let apiUrl := QRCodeService.generateQRCode.apiUrl url
  match env.fetch apiUrl with
  | .networkError => ([.fetch apiUrl], .error .hostError)
  | .notJson => ([.fetch apiUrl], .error .hostError)
  | .body data =>
    match readField data (js "url") with
    | .error e => ([.fetch apiUrl], .error e)
    | .ok found =>
      if !toBoolean found then
        ([.fetch apiUrl, .logError (js "No URL found in the API response:")], .ok .null)
      else ([.fetch apiUrl], .ok found)

/-- `QRCodeService.generateQRCode(url)`: the `catch` block logs the error through the logger
that `BaseService` sets, and returns `null`. -/
def QRCodeService.generateQRCode (env : Collaborators) (url : JsString) : Lookup Value :=
  match QRCodeService.generateQRCode.tryBlock env url with
  | (effects, .ok found) => (effects, .ok found)
  | (effects, .error _) =>
    (effects ++ [.logError (js "Error generating QR code:")], .ok .null)

/-- The `try` block of `whoisCommand.execute`. -/
def whoisCommand.tryBlock (env : Collaborators) (event : Event) : Block :=
  let ip := argValue event 0
  if ip.isEmpty || !Utils.isValidIPv4 ip then
    ([.alert ⟨js "Error", js "Please provide a valid IPv4 address."⟩], .ok ())
  else
    match WhoisService.lookup env ip with
    | (effects, .error e) => (effects, .error e)
    | (effects, .ok result) => (effects ++ [.alert ⟨js "IP Info", result⟩], .ok ())

/-- `whoisCommand.execute`: the `catch` block logs the error and shows an alert. -/
def whoisCommand.execute (env : Collaborators) (event : Event) : Run :=
  match whoisCommand.tryBlock env event with
  | (effects, .ok _) => ⟨effects, .ok (), []⟩
  | (effects, .error _) =>
    ⟨effects ++ [.logError (js "Error executing whois command:"),
      .alert ⟨js "Error", js "an error has occurred"⟩], .ok (), []⟩

/-! ## The urban2 command -/

/-- A record of the list that the Urban Dictionary API returns, with the fields that the urban2
command reads: the texts `definition`, `example`, `author` and `written_on`, and the counts
`thumbs_up` and `thumbs_down`, which are non-negative integers. -/
structure UrbanDefinition where
  definition : JsString
  exampleText : JsString
  thumbs_up : Nat
  thumbs_down : Nat
  author : JsString
  written_on : JsString
  deriving DecidableEq

/-- What the request of the urban2 command yields, for the runs that the model covers: the
request fails or its body is not JSON, or the body is an object whose `list` is an array of
records of the shape of `UrbanDefinition`. -/
inductive UrbanAnswer
  | failure
  | definitions (list : List UrbanDefinition)

/-- `text.replace(/[\[\]]/g, "")`: the text without its square brackets. -/
def stripBrackets (text : JsString) : JsString :=
  text.filter (fun c => c != '[' && c != ']')

/-- The order in which the comparator `(a, b) => b.thumbs_up - a.thumbs_up` puts `a` before
`b` or leaves them as they are: `a` has at least the count of `b`. -/
def UrbanDefinition.moreLiked (a b : UrbanDefinition) : Prop := b.thumbs_up ≤ a.thumbs_up

instance : DecidableRel UrbanDefinition.moreLiked :=
  fun a b => inferInstanceAs (Decidable (b.thumbs_up ≤ a.thumbs_up))

/-- The array after `data.list.sort((a, b) => b.thumbs_up - a.thumbs_up)`: the comparator is
consistent on integer counts, so the sort yields the arrangement in its order, records of
equal count staying in the order they had. -/
def urban2Command.sorted (list : List UrbanDefinition) : List UrbanDefinition :=
  list.insertionSort UrbanDefinition.moreLiked

/-- The fourteen blanks that start the lines of the template. -/
def urban2Command.indent : JsString := List.replicate 14 space

/-- The text that the callback of `map` builds for the record `definitionBlob` at `index`,
with `formatDate` for `new Date(...).toLocaleString()`. -/
def urban2Command.definitionText (env : Collaborators) (formatDate : JsString → JsString)
    (index : Nat) (definitionBlob : UrbanDefinition) : JsString :=
  let definition := stripBrackets definitionBlob.definition
  let exampleText := stripBrackets definitionBlob.exampleText
  let likes := numberText env (.fin definitionBlob.thumbs_up)
  let dislikes := numberText env (.fin definitionBlob.thumbs_down)
  let author := definitionBlob.author
  let date := formatDate definitionBlob.written_on
  lineFeed :: urban2Command.indent ++ js "Definition " ++ numberText env (.fin (index + 1))
    ++ js ":"
    ++ lineFeed :: urban2Command.indent ++ definition
    ++ lineFeed :: lineFeed :: urban2Command.indent ++ js "Example:"
    ++ lineFeed :: urban2Command.indent ++ exampleText
    ++ lineFeed :: lineFeed :: urban2Command.indent ++ js "Likes: " ++ likes
    ++ js ", Dislikes: " ++ dislikes ++ js ", Author: " ++ author ++ js ", Date: " ++ date
    ++ lineFeed :: urban2Command.indent ++ List.replicate 42 '-'
    ++ lineFeed :: List.replicate 12 space

/-- The array `definitionTexts`: the texts of the first four records of the sorted list. -/
def urban2Command.definitionTexts (env : Collaborators) (formatDate : JsString → JsString)
    (list : List UrbanDefinition) : List JsString :=
  ((urban2Command.sorted list).take 4).mapIdx (urban2Command.definitionText env formatDate)

/-- The address that the urban2 command requests. -/
def urban2Command.url (term : JsString) : JsString :=
  js "https://api.urbandictionary.com/v0/define?term=" ++ encodeURIComponent term

/-- The `try` block of `urban2Command.execute`, with `answer` for what the request yields. -/
def urban2Command.tryBlock (env : Collaborators) (answer : JsString → UrbanAnswer)
    (formatDate : JsString → JsString) (event : Event) : Block :=
  let term := argValue event 0
  if term.isEmpty then ([], .ok ())
  else
    let url := urban2Command.url term
    match answer url with
    | .failure => ([.fetch url], .error .hostError)
    | .definitions list =>
      if list.length = 0 then
        ([.fetch url,
          .alert ⟨js "No Definition Found", js "No definition found for " ++ doubleQuote :: term
            ++ doubleQuote :: js " on Urban Dictionary."⟩], .ok ())
      else
        let alertContent :=
          [lineFeed].intercalate (urban2Command.definitionTexts env formatDate list)
        ([.fetch url, .alert ⟨js "Urban Dictionary: " ++ term, alertContent⟩], .ok ())

/-- `urban2Command.execute`: the `catch` block logs the error and shows an alert. -/
def urban2Command.execute (env : Collaborators) (answer : JsString → UrbanAnswer)
    (formatDate : JsString → JsString) (event : Event) : Run :=
  match urban2Command.tryBlock env answer formatDate event with
  | (effects, .ok _) => ⟨effects, .ok (), []⟩
  | (effects, .error _) =>
    ⟨effects ++ [.logError (js "Error executing urban2 command:"),
      .alert ⟨js "Error", js "An error occurred while looking up the term."⟩], .ok (), []⟩

/-! ## Opening the settings panel -/

/-- `text.replace(pattern, "")` for a string `pattern`: the text without the first occurrence
of the pattern. -/
def removeFirst (text pattern : JsString) : JsString :=
  match text with
  | [] => []
  | c :: rest =>
    if startsWith (c :: rest) pattern then (c :: rest).drop pattern.length
    else c :: removeFirst rest pattern

/-- The value that a text field holds after the assignment `input.value = value`: a text field
drops the line breaks of its value. -/
def textFieldValue (value : JsString) : JsString :=
  value.filter (fun c => c != lineFeed && c != carriageReturn)

/-- The value that a `textarea` yields after the assignment `textarea.value = value`: a
carriage return with the line feed after it, and any other carriage return, reads as one line
feed. The flag tells that the character before was a carriage return. -/
def textAreaValue.go (afterReturn : Bool) : JsString → JsString
  | [] => []
  | c :: rest =>
    if c = carriageReturn then lineFeed :: textAreaValue.go true rest
    else if c = lineFeed then
      if afterReturn then textAreaValue.go false rest
      else lineFeed :: textAreaValue.go false rest
    else c :: textAreaValue.go false rest

/-- The value that a `textarea` yields after the assignment `textarea.value = value`. -/
def textAreaValue (value : JsString) : JsString := textAreaValue.go false value

/-- The row that `getSettingsPanel` builds for the table key `command`: the value of its
command field, set to `command.replace(this.config.prefix, "")`, and the value of its response
field, set to `this.config.commands[command] || ""`, whose conversion to a string may raise a
`TypeError`. -/
def getSettingsPanel.row (env : Collaborators) (config : Config) (command : JsString) :
    Except JsError (JsString × JsString) := do
  let commandValue := textFieldValue (removeFirst command config.commandPrefix)
  let responseValue ← convertTextOr env (getProp config.commands command) []
  pure (commandValue, textAreaValue responseValue)

/-- The command rows of the panel that `getSettingsPanel` builds, in document order: one for
each key of `Object.keys(this.config.commands)`. -/
def getSettingsPanel.rows (env : Collaborators) (config : Config) :
    Except JsError (List (JsString × JsString)) :=
  (Obj.keys config.commands).mapM (getSettingsPanel.row env config)

/-! ## Lemmas on strings -/

theorem startsWith_append (p r : JsString) : startsWith (p ++ r) p = true := by
  induction p with
  | nil => simp [startsWith, List.isPrefixOf]
  | cons c p ih => simp [startsWith, List.isPrefixOf]

theorem exists_append_of_startsWith (p s : JsString) (h : startsWith s p = true) :
    ∃ t, s = p ++ t := by
  induction p generalizing s with
  | nil => exact ⟨s, rfl⟩
  | cons c p ih =>
    cases s with
    | nil => simp [startsWith, List.isPrefixOf] at h
    | cons d s =>
      simp only [startsWith, List.isPrefixOf, Bool.and_eq_true, beq_iff_eq] at h
      obtain ⟨t, ht⟩ := ih s h.2
      exact ⟨t, by rw [h.1, ht]; rfl⟩

theorem firstToken_nil : firstToken [] = [] := rfl

theorem firstToken_space (t : JsString) : firstToken (space :: t) = [] := by
  simp [firstToken]

theorem firstToken_cons_of_ne (w : Char) (t : JsString) (h : w ≠ space) :
    firstToken (w :: t) = w :: firstToken t := by
  simp [firstToken, h]

theorem firstToken_append (a b : JsString) (h : space ∉ a) :
    firstToken (a ++ b) = a ++ firstToken b := by
  induction a with
  | nil => rfl
  | cons c a ih =>
    have hc : c ≠ space := fun e => h (by simp [e])
    have ha : space ∉ a := fun e => h (by simp [e])
    simp [firstToken_cons_of_ne c _ hc, ih ha]

theorem sliceFrom_append_length (p c : JsString) : sliceFrom (p ++ c) p.length = c := by
  simp [sliceFrom]

/-- The candidate command name of `P + C + s` is `C` when neither `P` nor `C` holds a space and
`s` is empty or begins with one. -/
theorem command_of_append (p c s : JsString) (hp : space ∉ p) (hc : space ∉ c)
    (hs : s = [] ∨ ∃ t, s = space :: t) :
    sliceFrom (firstToken (p ++ c ++ s)) p.length = c := by
  have hpc : space ∉ p ++ c := by simp [hp, hc]
  have hs0 : firstToken s = [] := by
    rcases hs with rfl | ⟨t, rfl⟩
    · rfl
    · exact firstToken_space t
  rw [firstToken_append _ _ hpc, hs0, List.append_nil, sliceFrom_append_length]

/-! ## Lemmas on objects -/

theorem Obj.getOwn_set_self (o : Obj) (k : JsString) (v : Value) :
    Obj.getOwn (Obj.set o k v) k = some v := by
  induction o with
  | nil => simp [Obj.set, Obj.getOwn]
  | cons kv rest ih =>
    obtain ⟨k1, v1⟩ := kv
    by_cases h : k1 = k
    · simp [Obj.set, Obj.getOwn, h]
    · simp [Obj.set, Obj.getOwn, h, ih]

theorem Obj.getOwn_set_other (o : Obj) (k k2 : JsString) (v : Value) (hne : k2 ≠ k) :
    Obj.getOwn (Obj.set o k v) k2 = Obj.getOwn o k2 := by
  induction o with
  | nil => simp [Obj.set, Obj.getOwn, Ne.symm hne]
  | cons kv rest ih =>
    obtain ⟨k1, v1⟩ := kv
    by_cases h : k1 = k
    · subst h
      simp [Obj.set, Obj.getOwn, Ne.symm hne]
    · by_cases h2 : k1 = k2
      · subst h2
        simp [Obj.set, Obj.getOwn, h]
      · simp [Obj.set, Obj.getOwn, h, h2, ih]

theorem Obj.getOwn_eq_none_of_not_mem (o : Obj) (k : JsString) (h : k ∉ Obj.keys o) :
    Obj.getOwn o k = none := by
  induction o with
  | nil => rfl
  | cons kv rest ih =>
    obtain ⟨k1, v1⟩ := kv
    simp only [Obj.keys, List.map_cons, List.mem_cons, not_or] at h
    have h1 : k1 ≠ k := fun e => h.1 e.symm
    simp only [Obj.getOwn, h1, if_false]
    exact ih h.2

/-- Reading a property after copying the properties of a well-formed `source` onto `target`:
the value of `source` when it has the property, the value of `target` otherwise. -/
theorem getOwn_assignAll (source : Obj) (hwf : Obj.WF source) (target : Obj) (k : JsString) :
    Obj.getOwn (assignAll target source) k =
      match Obj.getOwn source k with
      | some v => some v
      | none => Obj.getOwn target k := by
  induction source generalizing target with
  | nil => rfl
  | cons kv rest ih =>
    obtain ⟨k1, v1⟩ := kv
    have hnd : k1 ∉ Obj.keys rest ∧ Obj.WF rest := List.nodup_cons.mp hwf
    have hstep : assignAll target ((k1, v1) :: rest) = assignAll (Obj.set target k1 v1) rest := rfl
    rw [hstep, ih hnd.2]
    by_cases h : k1 = k
    · subst h
      rw [Obj.getOwn_eq_none_of_not_mem rest k1 hnd.1]
      simp [Obj.getOwn, Obj.getOwn_set_self]
    · have hne : k ≠ k1 := fun e => h e.symm
      simp [Obj.getOwn, h, Obj.getOwn_set_other _ _ _ _ hne]

theorem getOwn_spread (a b : Obj) (ha : Obj.WF a) (hb : Obj.WF b) (k : JsString) :
    Obj.getOwn (spread a b) k =
      match Obj.getOwn b k with
      | some v => some v
      | none => Obj.getOwn a k := by
  unfold spread
  rw [getOwn_assignAll b hb, getOwn_assignAll a ha]
  cases Obj.getOwn b k with
  | some v => rfl
  | none =>
    cases Obj.getOwn a k with
    | some v => rfl
    | none => rfl

/-! ## The send hook: lemmas -/

/-- The rewrite branch: a string content that starts with the prefix and whose candidate name
is an own key holding a non-empty string `R` is replaced by `R`, and the pair is returned. -/
theorem hook_of_string_entry (config : Config) (channelId : Value) (message : Message)
    (content R : JsString) (hcontent : contentString message.content = some content)
    (hsw : startsWith content config.commandPrefix = true)
    (hmap : Obj.getOwn config.commands (sendMessageHook.command config content) = some (.str R))
    (hR : R ≠ []) :
    sendMessageHook config channelId message =
      ⟨{ message with content := .str R },
        .ok (some (channelId, { message with content := .str R }))⟩ := by
  have hget : getProp config.commands (sendMessageHook.command config content) = .str R := by
    simp [getProp, hmap]
  have htb : toBoolean (.str R) = true := by
    cases R with
    | nil => exact absurd rfl hR
    | cons c r => rfl
  simp [sendMessageHook, hcontent, hsw, hget, htb, applyReplacement]

/-- The two exits without a rewrite: the content does not start with the prefix, or the
property read for the candidate name is falsy. -/
theorem hook_of_no_match (config : Config) (channelId : Value) (message : Message)
    (content : JsString) (hcontent : contentString message.content = some content)
    (h : startsWith content config.commandPrefix = false ∨
      toBoolean (getProp config.commands (sendMessageHook.command config content)) = false) :
    sendMessageHook config channelId message = ⟨message, .ok none⟩ := by
  rcases h with h | h
  · simp [sendMessageHook, hcontent, h]
  · by_cases hsw : startsWith content config.commandPrefix = true
    · simp [sendMessageHook, hcontent, hsw, h]
    · simp [sendMessageHook, hcontent, hsw]

/-- Every run of the hook ends in one of three ways: it raises and leaves the message as it
was, it returns nothing and leaves the message as it was, or it stores a new content and
returns the pair of the channel and the message. -/
theorem hook_outcome_cases (config : Config) (channelId : Value) (message : Message) :
    (∃ e, sendMessageHook config channelId message = ⟨message, .error e⟩) ∨
    sendMessageHook config channelId message = ⟨message, .ok none⟩ ∨
    (∃ v, sendMessageHook config channelId message =
      ⟨{ message with content := v }, .ok (some (channelId, { message with content := v }))⟩) := by
  cases hc : contentString message.content with
  | none => exact Or.inl ⟨.typeError, by simp [sendMessageHook, hc]⟩
  | some content =>
    cases hsw : startsWith content config.commandPrefix with
    | false => exact Or.inr (Or.inl (by simp [sendMessageHook, hc, hsw]))
    | true =>
      cases htb : toBoolean (getProp config.commands (sendMessageHook.command config content)) with
      | false => exact Or.inr (Or.inl (by simp [sendMessageHook, hc, hsw, htb]))
      | true =>
        cases hr : applyReplacement
            (getProp config.commands (sendMessageHook.command config content))
            (trim (sliceFrom content
              ((sendMessageHook.command config content).length
                + config.commandPrefix.length))) with
        | error e => exact Or.inl ⟨e, by simp [sendMessageHook, hc, hsw, htb, hr]⟩
        | ok v => exact Or.inr (Or.inr ⟨v, by simp [sendMessageHook, hc, hsw, htb, hr]⟩)

/-! ## The send hook: claims -/

/-- C1, as stated, fails at three configurations. With the prefix `"! "` (it holds a space) and
the command `hello`, the content `"! hello"` is left unchanged; with the prefix `"./"` and a
command named `"good bye"`, the content `"./good bye"` is left unchanged; with the prefix `"./"`
and the command `ping` mapped to the empty response, the content `"./ping"` is left unchanged
and is not the empty response. -/
theorem sendMessageHook_known_command_counterexample :
    (Obj.getOwn [(js "hello", Value.str (js "Hello, world!"))] (js "hello")
        = some (.str (js "Hello, world!")) ∧
      sendMessageHook ⟨js "! ", [(js "hello", .str (js "Hello, world!"))]⟩ .null
        ⟨.str (js "! " ++ js "hello" ++ []), []⟩ = ⟨⟨.str (js "! hello"), []⟩, .ok none⟩) ∧
    (Obj.getOwn [(js "good bye", Value.str (js "Bye!"))] (js "good bye")
        = some (.str (js "Bye!")) ∧
      sendMessageHook ⟨js "./", [(js "good bye", .str (js "Bye!"))]⟩ .null
        ⟨.str (js "./" ++ js "good bye" ++ []), []⟩ = ⟨⟨.str (js "./good bye"), []⟩, .ok none⟩) ∧
    (Obj.getOwn [(js "ping", Value.str (js ""))] (js "ping") = some (.str (js "")) ∧
      sendMessageHook ⟨js "./", [(js "ping", .str (js ""))]⟩ .null
        ⟨.str (js "./" ++ js "ping" ++ []), []⟩ = ⟨⟨.str (js "./ping"), []⟩, .ok none⟩) :=
  ⟨⟨rfl, rfl⟩, ⟨rfl, rfl⟩, ⟨rfl, rfl⟩⟩

/-- C1 (amended): for every configuration whose prefix `P` holds no space, every command name
`C` holding no space that the table maps to a non-empty response string `R`, and every `s`
that is empty or a space followed by arbitrary text, the send hook on a message of content
`P + C + s` sets the content to exactly `R` (the arguments are discarded), changes no other
field and returns the pair of the channel and the message. -/
theorem sendMessageHook_known_command (config : Config) (channelId : Value) (others : Obj)
    (C R s : JsString) (hP : space ∉ config.commandPrefix) (hC : space ∉ C) (hR : R ≠ [])
    (hmap : Obj.getOwn config.commands C = some (.str R))
    (hs : s = [] ∨ ∃ t, s = space :: t) :
    sendMessageHook config channelId ⟨.str (config.commandPrefix ++ C ++ s), others⟩ =
      ⟨⟨.str R, others⟩, .ok (some (channelId, ⟨.str R, others⟩))⟩ := by
  have hcmd : sendMessageHook.command config (config.commandPrefix ++ C ++ s) = C :=
    command_of_append config.commandPrefix C s hP hC hs
  have hsw : startsWith (config.commandPrefix ++ C ++ s) config.commandPrefix = true := by
    rw [List.append_assoc]
    exact startsWith_append _ _
  exact hook_of_string_entry config channelId ⟨.str (config.commandPrefix ++ C ++ s), others⟩
    (config.commandPrefix ++ C ++ s) R rfl hsw (by rw [hcmd]; exact hmap) hR

/-- C1 (amended) at the default prefix and table entry `hello`, with arguments. -/
theorem sendMessageHook_known_command_witness :
    sendMessageHook ⟨js "./", [(js "hello", .str (js "Hello, world!"))]⟩ (.str (js "42"))
        ⟨.str (js "./" ++ js "hello" ++ js " dear all"), [(js "tts", .bool false)]⟩ =
      ⟨⟨.str (js "Hello, world!"), [(js "tts", .bool false)]⟩,
        .ok (some (.str (js "42"), ⟨.str (js "Hello, world!"), [(js "tts", .bool false)]⟩))⟩ :=
  sendMessageHook_known_command ⟨js "./", [(js "hello", .str (js "Hello, world!"))]⟩
    (.str (js "42")) [(js "tts", .bool false)] (js "hello") (js "Hello, world!")
    (js " dear all") (by decide) (by decide) (by decide) rfl (Or.inr ⟨js "dear all", rfl⟩)

/-- C2, the code at failing inputs: with the built-in default configuration, `toString`,
`valueOf` and `constructor` are not keys of the command table, yet the content `"./toString"`
is replaced by `"[object Undefined]"`, the content `"./valueOf"` makes the hook raise a
`TypeError`, and the content `"./constructor hi"` is replaced by a `String` object holding
`"hi"`: the property read `this.config.commands[command]` finds the functions that the table
inherits from `Object.prototype`. -/
theorem sendMessageHook_inherited_name :
    (Config.ofObj initialConfig).map (fun c =>
        (Obj.getOwn c.commands (js "toString"), Obj.getOwn c.commands (js "valueOf"),
          Obj.getOwn c.commands (js "constructor"))) = some (none, none, none) ∧
    (Config.ofObj initialConfig).map (fun c =>
        sendMessageHook c .null ⟨.str (js "./toString"), []⟩) =
      some ⟨⟨.str (js "[object Undefined]"), []⟩,
        .ok (some (.null, ⟨.str (js "[object Undefined]"), []⟩))⟩ ∧
    (Config.ofObj initialConfig).map (fun c =>
        sendMessageHook c .null ⟨.str (js "./valueOf"), []⟩) =
      some ⟨⟨.str (js "./valueOf"), []⟩, .error .typeError⟩ ∧
    (Config.ofObj initialConfig).map (fun c =>
        sendMessageHook c .null ⟨.str (js "./constructor hi"), []⟩) =
      some ⟨⟨.stringObject (js "hi"), []⟩,
        .ok (some (.null, ⟨.stringObject (js "hi"), []⟩))⟩ :=
  ⟨rfl, rfl, rfl, rfl⟩

/-- The part of C2 that the code fulfils: when the content starts with the prefix and the
candidate name is neither a key of the table nor the name of a property of `Object.prototype`,
the hook returns nothing, raises nothing and leaves the message unchanged. -/
theorem sendMessageHook_unknown_name (config : Config) (channelId : Value) (others : Obj)
    (content : JsString)
    (hkey : Obj.getOwn config.commands (sendMessageHook.command config content) = none)
    (hproto : objectPrototypeGet (sendMessageHook.command config content) = .undefined) :
    sendMessageHook config channelId ⟨.str content, others⟩ = ⟨⟨.str content, others⟩, .ok none⟩ :=
  hook_of_no_match config channelId ⟨.str content, others⟩ content rfl
    (Or.inr (by simp [getProp, hkey, hproto, toBoolean]))

/-- Unknown names at the default configuration: a name differing from a key in case, the empty
name after the bare prefix, the empty name when a space follows the prefix. -/
theorem sendMessageHook_unknown_name_examples :
    (Config.ofObj initialConfig).map (fun c =>
        sendMessageHook c .null ⟨.str (js "./Hello"), []⟩) =
      some ⟨⟨.str (js "./Hello"), []⟩, .ok none⟩ ∧
    (Config.ofObj initialConfig).map (fun c =>
        sendMessageHook c .null ⟨.str (js "./"), []⟩) =
      some ⟨⟨.str (js "./"), []⟩, .ok none⟩ ∧
    (Config.ofObj initialConfig).map (fun c =>
        sendMessageHook c .null ⟨.str (js "./ hello"), []⟩) =
      some ⟨⟨.str (js "./ hello"), []⟩, .ok none⟩ :=
  ⟨rfl, rfl, rfl⟩

/-- C3: for every configuration and every message whose content does not start with the
configured prefix (it is not the prefix followed by anything), the send hook leaves the
message unchanged and returns no replacement. -/
theorem sendMessageHook_other_message (config : Config) (channelId : Value) (others : Obj)
    (content : JsString) (h : ∀ t, content ≠ config.commandPrefix ++ t) :
    sendMessageHook config channelId ⟨.str content, others⟩ = ⟨⟨.str content, others⟩, .ok none⟩ := by
  have hsw : startsWith content config.commandPrefix = false := by
    cases hb : startsWith content config.commandPrefix with
    | false => rfl
    | true =>
      obtain ⟨t, ht⟩ := exists_append_of_startsWith _ _ hb
      exact absurd ht (h t)
  exact hook_of_no_match config channelId ⟨.str content, others⟩ content rfl (Or.inl hsw)

/-- C3 at the default configuration, the prefix and a known command occurring later in the
message. -/
theorem sendMessageHook_other_message_witness :
    sendMessageHook ⟨js "./", [(js "hello", .str (js "Hello, world!"))]⟩ .null
        ⟨.str (js "say ./hello"), []⟩ = ⟨⟨.str (js "say ./hello"), []⟩, .ok none⟩ :=
  sendMessageHook_other_message ⟨js "./", [(js "hello", .str (js "Hello, world!"))]⟩ .null []
    (js "say ./hello") (fun t ht => by simp [js] at ht)

/-- C4, as stated, fails for the tab and the newline: with the prefix `"./"` and the command
`hello`, the contents `"./hello" + TAB + "world"` and `"./hello" + LF + "world"` are left
unchanged and nothing is returned. -/
theorem sendMessageHook_token_delimiter_counterexample :
    sendMessageHook ⟨js "./", [(js "hello", .str (js "Hello, world!"))]⟩ .null
        ⟨.str (js "./" ++ js "hello" ++ Char.ofNat 9 :: js "world"), []⟩ =
      ⟨⟨.str (js "./hello\tworld"), []⟩, .ok none⟩ ∧
    sendMessageHook ⟨js "./", [(js "hello", .str (js "Hello, world!"))]⟩ .null
        ⟨.str (js "./" ++ js "hello" ++ Char.ofNat 10 :: js "world"), []⟩ =
      ⟨⟨.str (js "./hello\nworld"), []⟩, .ok none⟩ :=
  ⟨rfl, rfl⟩

/-- C4 (amended): the command token is delimited by the first space character U+0020 only.
For every prefix `P` and command name `C` holding no space, with `C` mapped to a non-empty
response string `R`, the candidate name of the content `P + C + " " + text` is `C` and the
content is rewritten to `R`; a character `w` other than the space does not end the token: the
candidate name of `P + C + w + text` is `C + w` followed by `text` up to its first space. -/
theorem sendMessageHook_token_delimiter (config : Config) (channelId : Value) (others : Obj)
    (C R text : JsString) (hP : space ∉ config.commandPrefix) (hC : space ∉ C) (hR : R ≠ [])
    (hmap : Obj.getOwn config.commands C = some (.str R)) :
    sendMessageHook.command config (config.commandPrefix ++ C ++ space :: text) = C ∧
    sendMessageHook config channelId
        ⟨.str (config.commandPrefix ++ C ++ space :: text), others⟩ =
      ⟨⟨.str R, others⟩, .ok (some (channelId, ⟨.str R, others⟩))⟩ ∧
    ∀ w, w ≠ space →
      sendMessageHook.command config (config.commandPrefix ++ C ++ w :: text) =
        C ++ w :: firstToken text := by
  have hcmd : sendMessageHook.command config (config.commandPrefix ++ C ++ space :: text) = C :=
    command_of_append config.commandPrefix C (space :: text) hP hC (Or.inr ⟨text, rfl⟩)
  refine ⟨hcmd, ?_, ?_⟩
  · have hsw : startsWith (config.commandPrefix ++ C ++ space :: text) config.commandPrefix
        = true := by
      rw [List.append_assoc]
      exact startsWith_append _ _
    exact hook_of_string_entry config channelId
      ⟨.str (config.commandPrefix ++ C ++ space :: text), others⟩
      (config.commandPrefix ++ C ++ space :: text) R rfl hsw (by rw [hcmd]; exact hmap) hR
  · intro w hw
    have hpc : space ∉ config.commandPrefix ++ C := by simp [hP, hC]
    unfold sendMessageHook.command
    rw [firstToken_append _ _ hpc, firstToken_cons_of_ne w text hw, List.append_assoc,
      sliceFrom_append_length]

/-- C4 (amended) at the default prefix and the command `hello`. -/
theorem sendMessageHook_token_delimiter_witness :
    sendMessageHook.command ⟨js "./", [(js "hello", .str (js "Hello, world!"))]⟩
        (js "./" ++ js "hello" ++ space :: js "a\tb c") = js "hello" ∧
    sendMessageHook ⟨js "./", [(js "hello", .str (js "Hello, world!"))]⟩ .null
        ⟨.str (js "./" ++ js "hello" ++ space :: js "a\tb c"), []⟩ =
      ⟨⟨.str (js "Hello, world!"), []⟩, .ok (some (.null, ⟨.str (js "Hello, world!"), []⟩))⟩ ∧
    ∀ w, w ≠ space →
      sendMessageHook.command ⟨js "./", [(js "hello", .str (js "Hello, world!"))]⟩
          (js "./" ++ js "hello" ++ w :: js "a\tb c") = js "hello" ++ w :: firstToken (js "a\tb c") :=
  sendMessageHook_token_delimiter ⟨js "./", [(js "hello", .str (js "Hello, world!"))]⟩ .null []
    (js "hello") (js "Hello, world!") (js "a\tb c") (by decide) (by decide) (by decide) rfl

/-- C5: on a match the send hook returns the pair of the channel identifier it received and the
message, in which only the content field has changed; on no match it returns nothing and
changes no field. In full: whenever the hook returns a pair, the pair holds the received
channel identifier and the message object as the call leaves it, whose other fields are those
of the message received; whenever it returns nothing the message is unchanged; the fields
other than the content are the same after every run; a content that starts with the prefix
and whose candidate name is a table key holding a non-empty string `R` is a match, rewritten
to `R`; a content that does not start with the prefix, or whose candidate name reads as a
falsy value, is no match. -/
theorem sendMessageHook_frame (config : Config) (channelId : Value) (message : Message) :
    (∀ ch m, (sendMessageHook config channelId message).result = .ok (some (ch, m)) →
      ch = channelId ∧ m = (sendMessageHook config channelId message).message ∧
        m.others = message.others) ∧
    ((sendMessageHook config channelId message).result = .ok none →
      (sendMessageHook config channelId message).message = message) ∧
    (sendMessageHook config channelId message).message.others = message.others ∧
    (∀ content R, contentString message.content = some content →
      startsWith content config.commandPrefix = true →
      Obj.getOwn config.commands (sendMessageHook.command config content) = some (.str R) →
      R ≠ [] →
      sendMessageHook config channelId message =
        ⟨{ message with content := .str R },
          .ok (some (channelId, { message with content := .str R }))⟩) ∧
    (∀ content, contentString message.content = some content →
      (startsWith content config.commandPrefix = false ∨
        toBoolean (getProp config.commands (sendMessageHook.command config content)) = false) →
      sendMessageHook config channelId message = ⟨message, .ok none⟩) := by
  refine ⟨?_, ?_, ?_, ?_, ?_⟩
  · intro ch m h
    rcases hook_outcome_cases config channelId message with ⟨e, he⟩ | he | ⟨v, he⟩
    · rw [he] at h
      simp at h
    · rw [he] at h
      simp at h
    · rw [he] at h ⊢
      simp only [Except.ok.injEq, Option.some.injEq, Prod.mk.injEq] at h
      obtain ⟨h1, h2⟩ := h
      subst h1
      subst h2
      exact ⟨rfl, rfl, rfl⟩
  · intro h
    rcases hook_outcome_cases config channelId message with ⟨e, he⟩ | he | ⟨v, he⟩
    · rw [he]
    · rw [he]
    · rw [he] at h
      simp at h
  · rcases hook_outcome_cases config channelId message with ⟨e, he⟩ | he | ⟨v, he⟩ <;> rw [he]
  · intro content R hcontent hsw hmap hR
    exact hook_of_string_entry config channelId message content R hcontent hsw hmap hR
  · intro content hcontent h
    exact hook_of_no_match config channelId message content hcontent h

/-! ## Persistence: claims -/

/-- C6: when the configuration file does not exist, `loadConfig` leaves the in-memory
configuration as it was, which for the service as constructed is the built-in default (prefix
`"./"` and exactly the four commands `hello`, `rules`, `bye`, `triforce`), and the document it
writes is the serialisation of the constant `defaultConfig` of `createDefaultConfig`, which
equals the initial in-memory configuration key for key and value for value; the file holds
that document when the write succeeds and stays absent when it fails. -/
theorem loadConfig_missing_file (host : Host) (writeOk : Bool) (s : Service)
    (hfile : s.file = .absent) :
    (loadConfig host writeOk s).config = s.config ∧
    (Service.initial .absent).config = initialConfig ∧
    createDefaultConfig.defaultConfig = initialConfig ∧
    (writeOk = true →
      (loadConfig host writeOk s).file = .present (host.stringify (.object initialConfig))) ∧
    (writeOk = false → (loadConfig host writeOk s).file = .absent) ∧
    Obj.getOwn initialConfig (js "prefix") = some (.str (js "./")) ∧
    (∃ table, Obj.getOwn initialConfig (js "commands") = some (.object table) ∧
      Obj.keys table = [js "hello", js "rules", js "bye", js "triforce"]) := by
  refine ⟨?_, rfl, rfl, ?_, ?_, rfl, ⟨_, rfl, rfl⟩⟩
  · cases writeOk <;> simp [loadConfig, hfile, createDefaultConfig]
  · intro hw
    subst hw
    simp [loadConfig, hfile, createDefaultConfig]
    rfl
  · intro hw
    subst hw
    simp [loadConfig, hfile, createDefaultConfig]

/-- C6 at the service as constructed, with a successful write. -/
theorem loadConfig_missing_file_witness :
    (loadConfig ⟨fun _ => none, fun _ => js "doc"⟩ true (Service.initial .absent)).config
      = initialConfig :=
  (loadConfig_missing_file ⟨fun _ => none, fun _ => js "doc"⟩ true (Service.initial .absent)
    rfl).1

/-- C7: for every existing configuration file whose text `JSON.parse` rejects, `loadConfig`
completes, leaves the in-memory configuration and the file as they were, and shows exactly one
alert, the error alert of a failed load. -/
theorem loadConfig_malformed_file (host : Host) (writeOk : Bool) (s : Service) (text : JsString)
    (hfile : s.file = .present text) (hparse : host.parse text = none) :
    loadConfig host writeOk s =
      { config := s.config, file := s.file, alerts := s.alerts ++ [loadErrorAlert] } ∧
    loadErrorAlert = ⟨js "Error", js "Failed to load commands from file."⟩ := by
  refine ⟨?_, rfl⟩
  simp [loadConfig, loadConfig.tryBlock, hfile, hparse]

/-- C7 at the service as constructed and a file holding `oops`. -/
theorem loadConfig_malformed_file_witness :
    loadConfig ⟨fun _ => none, fun _ => js "doc"⟩ true (Service.initial (.present (js "oops"))) =
      { config := initialConfig, file := .present (js "oops"), alerts := [loadErrorAlert] } :=
  (loadConfig_malformed_file ⟨fun _ => none, fun _ => js "doc"⟩ true
    (Service.initial (.present (js "oops"))) (js "oops") rfl rfl).1

/-- C8: for every configuration file that parses to a JSON object, `loadConfig` overrides each
top-level field present in the file and keeps the in-memory value (at startup the default) of
each absent one: after loading, a field reads as the file's value when the file has it, and as
before otherwise, so a `commands` table of the file replaces the in-memory table wholesale and
a file without a prefix leaves the prefix as it was. Each of the three save functions, when the
write succeeds, leaves on disk the serialisation of the whole in-memory configuration; loading
such a document, which `JSON.parse` reads back as the saved object, restores every saved
field, the saved prefix and command table among them. -/
theorem loadConfig_merges_fields (host : Host) (writeOk : Bool) (s : Service)
    (hwf : Obj.WF s.config) :
    (∀ text props, s.file = .present text → host.parse text = some (.object props) →
      Obj.WF props →
      ∀ k, Obj.getOwn (loadConfig host writeOk s).config k =
        match Obj.getOwn props k with
        | some v => some v
        | none => Obj.getOwn s.config k) ∧
    (∀ saved : Service,
      (saveConfigPrefix host true saved).file
          = .present (host.stringify (.object saved.config)) ∧
      (saveConfigCommands host true saved).file
          = .present (host.stringify (.object saved.config)) ∧
      (saveConfigDelete host true saved).file
          = .present (host.stringify (.object saved.config))) ∧
    (∀ saved : Service, Obj.WF saved.config →
      host.parse (host.stringify (.object saved.config)) = some (.object saved.config) →
      s.file = .present (host.stringify (.object saved.config)) →
      (∀ k v, Obj.getOwn saved.config k = some v →
        Obj.getOwn (loadConfig host writeOk s).config k = some v) ∧
      ((Obj.getOwn saved.config (js "prefix")).isSome →
        (Obj.getOwn saved.config (js "commands")).isSome →
        Config.ofObj (loadConfig host writeOk s).config = Config.ofObj saved.config)) := by
  have hload : ∀ text props, s.file = .present text → host.parse text = some (.object props) →
      (loadConfig host writeOk s).config = spread s.config props := by
    intro text props hfile hparse
    simp [loadConfig, loadConfig.tryBlock, hfile, hparse, ownEnumerable]
  have hfield : ∀ text props, s.file = .present text →
      host.parse text = some (.object props) → Obj.WF props →
      ∀ k, Obj.getOwn (loadConfig host writeOk s).config k =
        match Obj.getOwn props k with
        | some v => some v
        | none => Obj.getOwn s.config k := by
    intro text props hfile hparse hprops k
    rw [hload text props hfile hparse, getOwn_spread s.config props hwf hprops]
  refine ⟨hfield, fun saved => ⟨rfl, rfl, rfl⟩, ?_⟩
  intro saved hsaved hparse hfile
  have hrestore : ∀ k v, Obj.getOwn saved.config k = some v →
      Obj.getOwn (loadConfig host writeOk s).config k = some v := by
    intro k v hk
    rw [hfield _ _ hfile hparse hsaved k, hk]
  refine ⟨hrestore, ?_⟩
  intro hp hc
  obtain ⟨vp, hvp⟩ := Option.isSome_iff_exists.mp hp
  obtain ⟨vc, hvc⟩ := Option.isSome_iff_exists.mp hc
  simp only [Config.ofObj, hrestore _ _ hvp, hrestore _ _ hvc, hvp, hvc]

/-- C8 at the service as constructed and a file that parses to an object with the single
field `commands`, a table with the one command `hi`: the loaded table is the file's, without
the default commands, and the prefix stays `"./"`. -/
theorem loadConfig_merges_fields_witness :
    Obj.getOwn (loadConfig
        ⟨fun _ => some (.object [(js "commands", .object [(js "hi", .str (js "Hi!"))])]),
          fun _ => js "doc"⟩ true (Service.initial (.present (js "doc")))).config (js "commands")
      = some (.object [(js "hi", .str (js "Hi!"))]) ∧
    Obj.getOwn (loadConfig
        ⟨fun _ => some (.object [(js "commands", .object [(js "hi", .str (js "Hi!"))])]),
          fun _ => js "doc"⟩ true (Service.initial (.present (js "doc")))).config (js "prefix")
      = some (.str (js "./")) :=
  ⟨(loadConfig_merges_fields
        ⟨fun _ => some (.object [(js "commands", .object [(js "hi", .str (js "Hi!"))])]),
          fun _ => js "doc"⟩ true (Service.initial (.present (js "doc"))) (by decide)).1
      (js "doc") [(js "commands", .object [(js "hi", .str (js "Hi!"))])] rfl rfl (by decide)
      (js "commands"),
    (loadConfig_merges_fields
        ⟨fun _ => some (.object [(js "commands", .object [(js "hi", .str (js "Hi!"))])]),
          fun _ => js "doc"⟩ true (Service.initial (.present (js "doc"))) (by decide)).1
      (js "doc") [(js "commands", .object [(js "hi", .str (js "Hi!"))])] rfl rfl (by decide)
      (js "prefix")⟩

/-- C9: when the write to disk fails during a Save Prefix, Save Commands or Remove action, the
in-memory mutation that triggered the save is kept: the in-memory configuration after the
action is the mutated one, the same as after a successful save; the file is as before;
exactly one alert is added, the error alert of a failed save; and the handler completes. -/
theorem save_failure_keeps_mutation (host : Host) (s : Service) (value command : JsString)
    (rows : List (JsString × JsString)) :
    (savePrefixClick host false value s =
        { config := Obj.set s.config (js "prefix") (.str value), file := s.file,
          alerts := s.alerts ++ [saveErrorAlert] } ∧
      (savePrefixClick host false value s).config = (savePrefixClick host true value s).config) ∧
    (saveCommandsClick host false rows s =
        { config := Obj.set s.config (js "commands")
            (.object (spread [] (rows.foldl saveCommandsClick.step []))),
          file := s.file, alerts := s.alerts ++ [saveErrorAlert] } ∧
      (saveCommandsClick host false rows s).config
        = (saveCommandsClick host true rows s).config) ∧
    ((∀ table, Obj.getOwn s.config (js "commands") = some (.object table) →
        removeClick host false command s =
          some { config := Obj.set s.config (js "commands")
                  (.object (Obj.delete table command)),
                 file := s.file, alerts := s.alerts ++ [saveErrorAlert] }) ∧
      (removeClick host false command s).map (fun r => r.config)
        = (removeClick host true command s).map (fun r => r.config)) ∧
    saveErrorAlert = ⟨js "Error", js "Failed to save commands."⟩ := by
  refine ⟨⟨rfl, rfl⟩, ⟨rfl, rfl⟩, ⟨?_, ?_⟩, rfl⟩
  · intro table h
    simp [removeClick, h, saveConfigDelete]
  · unfold removeClick
    split <;> rfl

/-- C10, as stated, fails for the empty field value: a Save Prefix action on the service as
constructed with an empty prefix field leaves the in-memory prefix empty. -/
theorem savePrefixClick_counterexample :
    Obj.getOwn (savePrefixClick ⟨fun _ => none, fun _ => js "doc"⟩ true (js "")
        (Service.initial .absent)).config (js "prefix") = some (.str []) :=
  rfl

/-- C10 (amended): after a Save Prefix action the in-memory prefix is exactly the value of the
prefix field, whether or not the write succeeds; it is non-empty if and only if the value
entered is non-empty. -/
theorem savePrefixClick_stores_value (host : Host) (writeOk : Bool) (value : JsString)
    (s : Service) :
    Obj.getOwn (savePrefixClick host writeOk value s).config (js "prefix")
      = some (.str value) ∧
    (∀ p, Obj.getOwn (savePrefixClick host writeOk value s).config (js "prefix")
        = some (.str p) → (p ≠ [] ↔ value ≠ [])) := by
  have h : Obj.getOwn (savePrefixClick host writeOk value s).config (js "prefix")
      = some (.str value) := by
    cases writeOk <;>
      simp [savePrefixClick, saveConfigPrefix, Obj.getOwn_set_self]
  refine ⟨h, ?_⟩
  intro p hp
  rw [h] at hp
  simp only [Option.some.injEq, Value.str.injEq] at hp
  rw [hp]

/-! ## The Save Commands handler: lemmas -/

theorem dropWhile_head_not (p : Char → Bool) (s : JsString) (a : Char) (t : JsString)
    (h : s.dropWhile p = a :: t) : p a = false := by
  induction s with
  | nil => simp at h
  | cons c s ih =>
    by_cases hc : p c = true
    · rw [List.dropWhile_cons_of_pos hc] at h
      exact ih h
    · rw [List.dropWhile_cons_of_neg hc] at h
      simp only [List.cons.injEq] at h
      rw [← h.1]
      simpa using hc

theorem rdropWhile_cons_of_not (p : Char → Bool) (a : Char) (l : JsString) (h : p a = false) :
    (l.reverse ++ [a]).dropWhile p = l.reverse.dropWhile p ++ [a] := by
  induction l.reverse with
  | nil => simp [List.dropWhile, h]
  | cons c r ih =>
    by_cases hc : p c = true
    · simp [List.dropWhile_cons_of_pos hc, ih]
    · simp [List.dropWhile_cons_of_neg hc]

/-- `trim` is idempotent: a trimmed string has no leading and no trailing whitespace. -/
theorem trim_trim (s : JsString) : trim (trim s) = trim s := by
  unfold trim
  cases ht : s.dropWhile isJsWhitespace with
  | nil => simp
  | cons a t =>
    have ha : isJsWhitespace a = false := dropWhile_head_not _ s a t ht
    have h1 : ((a :: t).reverse.dropWhile isJsWhitespace).reverse
        = a :: (t.reverse.dropWhile isJsWhitespace).reverse := by
      rw [List.reverse_cons, rdropWhile_cons_of_not _ a t ha]
      simp
    rw [h1, List.dropWhile_cons_of_neg (by simp [ha]), ← h1]
    simp only [List.reverse_reverse]
    have h2 := List.dropWhile_idempotent (p := isJsWhitespace) (l := (a :: t).reverse)
    rw [h2]

theorem Obj.mem_set (o : Obj) (k : JsString) (v : Value) (kv : JsString × Value)
    (h : kv ∈ Obj.set o k v) : kv = (k, v) ∨ kv ∈ o := by
  induction o with
  | nil => simpa [Obj.set] using h
  | cons e rest ih =>
    obtain ⟨k1, v1⟩ := e
    by_cases hk : k1 = k
    · simp only [Obj.set, hk, if_true, List.mem_cons] at h
      rcases h with h | h
      · exact Or.inl h
      · exact Or.inr (List.mem_cons_of_mem _ h)
    · simp only [Obj.set, hk, if_false, List.mem_cons] at h
      rcases h with h | h
      · exact Or.inr (by simp [h])
      · rcases ih h with h2 | h2
        · exact Or.inl h2
        · exact Or.inr (List.mem_cons_of_mem _ h2)

theorem Obj.keys_set (o : Obj) (k : JsString) (v : Value) :
    Obj.keys (Obj.set o k v) = if k ∈ Obj.keys o then Obj.keys o else Obj.keys o ++ [k] := by
  induction o with
  | nil => simp [Obj.set, Obj.keys]
  | cons e rest ih =>
    obtain ⟨k1, v1⟩ := e
    by_cases hk : k1 = k
    · subst hk
      simp [Obj.set, Obj.keys]
    · have hk2 : ¬ k = k1 := fun e => hk e.symm
      simp only [Obj.keys] at ih
      by_cases hmem : k ∈ List.map Prod.fst rest
      · simp [Obj.set, Obj.keys, hk, hk2, hmem, ih]
      · simp [Obj.set, Obj.keys, hk, hk2, hmem, ih]

theorem Obj.WF_set (o : Obj) (k : JsString) (v : Value) (h : Obj.WF o) :
    Obj.WF (Obj.set o k v) := by
  unfold Obj.WF at h ⊢
  rw [Obj.keys_set]
  by_cases hmem : k ∈ Obj.keys o
  · simpa [hmem] using h
  · simp only [hmem, if_false]
    exact List.Nodup.append h (List.nodup_singleton k) (by simpa using hmem)

theorem Obj.set_of_not_mem (o : Obj) (k : JsString) (v : Value) (h : k ∉ Obj.keys o) :
    Obj.set o k v = o ++ [(k, v)] := by
  induction o with
  | nil => rfl
  | cons e rest ih =>
    obtain ⟨k1, v1⟩ := e
    simp only [Obj.keys, List.map_cons, List.mem_cons, not_or] at h
    have hk : ¬ k1 = k := fun e => h.1 e.symm
    simp only [Obj.set, hk, if_false, List.cons_append, List.cons.injEq, true_and]
    exact ih h.2

/-- Copying a well-formed object onto an object that shares no key with it appends it. -/
theorem assignAll_eq_append (source : Obj) (hwf : Obj.WF source) (target : Obj)
    (hdisj : ∀ k ∈ Obj.keys source, k ∉ Obj.keys target) :
    assignAll target source = target ++ source := by
  induction source generalizing target with
  | nil => simp [assignAll]
  | cons e rest ih =>
    obtain ⟨k1, v1⟩ := e
    have hnd : k1 ∉ Obj.keys rest ∧ Obj.WF rest := List.nodup_cons.mp hwf
    have h1 : k1 ∉ Obj.keys target := hdisj k1 (by simp [Obj.keys])
    have hstep : assignAll target ((k1, v1) :: rest) = assignAll (Obj.set target k1 v1) rest := rfl
    rw [hstep, Obj.set_of_not_mem target k1 v1 h1, ih hnd.2]
    · simp
    · intro k hk
      have hk2 : k ∉ Obj.keys target := hdisj k (by simp [Obj.keys] at hk ⊢; exact Or.inr hk)
      have hk3 : k ≠ k1 := fun e => hnd.1 (e ▸ hk)
      simp only [Obj.keys, List.map_append, List.map_cons, List.map_nil, List.mem_append,
        List.mem_singleton, not_or]
      exact ⟨hk2, hk3⟩

theorem spread_nil_of_WF (o : Obj) (hwf : Obj.WF o) : spread [] o = o := by
  unfold spread
  have h0 : assignAll ([] : Obj) [] = [] := rfl
  rw [h0, assignAll_eq_append o hwf [] (by simp [Obj.keys])]
  rfl

theorem assignString_of_collected (o : Obj) (k v : JsString) (h : CollectedTable o) :
    assignString o k v = if k = js "__proto__" then o else Obj.set o k (.str v) := by
  unfold assignString
  by_cases hk : k = js "__proto__"
  · subst hk
    have hnone : Obj.getOwn o (js "__proto__") = none :=
      Obj.getOwn_eq_none_of_not_mem o _ h.2.1
    simp [hnone]
  · simp [hk]

theorem step_collected (o : Obj) (row : JsString × JsString) (h : CollectedTable o) :
    CollectedTable (saveCommandsClick.step o row) := by
  unfold saveCommandsClick.step
  by_cases hv : (!(trim row.1).isEmpty && !(trim row.2).isEmpty) = true
  · simp only [hv, if_true]
    rw [assignString_of_collected o _ _ h]
    by_cases hk : trim row.1 = js "__proto__"
    · simpa [hk] using h
    · simp only [hk, if_false]
      have hne : trim row.1 ≠ [] ∧ trim row.2 ≠ [] := by
        simp only [Bool.and_eq_true, Bool.not_eq_true', List.isEmpty_eq_false] at hv
        exact hv
      refine ⟨Obj.WF_set o _ _ h.1, ?_, ?_⟩
      · rw [Obj.keys_set]
        by_cases hmem : trim row.1 ∈ Obj.keys o
        · simpa [hmem] using h.2.1
        · simp only [hmem, if_false, List.mem_append, List.mem_singleton, not_or]
          exact ⟨h.2.1, fun e => hk e.symm⟩
      · intro kv hkv
        rcases Obj.mem_set o _ _ kv hkv with h1 | h1
        · rw [h1]
          exact ⟨hne.1, trim_trim _, trim row.2, rfl, hne.2, trim_trim _⟩
        · exact h.2.2 kv h1
  · simp only [hv]
    exact h

theorem foldl_step_collected (rows : List (JsString × JsString)) (o : Obj)
    (h : CollectedTable o) : CollectedTable (rows.foldl saveCommandsClick.step o) := by
  induction rows generalizing o with
  | nil => exact h
  | cons row rows ih => exact ih _ (step_collected o row h)

theorem collected_nil : CollectedTable [] := by
  refine ⟨?_, ?_, ?_⟩
  · exact List.nodup_nil
  · simp [Obj.keys]
  · intro kv hkv
    simp at hkv

theorem commands_eq_foldl (rows : List (JsString × JsString)) :
    saveCommandsClick.commands rows = rows.foldl saveCommandsClick.step [] := by
  unfold saveCommandsClick.commands
  exact spread_nil_of_WF _ (foldl_step_collected rows [] collected_nil).1

/-! ## The Save Commands handler: claims -/

/-- C11, as stated, fails for a name with an inner space: a Save Commands action on the single
row with the name `good bye` and the response `Bye!` stores the key `good bye`, which holds
the whitespace character U+0020. -/
theorem saveCommandsClick_table_counterexample :
    Obj.getOwn (saveCommandsClick ⟨fun _ => none, fun _ => js "doc"⟩ true
        [(js "good bye", js "Bye!")] (Service.initial .absent)).config (js "commands")
      = some (.object [(js "good bye", .str (js "Bye!"))]) ∧
    space ∈ js "good bye" ∧ isJsWhitespace space = true :=
  ⟨rfl, by decide, by decide⟩

/-- C11 (amended): for every list of name and response field values in the settings panel, the
table that a Save Commands action stores has pairwise distinct keys; every command name in it
is non-empty and has no leading or trailing whitespace (inner whitespace is kept), and every
response is a non-empty string without leading or trailing whitespace; a later row overrides
the earlier rows of the same name: the table of the rows followed by one more row reads as
that row's trimmed response under its trimmed name, when both are non-empty and the name is
not `__proto__`, and as the table of the rows before everywhere else. -/
theorem saveCommandsClick_table (host : Host) (writeOk : Bool)
    (rows : List (JsString × JsString)) (s : Service) :
    Obj.getOwn (saveCommandsClick host writeOk rows s).config (js "commands")
      = some (.object (saveCommandsClick.commands rows)) ∧
    Obj.WF (saveCommandsClick.commands rows) ∧
    (∀ k v, (k, v) ∈ saveCommandsClick.commands rows →
      k ≠ [] ∧ trim k = k ∧ ∃ r, v = Value.str r ∧ r ≠ [] ∧ trim r = r) ∧
    (∀ (row : JsString × JsString) (k : JsString),
      Obj.getOwn (saveCommandsClick.commands (rows ++ [row])) k =
        if trim row.1 ≠ [] ∧ trim row.2 ≠ [] ∧ trim row.1 = k ∧ k ≠ js "__proto__"
        then some (.str (trim row.2))
        else Obj.getOwn (saveCommandsClick.commands rows) k) := by
  have hc := foldl_step_collected rows [] collected_nil
  refine ⟨?_, ?_, ?_, ?_⟩
  · cases writeOk <;>
      simp [saveCommandsClick, saveConfigCommands, Obj.getOwn_set_self,
        saveCommandsClick.commands]
  · rw [commands_eq_foldl]
    exact hc.1
  · intro k v hkv
    rw [commands_eq_foldl] at hkv
    exact hc.2.2 (k, v) hkv
  · intro row k
    rw [commands_eq_foldl, commands_eq_foldl, List.foldl_append]
    simp only [List.foldl_cons, List.foldl_nil]
    have hstep : saveCommandsClick.step (rows.foldl saveCommandsClick.step []) row =
        if (!(trim row.1).isEmpty && !(trim row.2).isEmpty) = true
        then assignString (rows.foldl saveCommandsClick.step []) (trim row.1) (trim row.2)
        else rows.foldl saveCommandsClick.step [] := rfl
    rw [hstep]
    by_cases h1 : trim row.1 = []
    · simp [h1]
    · by_cases h2 : trim row.2 = []
      · simp [h2]
      · have hv : (!(trim row.1).isEmpty && !(trim row.2).isEmpty) = true := by
          simp [h1, h2]
        simp only [hv, if_true]
        rw [assignString_of_collected _ _ _ hc]
        by_cases hp : trim row.1 = js "__proto__"
        · by_cases hk : trim row.1 = k
          · have hk2 : k = js "__proto__" := hk ▸ hp
            simp [hp, hk2]
          · have hk3 : ¬ js "__proto__" = k := fun e => hk (hp.trans e)
            simp [hp, hk3]
        · by_cases hk : trim row.1 = k
          · subst hk
            simp [h1, h2, hp, Obj.getOwn_set_self]
          · have hk2 : k ≠ trim row.1 := fun e => hk e.symm
            simp [hp, hk, Obj.getOwn_set_other _ _ _ _ hk2]

/-! ## Numbers and time tokens: lemmas -/

theorem toNumber_of_lt (n : Nat) (h : n < 2 ^ 53) : toNumber n = .fin n := by
  have he : excessBits n n = 0 := by
    cases n with
    | zero => rfl
    | succ k =>
      unfold excessBits
      rw [if_pos h]
  simp [toNumber, he]

theorem digitChar_spec :
    ∀ m, m < 10 → (Nat.digitChar m).isDigit = true ∧ (Nat.digitChar m).toNat - 48 = m := by
  decide

theorem digitsValue_append (l : JsString) (c : Char) :
    digitsValue (l ++ [c]) = digitsValue l * 10 + (c.toNat - 48) := by
  simp [digitsValue, List.foldl_append]

theorem toDigitsCore_spec (fuel n : Nat) (ds : JsString) (h : n < fuel) :
    ∃ l, Nat.toDigitsCore 10 fuel n ds = l ++ ds ∧ l ≠ [] ∧
      (∀ c ∈ l, c.isDigit = true) ∧ digitsValue l = n := by
  induction fuel generalizing n ds with
  | zero => omega
  | succ fuel ih =>
    have hd := digitChar_spec (n % 10) (Nat.mod_lt n (by decide))
    by_cases h0 : n / 10 = 0
    · refine ⟨[Nat.digitChar (n % 10)], ?_, by simp, ?_, ?_⟩
      · simp [Nat.toDigitsCore, h0]
      · intro c hc
        simp only [List.mem_singleton] at hc
        rw [hc]
        exact hd.1
      · have hn : n % 10 = n := Nat.mod_eq_of_lt (by omega)
        have h2 := hd.2
        rw [hn] at h2 ⊢
        simp [digitsValue, h2]
    · obtain ⟨l, hl, hne, hdig, hval⟩ :=
        ih (n / 10) (Nat.digitChar (n % 10) :: ds) (by omega)
      refine ⟨l ++ [Nat.digitChar (n % 10)], ?_, by simp, ?_, ?_⟩
      · simp [Nat.toDigitsCore, h0, hl]
      · intro c hc
        rcases List.mem_append.mp hc with hc | hc
        · exact hdig c hc
        · simp only [List.mem_singleton] at hc
          rw [hc]
          exact hd.1
      · rw [digitsValue_append, hval, hd.2]
        omega

/-- The decimal digits of `n`: a non-empty string of ASCII digits that denotes `n`. -/
theorem toDigits_spec (n : Nat) :
    Nat.toDigits 10 n ≠ [] ∧ (∀ c ∈ Nat.toDigits 10 n, c.isDigit = true) ∧
      digitsValue (Nat.toDigits 10 n) = n := by
  obtain ⟨l, hl, hne, hdig, hval⟩ := toDigitsCore_spec (n + 1) n [] (by omega)
  have h : Nat.toDigits 10 n = l := by
    simp [Nat.toDigits, hl]
  rw [h]
  exact ⟨hne, hdig, hval⟩

theorem takeWhile_digits_append (l : JsString) (u : Char) (hl : ∀ c ∈ l, c.isDigit = true)
    (hu : u.isDigit = false) :
    (l ++ [u]).takeWhile Char.isDigit = l ∧ (l ++ [u]).dropWhile Char.isDigit = [u] := by
  induction l with
  | nil => simp [List.takeWhile, List.dropWhile, hu]
  | cons c l ih =>
    have hc : c.isDigit = true := hl c (by simp)
    have ih2 := ih (fun d hd => hl d (by simp [hd]))
    simp [List.takeWhile, List.dropWhile, hc, ih2.1, ih2.2]

/-- A token of one or more digits followed by `m` or `h` matches, with the digits and the unit
as its groups. -/
theorem matchTime_of_valid (l : JsString) (u : Char) (hne : l ≠ [])
    (hl : ∀ c ∈ l, c.isDigit = true) (hu : u = 'm' ∨ u = 'h') :
    matchTime (l ++ [u]) = some (l, u) := by
  have hud : u.isDigit = false := by
    rcases hu with rfl | rfl <;> decide
  obtain ⟨h1, h2⟩ := takeWhile_digits_append l u hl hud
  have hemp : l.isEmpty = false := by
    cases l with
    | nil => exact absurd rfl hne
    | cons c l => rfl
  unfold matchTime
  rw [h2]
  simp only [h1, hemp]
  rcases hu with rfl | rfl <;> simp

/-- Every match is a token of one or more digits followed by `m` or `h`. -/
theorem matchTime_some (time digits : JsString) (u : Char)
    (h : matchTime time = some (digits, u)) :
    time = digits ++ [u] ∧ digits ≠ [] ∧ (∀ c ∈ digits, c.isDigit = true) ∧
      (u = 'm' ∨ u = 'h') := by
  unfold matchTime at h
  have hsplit := List.takeWhile_append_dropWhile Char.isDigit time
  cases hd : time.dropWhile Char.isDigit with
  | nil => simp [hd] at h
  | cons v rest =>
    cases rest with
    | cons w rest2 => simp [hd] at h
    | nil =>
      rw [hd] at hsplit
      simp only [hd] at h
      by_cases hc : (!(time.takeWhile Char.isDigit).isEmpty && (v == 'm' || v == 'h')) = true
      · simp only [hc, if_true, Option.some.injEq, Prod.mk.injEq] at h
        obtain ⟨h1, h2⟩ := h
        subst h1
        subst h2
        simp only [Bool.and_eq_true, Bool.not_eq_true', List.isEmpty_eq_false, Bool.or_eq_true,
          beq_iff_eq] at hc
        refine ⟨hsplit.symm, hc.1, ?_, hc.2⟩
        intro c hcm
        exact List.mem_takeWhile_imp hcm
      · simp [hc] at h

/-! ## The remind command: lemmas -/

theorem sendMessage_effects (env : Collaborators) (channelId : Value) (message : Message) :
    (sendMessage env channelId message).1 = [] ∨
      (sendMessage env channelId message).1 = [.send channelId message] := by
  unfold sendMessage
  cases env.sendFails
  · exact Or.inr rfl
  · exact Or.inl rfl

theorem sendMessage_of_ok (env : Collaborators) (channelId : Value) (message : Message)
    (h : env.sendFails = false) :
    sendMessage env channelId message = ([.send channelId message], .ok ()) := by
  simp [sendMessage, h]

/-- The `try` block of the remind command once the lookups have succeeded, the channel is
resolved, the three arguments are non-empty and the user is found: what remains is the
parsing of the time token. -/
theorem remind_tryBlock_of_ready (env : Collaborators) (event : Event) (channelId : Value)
    (user : User) (hs : env.hasSendMessage = true) (hg : env.hasGetUser = true)
    (hch : resolveChannel env event = .ok channelId)
    (hu : argValue event 0 ≠ []) (ht : argValue event 1 ≠ []) (hm : argValue event 2 ≠ [])
    (huser : env.getUser (argValue event 0) = some user) :
    remindCommand.tryBlock env event =
      match matchTime (argValue event 1) with
      | none =>
        sendMessage env channelId
          (plainMessage (js "Invalid time format. Use '10m' for minutes or '1h' for hours."))
      | some (digits, unit) =>
        match remindCommand.timeInMs (parseInt digits) unit with
        | none =>
          sendMessage env channelId
            (plainMessage (js "Invalid time unit. Use 'm' for minutes or 'h' for hours."))
        | some timeInMs =>
          (Effect.setReminder (argValue event 0) timeInMs (argValue event 2) channelId ::
              (sendMessage env channelId
                (chatMessage (js "Reminder set for <@" ++ argValue event 0 ++ js "> in "
                  ++ numberText env (parseInt digits) ++ [unit] ++ js "."))).1,
            (sendMessage env channelId
                (chatMessage (js "Reminder set for <@" ++ argValue event 0 ++ js "> in "
                  ++ numberText env (parseInt digits) ++ [unit] ++ js "."))).2) := by
  have he : ((argValue event 0).isEmpty || (argValue event 1).isEmpty
      || (argValue event 2).isEmpty) = false := by
    simp [hu, ht, hm]
  unfold remindCommand.tryBlock
  simp only [hs, hg, hch, he, huser, Bool.not_true, Bool.false_eq_true, if_false]

/-- Without a match of the time token the `try` block of the remind command has no effect
other than one message, the unknown-user message or the invalid-format message. -/
theorem remind_tryBlock_of_no_match (env : Collaborators) (event : Event)
    (hno : matchTime (argValue event 1) = none) :
    (remindCommand.tryBlock env event).1 = [] ∨
    (∃ ch, (remindCommand.tryBlock env event).1
      = [.send ch (plainMessage (js "User not found!"))]) ∨
    (∃ ch, (remindCommand.tryBlock env event).1 = [.send ch (plainMessage
      (js "Invalid time format. Use '10m' for minutes or '1h' for hours."))]) := by
  unfold remindCommand.tryBlock
  cases hs : env.hasSendMessage with
  | false => exact Or.inl (by simp)
  | true =>
    cases hg : env.hasGetUser with
    | false => exact Or.inl (by simp)
    | true =>
      cases hch : resolveChannel env event with
      | error e => exact Or.inl (by simp)
      | ok ch =>
        cases he : ((argValue event 0).isEmpty || (argValue event 1).isEmpty
            || (argValue event 2).isEmpty) with
        | true => exact Or.inl (by simp [he])
        | false =>
          cases huser : env.getUser (argValue event 0) with
          | none =>
            simp only [Bool.not_true, Bool.false_eq_true, if_false, he, huser]
            rcases sendMessage_effects env ch (plainMessage (js "User not found!")) with h | h
            · exact Or.inl h
            · exact Or.inr (Or.inl ⟨ch, h⟩)
          | some user =>
            simp only [Bool.not_true, Bool.false_eq_true, if_false, he, huser, hno]
            rcases sendMessage_effects env ch (plainMessage
              (js "Invalid time format. Use '10m' for minutes or '1h' for hours.")) with h | h
            · exact Or.inl h
            · exact Or.inr (Or.inr ⟨ch, h⟩)

theorem remind_execute_effects (env : Collaborators) (event : Event) :
    (remindCommand.execute env event).effects = (remindCommand.tryBlock env event).1 ∨
    (remindCommand.execute env event).effects = (remindCommand.tryBlock env event).1
      ++ [.logError (js "Error executing remind command:")] := by
  unfold remindCommand.execute
  rcases hb : remindCommand.tryBlock env event with ⟨effects, r⟩
  cases r with
  | ok u => exact Or.inl rfl
  | error e => exact Or.inr rfl

/-! ## The remind command: claims -/

/-- C12, as stated, fails for a number that a double cannot hold: the token made of the digits
of `9007199254740993` (that is `2 ^ 53 + 1`) followed by `m` arms the reminder with the delay
`540431955284459520000`, which is not `9007199254740993 * 60000`, because `parseInt` returns
the nearest double `9007199254740992`. -/
theorem remindCommand_delay_counterexample :
    Nat.toDigits 10 9007199254740993 ++ ['m'] = js "9007199254740993m" ∧
    (remindCommand.execute
        ⟨true, true, false, fun _ => some ⟨none⟩, some (.str (js "7")), fun _ => .networkError,
          fun s => s, fun _ => [], fun _ => []⟩
        ⟨.undefined, [some (js "1"), some (Nat.toDigits 10 9007199254740993 ++ ['m']),
          some (js "hi")]⟩).effects.head?
      = some (.setReminder (js "1") (.fin 540431955284459520000) (js "hi") (.str (js "7"))) ∧
    540431955284459520000 ≠ 9007199254740993 * 60000 := by
  refine ⟨by decide, ?_, by decide⟩
  set_option exponentiation.threshold 1100 in
  rfl

/-- C12 (amended): when the lookups succeed, the channel is resolved, the user is found, the
message is non-empty and the send does not throw, then for every natural number `n` with
`n * 60000 < 2 ^ 53` the remind command given the time token formed by the decimal digits of
`n` followed by `m` calls `setReminder` with exactly `n * 60000` ms, and for every `n` with
`n * 3600000 < 2 ^ 53` given the digits followed by `h` with exactly `n * 3600000` ms, and
then sends the confirmation; `setReminder` arms a timer with that delay. -/
theorem remindCommand_delay (env : Collaborators) (event : Event) (channelId : Value)
    (user : User) (n : Nat) (hs : env.hasSendMessage = true) (hg : env.hasGetUser = true)
    (hsend : env.sendFails = false) (hch : resolveChannel env event = .ok channelId)
    (hu : argValue event 0 ≠ []) (hm : argValue event 2 ≠ [])
    (huser : env.getUser (argValue event 0) = some user) :
    (argValue event 1 = Nat.toDigits 10 n ++ ['m'] → n * 60000 < 2 ^ 53 →
      remindCommand.execute env event =
        ⟨[.setReminder (argValue event 0) (.fin (n * 60000)) (argValue event 2) channelId,
          .send channelId (chatMessage (js "Reminder set for <@" ++ argValue event 0
            ++ js "> in " ++ Nat.toDigits 10 n ++ ['m'] ++ js "."))], .ok (), []⟩) ∧
    (argValue event 1 = Nat.toDigits 10 n ++ ['h'] → n * 3600000 < 2 ^ 53 →
      remindCommand.execute env event =
        ⟨[.setReminder (argValue event 0) (.fin (n * 3600000)) (argValue event 2) channelId,
          .send channelId (chatMessage (js "Reminder set for <@" ++ argValue event 0
            ++ js "> in " ++ Nat.toDigits 10 n ++ ['h'] ++ js "."))], .ok (), []⟩) ∧
    (∀ (svc : ReminderService) (userId : JsString) (time : Num) (message : JsString)
        (ch : Value),
      (svc.setReminder userId time message ch).timers
        = svc.timers ++ [⟨svc.nextHandle, time, userId, message, ch⟩]) := by
  obtain ⟨hne, hdig, hval⟩ := toDigits_spec n
  have hready : ∀ u, (u = 'm' ∨ u = 'h') → argValue event 1 = Nat.toDigits 10 n ++ [u] →
      n < 2 ^ 53 →
      remindCommand.tryBlock env event =
        match remindCommand.timeInMs (.fin n) u with
        | none =>
          sendMessage env channelId
            (plainMessage (js "Invalid time unit. Use 'm' for minutes or 'h' for hours."))
        | some timeInMs =>
          ([.setReminder (argValue event 0) timeInMs (argValue event 2) channelId,
            .send channelId (chatMessage (js "Reminder set for <@" ++ argValue event 0
              ++ js "> in " ++ Nat.toDigits 10 n ++ [u] ++ js "."))], .ok ()) := by
    intro u hu2 ht hn
    have htne : argValue event 1 ≠ [] := by
      rw [ht]
      simp
    have hmatch : matchTime (argValue event 1) = some (Nat.toDigits 10 n, u) := by
      rw [ht]
      exact matchTime_of_valid _ u hne hdig hu2
    have hparse : parseInt (Nat.toDigits 10 n) = .fin n := by
      unfold parseInt
      rw [hval]
      exact toNumber_of_lt n hn
    have htext : numberText env (.fin n) = Nat.toDigits 10 n := by
      have h21 : n < 10 ^ 21 := by
        have : (2 : Nat) ^ 53 < 10 ^ 21 := by norm_num
        omega
      show (if n < 10 ^ 21 then Nat.toDigits 10 n else env.exponentText n) = _
      rw [if_pos h21]
    rw [remind_tryBlock_of_ready env event channelId user hs hg hch hu htne hm huser, hmatch]
    simp only [hparse, htext]
    cases remindCommand.timeInMs (.fin n) u with
    | none => rfl
    | some t => simp [sendMessage_of_ok env _ _ hsend]
  refine ⟨?_, ?_, ?_⟩
  · intro ht hn
    have hn1 : n < 2 ^ 53 := by omega
    have hn2 : n * 60 < 2 ^ 53 := by omega
    have htime : remindCommand.timeInMs (.fin n) 'm' = some (.fin (n * 60000)) := by
      have h3 : n * 60 * 1000 = n * 60000 := by omega
      simp [remindCommand.timeInMs, Num.mul, toNumber_of_lt _ hn2, h3, toNumber_of_lt _ hn]
    unfold remindCommand.execute
    rw [hready 'm' (Or.inl rfl) ht hn1, htime]
  · intro ht hn
    have hn1 : n < 2 ^ 53 := by omega
    have hn2 : n * 60 < 2 ^ 53 := by omega
    have hn3 : n * 60 * 60 < 2 ^ 53 := by omega
    have htime : remindCommand.timeInMs (.fin n) 'h' = some (.fin (n * 3600000)) := by
      have h3 : n * 60 * 60 * 1000 = n * 3600000 := by omega
      simp [remindCommand.timeInMs, Num.mul, toNumber_of_lt _ hn2, toNumber_of_lt _ hn3, h3,
        toNumber_of_lt _ hn]
    unfold remindCommand.execute
    rw [hready 'h' (Or.inr rfl) ht hn1, htime]
  · intro svc userId time message ch
    rfl

/-- C12 (amended) at the tokens `10m` and `1h`: the delays are 600000 ms and 3600000 ms. -/
theorem remindCommand_delay_witness :
    (remindCommand.execute
        ⟨true, true, false, fun _ => some ⟨none⟩, some (.str (js "7")), fun _ => .networkError,
          fun s => s, fun _ => [], fun _ => []⟩
        ⟨.undefined, [some (js "1"), some (js "10m"), some (js "hi")]⟩).effects.head?
      = some (.setReminder (js "1") (.fin 600000) (js "hi") (.str (js "7"))) ∧
    (remindCommand.execute
        ⟨true, true, false, fun _ => some ⟨none⟩, some (.str (js "7")), fun _ => .networkError,
          fun s => s, fun _ => [], fun _ => []⟩
        ⟨.undefined, [some (js "1"), some (js "1h"), some (js "hi")]⟩).effects.head?
      = some (.setReminder (js "1") (.fin 3600000) (js "hi") (.str (js "7"))) :=
  ⟨by
      rw [(remindCommand_delay
        ⟨true, true, false, fun _ => some ⟨none⟩, some (.str (js "7")), fun _ => .networkError,
          fun s => s, fun _ => [], fun _ => []⟩
        ⟨.undefined, [some (js "1"), some (js "10m"), some (js "hi")]⟩ (.str (js "7")) ⟨none⟩ 10
        rfl rfl rfl rfl (by decide) (by decide) rfl).1 (by decide) (by decide)]
      rfl,
    by
      rw [(remindCommand_delay
        ⟨true, true, false, fun _ => some ⟨none⟩, some (.str (js "7")), fun _ => .networkError,
          fun s => s, fun _ => [], fun _ => []⟩
        ⟨.undefined, [some (js "1"), some (js "1h"), some (js "hi")]⟩ (.str (js "7")) ⟨none⟩ 1
        rfl rfl rfl rfl (by decide) (by decide) rfl).2.1 (by decide) (by decide)]
      rfl⟩

/-- C13: for every time token that is not one or more decimal digits immediately followed by
exactly one of `m` or `h`, whatever the surroundings do, the remind command never calls
`setReminder`, so no timer is armed, and every message it sends is the unknown-user message
or the invalid-format message, so no confirmation is sent. -/
theorem remindCommand_rejects (env : Collaborators) (event : Event)
    (hbad : ¬ ∃ digits u, digits ≠ [] ∧ (∀ c ∈ digits, c.isDigit = true) ∧
      (u = 'm' ∨ u = 'h') ∧ argValue event 1 = digits ++ [u]) :
    (∀ userId time message ch,
      Effect.setReminder userId time message ch ∉ (remindCommand.execute env event).effects) ∧
    (∀ ch msg, Effect.send ch msg ∈ (remindCommand.execute env event).effects →
      msg = plainMessage (js "User not found!") ∨
      msg = plainMessage (js "Invalid time format. Use '10m' for minutes or '1h' for hours.")) := by
  have hno : matchTime (argValue event 1) = none := by
    cases h : matchTime (argValue event 1) with
    | none => rfl
    | some p =>
      obtain ⟨digits, u⟩ := p
      obtain ⟨h1, h2, h3, h4⟩ := matchTime_some _ digits u h
      exact absurd ⟨digits, u, h2, h3, h4, h1⟩ hbad
  have hmem : ∀ e ∈ (remindCommand.execute env event).effects,
      e = .logError (js "Error executing remind command:") ∨
      (∃ ch, e = .send ch (plainMessage (js "User not found!"))) ∨
      (∃ ch, e = .send ch (plainMessage
        (js "Invalid time format. Use '10m' for minutes or '1h' for hours."))) := by
    intro e he
    have hcases : e ∈ (remindCommand.tryBlock env event).1 ∨
        e = .logError (js "Error executing remind command:") := by
      rcases remind_execute_effects env event with h | h
      · rw [h] at he
        exact Or.inl he
      · rw [h] at he
        rcases List.mem_append.mp he with h2 | h2
        · exact Or.inl h2
        · exact Or.inr (by simpa using h2)
    rcases hcases with h | h
    · rcases remind_tryBlock_of_no_match env event hno with h0 | ⟨ch, h1⟩ | ⟨ch, h2⟩
      · rw [h0] at h
        simp at h
      · rw [h1] at h
        exact Or.inr (Or.inl ⟨ch, by simpa using h⟩)
      · rw [h2] at h
        exact Or.inr (Or.inr ⟨ch, by simpa using h⟩)
    · exact Or.inl h
  constructor
  · intro userId time message ch hin
    rcases hmem _ hin with h | ⟨c, h⟩ | ⟨c, h⟩ <;> cases h
  · intro ch msg hin
    rcases hmem _ hin with h | ⟨c, h⟩ | ⟨c, h⟩
    · cases h
    · cases h
      exact Or.inl rfl
    · cases h
      exact Or.inr rfl

/-- C13 at the token `10x`, with a user that is found: the reminder that `10m` would arm is
not armed. -/
theorem remindCommand_rejects_witness :
    Effect.setReminder (js "1") (.fin 600000) (js "hi") (.str (js "7")) ∉
      (remindCommand.execute
        ⟨true, true, false, fun _ => some ⟨none⟩, some (.str (js "7")), fun _ => .networkError,
          fun s => s, fun _ => [], fun _ => []⟩
        ⟨.undefined, [some (js "1"), some (js "10x"), some (js "hi")]⟩).effects :=
  (remindCommand_rejects
    ⟨true, true, false, fun _ => some ⟨none⟩, some (.str (js "7")), fun _ => .networkError,
      fun s => s, fun _ => [], fun _ => []⟩
    ⟨.undefined, [some (js "1"), some (js "10x"), some (js "hi")]⟩
    (by
      rintro ⟨digits, u, _, _, hu, ht⟩
      have h2 : argValue ⟨.undefined, [some (js "1"), some (js "10x"), some (js "hi")]⟩ 1
          = js "10" ++ ['x'] := rfl
      rw [h2] at ht
      have h3 := (List.append_inj' ht rfl).2
      simp only [List.cons.injEq, and_true] at h3
      rcases hu with hu | hu <;> rw [hu] at h3 <;> exact absurd h3 (by decide))).1
    (js "1") (.fin 600000) (js "hi") (.str (js "7"))

/-- C14, as stated, fails at the token `10x`: with the lookups succeeding and the user found,
the one message sent is the invalid-format message, not the invalid-unit message (and no
timer is armed). -/
theorem remindCommand_unit_counterexample :
    remindCommand.execute
        ⟨true, true, false, fun _ => some ⟨none⟩, some (.str (js "7")), fun _ => .networkError,
          fun s => s, fun _ => [], fun _ => []⟩
        ⟨.undefined, [some (js "1"), some (js "10x"), some (js "hi")]⟩ =
      ⟨[.send (.str (js "7")) (plainMessage
          (js "Invalid time format. Use '10m' for minutes or '1h' for hours."))], .ok (), []⟩ ∧
    js "Invalid time format. Use '10m' for minutes or '1h' for hours."
      ≠ js "Invalid time unit. Use 'm' for minutes or 'h' for hours." :=
  ⟨rfl, by decide⟩

/-- C14 (amended): when the lookups succeed, the channel is resolved, the user is found, the
message is non-empty and the send does not throw, a time token made of digits (or of any
other text) followed by a character other than `m` and `h`, such as `10x`, is answered with
the invalid-format message ("Invalid time format. Use '10m' for minutes or '1h' for hours.")
and with nothing else: no timer is armed. -/
theorem remindCommand_unit (env : Collaborators) (event : Event) (channelId : Value)
    (user : User) (digits : JsString) (u : Char)
    (hs : env.hasSendMessage = true) (hg : env.hasGetUser = true)
    (hsend : env.sendFails = false) (hch : resolveChannel env event = .ok channelId)
    (hu : argValue event 0 ≠ []) (hm : argValue event 2 ≠ [])
    (huser : env.getUser (argValue event 0) = some user)
    (hunit : u ≠ 'm' ∧ u ≠ 'h') (ht : argValue event 1 = digits ++ [u]) :
    remindCommand.execute env event =
      ⟨[.send channelId (plainMessage
          (js "Invalid time format. Use '10m' for minutes or '1h' for hours."))], .ok (), []⟩ := by
  have htne : argValue event 1 ≠ [] := by
    rw [ht]
    simp
  have hno : matchTime (argValue event 1) = none := by
    cases h : matchTime (argValue event 1) with
    | none => rfl
    | some p =>
      obtain ⟨d2, u2⟩ := p
      obtain ⟨h1, _, _, h4⟩ := matchTime_some _ d2 u2 h
      rw [ht] at h1
      have h3 := (List.append_inj' h1 rfl).2
      simp only [List.cons.injEq, and_true] at h3
      rw [← h3] at h4
      rcases h4 with h4 | h4
      · exact absurd h4 hunit.1
      · exact absurd h4 hunit.2
  unfold remindCommand.execute
  rw [remind_tryBlock_of_ready env event channelId user hs hg hch hu htne hm huser, hno]
  simp [sendMessage_of_ok env _ _ hsend]

/-- C14 (amended) at the token `10x`. -/
theorem remindCommand_unit_witness :
    remindCommand.execute
        ⟨true, true, false, fun _ => some ⟨none⟩, some (.str (js "7")), fun _ => .networkError,
          fun s => s, fun _ => [], fun _ => []⟩
        ⟨.str (js "42"), [some (js "1"), some (js "10x"), some (js "hi")]⟩ =
      ⟨[.send (.str (js "42")) (plainMessage
          (js "Invalid time format. Use '10m' for minutes or '1h' for hours."))], .ok (), []⟩ :=
  remindCommand_unit
    ⟨true, true, false, fun _ => some ⟨none⟩, some (.str (js "7")), fun _ => .networkError,
      fun s => s, fun _ => [], fun _ => []⟩
    ⟨.str (js "42"), [some (js "1"), some (js "10x"), some (js "hi")]⟩ (.str (js "42")) ⟨none⟩
    (js "10") 'x' rfl rfl rfl rfl (by decide) (by decide) rfl (by decide) rfl

/-! ## The reminder service: lemmas -/

theorem mapGet_mapSet_self (m : List (JsString × Nat)) (k : JsString) (v : Nat) :
    mapGet (mapSet m k v) k = some v := by
  induction m with
  | nil => simp [mapSet, mapGet]
  | cons kv rest ih =>
    obtain ⟨k1, v1⟩ := kv
    by_cases h : k1 = k
    · simp [mapSet, mapGet, h]
    · simp [mapSet, mapGet, h, ih]

theorem mem_mapSet (m : List (JsString × Nat)) (k : JsString) (v : Nat) (kv : JsString × Nat)
    (h : kv ∈ mapSet m k v) : kv = (k, v) ∨ kv ∈ m := by
  induction m with
  | nil => simpa [mapSet] using h
  | cons e rest ih =>
    obtain ⟨k1, v1⟩ := e
    by_cases hk : k1 = k
    · simp only [mapSet, hk, if_true, List.mem_cons] at h
      rcases h with h | h
      · exact Or.inl h
      · exact Or.inr (List.mem_cons_of_mem _ h)
    · simp only [mapSet, hk, if_false, List.mem_cons] at h
      rcases h with h | h
      · exact Or.inr (by simp [h])
      · rcases ih h with h2 | h2
        · exact Or.inl h2
        · exact Or.inr (List.mem_cons_of_mem _ h2)

theorem mapDelete_cons (k1 : JsString) (v1 : Nat) (rest : List (JsString × Nat))
    (k : JsString) :
    mapDelete ((k1, v1) :: rest) k =
      if k1 = k then mapDelete rest k else (k1, v1) :: mapDelete rest k := by
  by_cases h : k1 = k <;> simp [mapDelete, List.filter_cons, h]

theorem mapGet_mapDelete_other (m : List (JsString × Nat)) (k k2 : JsString) (h : k2 ≠ k) :
    mapGet (mapDelete m k) k2 = mapGet m k2 := by
  induction m with
  | nil => rfl
  | cons kv rest ih =>
    obtain ⟨k1, v1⟩ := kv
    rw [mapDelete_cons]
    by_cases h1 : k1 = k
    · have h3 : ¬ k1 = k2 := fun e => h (e.symm.trans h1)
      simp only [h1, if_true, mapGet]
      rw [ih]
      have h4 : ¬ k = k2 := fun e => h e.symm
      simp [h4]
    · by_cases h2 : k1 = k2
      · subst h2
        simp [mapGet, h1]
      · simp [mapGet, h1, h2, ih]

theorem mapGet_mapDelete_self (m : List (JsString × Nat)) (k : JsString) :
    mapGet (mapDelete m k) k = none := by
  induction m with
  | nil => rfl
  | cons kv rest ih =>
    obtain ⟨k1, v1⟩ := kv
    rw [mapDelete_cons]
    by_cases h1 : k1 = k
    · simp [h1, ih]
    · simp [mapGet, h1, ih]

theorem fire_of_find (env : Collaborators) (svc : ReminderService) (h : Nat) (t : Timer)
    (hf : svc.timers.find? (fun t => t.handle == h) = some t) :
    ReminderService.fire env svc h =
      { reminders := mapDelete svc.reminders t.userId
        timers := svc.timers.filter (fun t' => t'.handle != h)
        nextHandle := svc.nextHandle
        effects := svc.effects ++ (ReminderService.sendReminder env t.userId t.message
          t.channelId).1
        unhandled := svc.unhandled ++
          (match (ReminderService.sendReminder env t.userId t.message t.channelId).2 with
           | .ok _ => []
           | .error e => [e]) } := by
  simp [ReminderService.fire, hf]

theorem fire_of_not_find (env : Collaborators) (svc : ReminderService) (h : Nat)
    (hf : svc.timers.find? (fun t => t.handle == h) = none) :
    ReminderService.fire env svc h = svc := by
  simp [ReminderService.fire, hf]

theorem find_fresh (l : List Timer) (h : Nat) (hl : ∀ t ∈ l, t.handle ≠ h) (t : Timer)
    (rest : List Timer) (ht : t.handle = h) :
    (l ++ t :: rest).find? (fun t => t.handle == h) = some t := by
  induction l with
  | nil => simp [List.find?, ht]
  | cons a l ih =>
    have ha : (a.handle == h) = false := by
      simpa using hl a (by simp)
    have ih2 := ih (fun t ht => hl t (by simp [ht]))
    simp only [List.cons_append, List.find?_cons, ha]
    exact ih2

theorem filter_fresh (l : List Timer) (h : Nat) (hl : ∀ t ∈ l, t.handle ≠ h) :
    l.filter (fun t => t.handle != h) = l := by
  induction l with
  | nil => rfl
  | cons a l ih =>
    have ha : (a.handle != h) = true := by
      simpa using hl a (by simp)
    have ih2 := ih (fun t ht => hl t (by simp [ht]))
    simp only [List.filter_cons, ha, if_true, ih2]

theorem find_some_spec (l : List Timer) (h : Nat) (t : Timer)
    (hf : l.find? (fun t => t.handle == h) = some t) : t ∈ l ∧ t.handle = h := by
  constructor
  · exact List.mem_of_find?_eq_some hf
  · have := List.find?_some hf
    simpa using this

theorem setReminder_consistent (svc : ReminderService) (userId : JsString) (time : Num)
    (message : JsString) (channelId : Value) (h : svc.Consistent) :
    (svc.setReminder userId time message channelId).Consistent := by
  obtain ⟨h1, h2, h3⟩ := h
  refine ⟨?_, ?_, ?_⟩
  · intro t ht
    simp only [ReminderService.setReminder, List.mem_append, List.mem_singleton] at ht ⊢
    rcases ht with ht | ht
    · exact Nat.lt_succ_of_lt (h1 t ht)
    · rw [ht]
      exact Nat.lt_succ_self _
  · simp only [ReminderService.setReminder, List.map_append, List.map_cons, List.map_nil]
    refine List.Nodup.append h2 (List.nodup_singleton _) ?_
    intro a ha hb
    simp only [List.mem_singleton] at hb
    obtain ⟨t, ht, hta⟩ := List.mem_map.mp ha
    have := h1 t ht
    omega
  · intro kv hkv
    simp only [ReminderService.setReminder] at hkv ⊢
    rcases mem_mapSet _ _ _ kv hkv with hnew | hold
    · exact ⟨⟨svc.nextHandle, time, userId, message, channelId⟩, by simp, by simp [hnew],
        by simp [hnew]⟩
    · obtain ⟨t, ht, hth, htu⟩ := h3 kv hold
      exact ⟨t, by simp [ht], hth, htu⟩

theorem fire_consistent (env : Collaborators) (svc : ReminderService) (handle : Nat)
    (h : svc.Consistent) : (ReminderService.fire env svc handle).Consistent := by
  obtain ⟨h1, h2, h3⟩ := h
  cases hf : svc.timers.find? (fun t => t.handle == handle) with
  | none =>
    rw [fire_of_not_find env svc handle hf]
    exact ⟨h1, h2, h3⟩
  | some t =>
    rw [fire_of_find env svc handle t hf]
    obtain ⟨htmem, hth⟩ := find_some_spec _ _ _ hf
    refine ⟨?_, ?_, ?_⟩
    · intro t' ht'
      exact h1 t' (List.mem_of_mem_filter ht')
    · exact (List.Nodup.sublist (List.Sublist.map _ (List.filter_sublist _)) h2)
    · intro kv hkv
      simp only [mapDelete, List.mem_filter, decide_eq_true_eq] at hkv
      obtain ⟨t', ht', hth', htu'⟩ := h3 kv hkv.1
      refine ⟨t', ?_, hth', htu'⟩
      simp only [List.mem_filter, bne_iff_ne, ne_eq]
      refine ⟨ht', ?_⟩
      intro heq
      have hsame : t' = t := by
        have hinj := List.inj_on_of_nodup_map h2
        exact hinj ht' htmem (by rw [heq, hth])
      rw [hsame] at htu'
      exact hkv.2 htu'.symm

/-- Every state reached from the service as constructed by calls of `setReminder` and firings
of timers is consistent. -/
theorem run_consistent (env : Collaborators) (steps : List ReminderStep) :
    (ReminderService.run env steps).Consistent := by
  have hgen : ∀ (l : List ReminderStep) (svc : ReminderService), svc.Consistent →
      (l.foldl (ReminderService.step env) svc).Consistent := by
    intro l
    induction l with
    | nil => intro svc h; exact h
    | cons s l ih =>
      intro svc h
      apply ih
      cases s with
      | set userId time message channelId =>
        exact setReminder_consistent svc userId time message channelId h
      | fire handle => exact fire_consistent env svc handle h
  apply hgen
  refine ⟨?_, ?_, ?_⟩
  · intro t ht
    simp [ReminderService.initial] at ht
  · simp [ReminderService.initial]
  · intro kv hkv
    simp [ReminderService.initial] at hkv

/-! ## The reminder service under the clock: lemmas -/

theorem sendReminder_of_missing (env : Collaborators) (userId message : JsString)
    (channelId : Value) (hs : env.hasSendMessage = false) :
    ReminderService.sendReminder env userId message channelId = ([], .error .typeError) := by
  simp [ReminderService.sendReminder, hs]

theorem sendReminder_of_falsy (env : Collaborators) (userId message : JsString)
    (channelId : Value) (hs : env.hasSendMessage = true) (hc : toBoolean channelId = false) :
    ReminderService.sendReminder env userId message channelId = ([], .ok ()) := by
  simp [ReminderService.sendReminder, hs, hc]

theorem sendReminder_of_ready (env : Collaborators) (userId message : JsString)
    (channelId : Value) (hs : env.hasSendMessage = true) (hc : toBoolean channelId = true)
    (hf : env.sendFails = false) :
    ReminderService.sendReminder env userId message channelId =
      ([.send channelId (chatMessage (js "<@" ++ userId ++ js ">, reminder: " ++ message))],
        .ok ()) := by
  simp [ReminderService.sendReminder, hs, hc, sendMessage_of_ok env _ _ hf]

theorem sendReminder_of_failing (env : Collaborators) (userId message : JsString)
    (channelId : Value) (hs : env.hasSendMessage = true) (hc : toBoolean channelId = true)
    (hf : env.sendFails = true) :
    ReminderService.sendReminder env userId message channelId = ([], .error .hostError) := by
  simp [ReminderService.sendReminder, hs, hc, sendMessage, hf]

theorem find_none_spec (l : List Timer) (h : Nat)
    (hf : l.find? (fun t => t.handle == h) = none) : ∀ t ∈ l, t.handle ≠ h := by
  intro t ht e
  have := List.find?_eq_none.mp hf t ht
  simp [e] at this

theorem find_filter_other (l : List Timer) (h h2 : Nat) (hne : h ≠ h2) :
    (l.filter (fun t => t.handle != h2)).find? (fun t => t.handle == h) =
      l.find? (fun t => t.handle == h) := by
  induction l with
  | nil => rfl
  | cons a l ih =>
    by_cases ha : a.handle = h2
    · have h1 : (a.handle != h2) = false := by simp [ha]
      have h3 : (a.handle == h) = false := by
        simp only [beq_eq_false_iff_ne, ne_eq]
        intro e
        exact hne (e.symm.trans ha)
      rw [List.filter_cons, h1, List.find?_cons, h3]
      simpa using ih
    · have h1 : (a.handle != h2) = true := by simpa using ha
      rw [List.filter_cons, h1]
      simp only [if_true, List.find?_cons]
      rw [ih]

theorem fire_timers (env : Collaborators) (svc : ReminderService) (h : Nat) :
    (ReminderService.fire env svc h).timers = svc.timers.filter (fun t => t.handle != h) := by
  cases hf : svc.timers.find? (fun t => t.handle == h) with
  | none =>
    rw [fire_of_not_find env svc h hf, filter_fresh svc.timers h (find_none_spec _ _ hf)]
  | some t => rw [fire_of_find env svc h t hf]

theorem fire_nextHandle (env : Collaborators) (svc : ReminderService) (h : Nat) :
    (ReminderService.fire env svc h).nextHandle = svc.nextHandle := by
  cases hf : svc.timers.find? (fun t => t.handle == h) with
  | none => rw [fire_of_not_find env svc h hf]
  | some t => rw [fire_of_find env svc h t hf]

theorem clock_fire_of_find (env : Collaborators) (c : HostClock) (p : Nat × Nat) (t : Timer)
    (hf : c.svc.timers.find? (fun t => t.handle == p.1) = some t) :
    HostClock.fire env c p =
      { svc := ReminderService.fire env c.svc p.1
        now := c.now
        dueAt := c.dueAt
        firings := c.firings ++
          [⟨p.1, p.2, (ReminderService.sendReminder env t.userId t.message t.channelId).1⟩] } := by
  unfold HostClock.fire
  rw [hf]
  simp only
  rw [fire_of_find env c.svc p.1 t hf]
  simp

theorem clock_fire_of_not_find (env : Collaborators) (c : HostClock) (p : Nat × Nat)
    (hf : c.svc.timers.find? (fun t => t.handle == p.1) = none) :
    HostClock.fire env c p = c := by
  unfold HostClock.fire
  rw [hf]

theorem clock_fire_timers (env : Collaborators) (c : HostClock) (p : Nat × Nat) :
    (HostClock.fire env c p).svc.timers = c.svc.timers.filter (fun t => t.handle != p.1) := by
  cases hf : c.svc.timers.find? (fun t => t.handle == p.1) with
  | none =>
    rw [clock_fire_of_not_find env c p hf, filter_fresh c.svc.timers p.1 (find_none_spec _ _ hf)]
  | some t =>
    rw [clock_fire_of_find env c p t hf]
    exact fire_timers env c.svc p.1

theorem clock_fire_nextHandle (env : Collaborators) (c : HostClock) (p : Nat × Nat) :
    (HostClock.fire env c p).svc.nextHandle = c.svc.nextHandle := by
  cases hf : c.svc.timers.find? (fun t => t.handle == p.1) with
  | none => rw [clock_fire_of_not_find env c p hf]
  | some t =>
    rw [clock_fire_of_find env c p t hf]
    exact fire_nextHandle env c.svc p.1

theorem clock_fire_dueAt (env : Collaborators) (c : HostClock) (p : Nat × Nat) :
    (HostClock.fire env c p).dueAt = c.dueAt := by
  cases hf : c.svc.timers.find? (fun t => t.handle == p.1) with
  | none => rw [clock_fire_of_not_find env c p hf]
  | some t => rw [clock_fire_of_find env c p t hf]

theorem clock_fire_now (env : Collaborators) (c : HostClock) (p : Nat × Nat) :
    (HostClock.fire env c p).now = c.now := by
  cases hf : c.svc.timers.find? (fun t => t.handle == p.1) with
  | none => rw [clock_fire_of_not_find env c p hf]
  | some t => rw [clock_fire_of_find env c p t hf]

theorem clock_fire_firings_other (env : Collaborators) (c : HostClock) (p : Nat × Nat)
    (h : Nat) (hne : p.1 ≠ h) :
    (HostClock.fire env c p).firings.filter (fun f => f.handle == h) =
      c.firings.filter (fun f => f.handle == h) := by
  cases hf : c.svc.timers.find? (fun t => t.handle == p.1) with
  | none => rw [clock_fire_of_not_find env c p hf]
  | some t =>
    rw [clock_fire_of_find env c p t hf]
    simp [List.filter_append, List.filter_cons, hne]

/-- What a run of a callback adds to the effects of the service is what its record holds. -/
theorem clock_fire_effects (env : Collaborators) (c : HostClock) (p : Nat × Nat) :
    ∃ new, (HostClock.fire env c p).firings = c.firings ++ new ∧
      (HostClock.fire env c p).svc.effects = c.svc.effects ++ new.flatMap Firing.effects := by
  cases hf : c.svc.timers.find? (fun t => t.handle == p.1) with
  | none =>
    rw [clock_fire_of_not_find env c p hf]
    exact ⟨[], by simp, by simp⟩
  | some t =>
    rw [clock_fire_of_find env c p t hf]
    refine ⟨[⟨p.1, p.2, (ReminderService.sendReminder env t.userId t.message t.channelId).1⟩],
      rfl, ?_⟩
    rw [fire_of_find env c.svc p.1 t hf]
    simp

theorem clock_foldl_effects (env : Collaborators) (ps : List (Nat × Nat)) (c : HostClock) :
    ∃ new, (ps.foldl (HostClock.fire env) c).firings = c.firings ++ new ∧
      (ps.foldl (HostClock.fire env) c).svc.effects =
        c.svc.effects ++ new.flatMap Firing.effects := by
  induction ps generalizing c with
  | nil => exact ⟨[], by simp, by simp⟩
  | cons p ps ih =>
    obtain ⟨n1, h1, h2⟩ := clock_fire_effects env c p
    obtain ⟨n2, h3, h4⟩ := ih (HostClock.fire env c p)
    refine ⟨n1 ++ n2, ?_, ?_⟩
    · rw [List.foldl_cons, h3, h1, List.append_assoc]
    · rw [List.foldl_cons, h4, h2, List.flatMap_append, List.append_assoc]

theorem clock_foldl_timers (env : Collaborators) (ps : List (Nat × Nat)) (c : HostClock) :
    (ps.foldl (HostClock.fire env) c).svc.timers =
      c.svc.timers.filter (fun t => !ps.any (fun p => p.1 == t.handle)) := by
  induction ps generalizing c with
  | nil => simp
  | cons p ps ih =>
    rw [List.foldl_cons, ih, clock_fire_timers, List.filter_filter]
    congr 1
    funext t
    by_cases e : p.1 = t.handle
    · simp [List.any_cons, e]
    · have e2 : ¬ t.handle = p.1 := fun x => e x.symm
      have b1 : (t.handle != p.1) = true := by simpa using e2
      have b2 : (p.1 == t.handle) = false := by simpa using e
      simp only [List.any_cons, b1, b2]
      simp

theorem clock_foldl_nextHandle (env : Collaborators) (ps : List (Nat × Nat)) (c : HostClock) :
    (ps.foldl (HostClock.fire env) c).svc.nextHandle = c.svc.nextHandle := by
  induction ps generalizing c with
  | nil => rfl
  | cons p ps ih => rw [List.foldl_cons, ih, clock_fire_nextHandle]

theorem clock_foldl_dueAt (env : Collaborators) (ps : List (Nat × Nat)) (c : HostClock) :
    (ps.foldl (HostClock.fire env) c).dueAt = c.dueAt := by
  induction ps generalizing c with
  | nil => rfl
  | cons p ps ih => rw [List.foldl_cons, ih, clock_fire_dueAt]

/-- Callbacks of other timers leave the runs of the timer `h` as they are. -/
theorem clock_foldl_firings_none (env : Collaborators) (ps : List (Nat × Nat)) (c : HostClock)
    (h : Nat) (hps : ∀ p ∈ ps, p.1 ≠ h) :
    (ps.foldl (HostClock.fire env) c).firings.filter (fun f => f.handle == h) =
      c.firings.filter (fun f => f.handle == h) := by
  induction ps generalizing c with
  | nil => rfl
  | cons p ps ih =>
    rw [List.foldl_cons, ih _ (fun q hq => hps q (List.mem_cons_of_mem _ hq)),
      clock_fire_firings_other env c p h (hps p (by simp))]

/-- Among the callbacks that the host runs, that of a pending timer `h` with the due time `d`
runs once, at the time `d`, and does what `sendReminder` does for the user, message and
channel of that timer. -/
theorem clock_foldl_firings_fired (env : Collaborators) (ps : List (Nat × Nat))
    (c : HostClock) (h d : Nat) (t : Timer) (hnd : (ps.map Prod.fst).Nodup)
    (hmem : (h, d) ∈ ps)
    (hf : c.svc.timers.find? (fun t => t.handle == h) = some t) :
    (ps.foldl (HostClock.fire env) c).firings.filter (fun f => f.handle == h) =
      c.firings.filter (fun f => f.handle == h) ++
        [⟨h, d, (ReminderService.sendReminder env t.userId t.message t.channelId).1⟩] := by
  induction ps generalizing c with
  | nil => simp at hmem
  | cons p ps ih =>
    have hnd2 : p.1 ∉ ps.map Prod.fst ∧ (ps.map Prod.fst).Nodup := by
      simpa using hnd
    by_cases hp : p.1 = h
    · have hpeq : p = (h, d) := by
        rcases List.mem_cons.mp hmem with e | e
        · exact e.symm
        · exfalso
          apply hnd2.1
          rw [hp]
          exact List.mem_map_of_mem Prod.fst e
      subst hpeq
      have hrest : ∀ q ∈ ps, q.1 ≠ h := by
        intro q hq e
        apply hnd2.1
        show h ∈ ps.map Prod.fst
        rw [← e]
        exact List.mem_map_of_mem Prod.fst hq
      rw [List.foldl_cons, clock_foldl_firings_none env ps _ h hrest,
        clock_fire_of_find env c (h, d) t hf]
      simp [List.filter_append, List.filter_cons]
    · have hmem2 : (h, d) ∈ ps := by
        rcases List.mem_cons.mp hmem with e | e
        · exact absurd (by rw [← e]) hp
        · exact e
      have hf2 : (HostClock.fire env c p).svc.timers.find? (fun t => t.handle == h) = some t := by
        rw [clock_fire_timers, find_filter_other _ _ _ (fun e => hp e.symm)]
        exact hf
      rw [List.foldl_cons, ih _ hnd2.2 hmem2 hf2, clock_fire_firings_other env c p h hp]

theorem mem_due (c : HostClock) (t : Nat) (p : Nat × Nat) :
    p ∈ c.due t ↔ p ∈ c.dueAt ∧ p.2 ≤ t := by
  unfold HostClock.due
  rw [(List.perm_insertionSort _ _).mem_iff, List.mem_filter]
  simp

theorem due_nodup (c : HostClock) (t : Nat) (h : (c.dueAt.map Prod.fst).Nodup) :
    ((c.due t).map Prod.fst).Nodup := by
  unfold HostClock.due
  have h1 : ((c.dueAt.filter (fun p => decide (p.2 ≤ t))).map Prod.fst).Nodup :=
    h.sublist (List.Sublist.map _ (List.filter_sublist _))
  exact ((List.perm_insertionSort _ _).map Prod.fst).nodup_iff.mpr h1

theorem clock_setReminder_consistent (wait : Num → Nat) (c : HostClock) (userId : JsString)
    (time : Num) (message : JsString) (channelId : Value) (h : c.Consistent) :
    (c.setReminder wait userId time message channelId).Consistent := by
  obtain ⟨h1, h5, h2, h3, h4⟩ := h
  refine ⟨?_, ?_, ?_, ?_, ?_⟩
  · intro t ht
    simp only [HostClock.setReminder, ReminderService.setReminder, List.mem_append,
      List.mem_singleton] at ht ⊢
    rcases ht with ht | ht
    · exact Nat.lt_succ_of_lt (h1 t ht)
    · rw [ht]
      exact Nat.lt_succ_self _
  · simp only [HostClock.setReminder, ReminderService.setReminder, List.map_append,
      List.map_cons, List.map_nil]
    refine List.Nodup.append h5 (List.nodup_singleton _) ?_
    intro x hx hx2
    simp only [List.mem_singleton] at hx2
    obtain ⟨t, ht, rfl⟩ := List.mem_map.mp hx
    have := h1 t ht
    omega
  · intro p hp
    simp only [HostClock.setReminder, ReminderService.setReminder, List.mem_append,
      List.mem_singleton] at hp ⊢
    rcases hp with hp | hp
    · exact Nat.lt_succ_of_lt (h2 p hp)
    · rw [hp]
      exact Nat.lt_succ_self _
  · simp only [HostClock.setReminder, List.map_append, List.map_cons, List.map_nil]
    refine List.Nodup.append h3 (List.nodup_singleton _) ?_
    intro x hx hx2
    simp only [List.mem_singleton] at hx2
    obtain ⟨p, hp, rfl⟩ := List.mem_map.mp hx
    have := h2 p hp
    omega
  · intro f hf
    simp only [HostClock.setReminder, ReminderService.setReminder] at hf ⊢
    exact Nat.lt_succ_of_lt (h4 f hf)

theorem clock_fire_consistent (env : Collaborators) (c : HostClock) (p : Nat × Nat)
    (h : c.Consistent) : (HostClock.fire env c p).Consistent := by
  obtain ⟨h1, h5, h2, h3, h4⟩ := h
  cases hf : c.svc.timers.find? (fun t => t.handle == p.1) with
  | none =>
    rw [clock_fire_of_not_find env c p hf]
    exact ⟨h1, h5, h2, h3, h4⟩
  | some t =>
    have ht := find_some_spec _ _ _ hf
    have hn := clock_fire_nextHandle env c p
    have htm := clock_fire_timers env c p
    have hd := clock_fire_dueAt env c p
    refine ⟨?_, ?_, ?_, ?_, ?_⟩
    · intro t2 ht2
      rw [hn]
      rw [htm] at ht2
      exact h1 t2 (List.mem_filter.mp ht2).1
    · rw [htm]
      exact h5.sublist (List.Sublist.map _ (List.filter_sublist _))
    · intro q hq
      rw [hn]
      rw [hd] at hq
      exact h2 q hq
    · rw [hd]
      exact h3
    · intro f hfm
      rw [hn]
      rw [clock_fire_of_find env c p t hf] at hfm
      simp only [List.mem_append, List.mem_singleton] at hfm
      rcases hfm with hfm | hfm
      · exact h4 f hfm
      · rw [hfm]
        show p.1 < c.svc.nextHandle
        rw [← ht.2]
        exact h1 t ht.1

theorem clock_foldl_consistent (env : Collaborators) (ps : List (Nat × Nat)) (c : HostClock)
    (h : c.Consistent) : (ps.foldl (HostClock.fire env) c).Consistent := by
  induction ps generalizing c with
  | nil => exact h
  | cons p ps ih => exact ih _ (clock_fire_consistent env c p h)

theorem clock_elapse_consistent (env : Collaborators) (c : HostClock) (ms : Nat)
    (h : c.Consistent) : (c.elapse env ms).Consistent :=
  clock_foldl_consistent env _ c h

/-- Every state that calls of `setReminder` and the passing of time lead to is consistent. -/
theorem clock_run_consistent (wait : Num → Nat) (env : Collaborators)
    (steps : List ClockStep) : (HostClock.run wait env steps).Consistent := by
  have hgen : ∀ (l : List ClockStep) (c : HostClock), c.Consistent →
      (l.foldl (HostClock.step wait env) c).Consistent := by
    intro l
    induction l with
    | nil =>
      intro c h
      exact h
    | cons s l ih =>
      intro c h
      apply ih
      cases s with
      | set userId time message channelId =>
        exact clock_setReminder_consistent wait c userId time message channelId h
      | elapse ms => exact clock_elapse_consistent env c ms h
  apply hgen
  refine ⟨?_, ?_, ?_, ?_, ?_⟩
  · intro t ht
    simp [HostClock.initial, ReminderService.initial] at ht
  · simp [HostClock.initial, ReminderService.initial]
  · intro p hp
    simp [HostClock.initial] at hp
  · simp [HostClock.initial]
  · intro f hf
    simp [HostClock.initial] at hf

theorem eq_of_fst_eq (l : List (Nat × Nat)) (h : (l.map Prod.fst).Nodup) (p q : Nat × Nat)
    (hp : p ∈ l) (hq : q ∈ l) (e : p.1 = q.1) : p = q := by
  induction l with
  | nil => simp at hp
  | cons a l ih =>
    have hnd : a.1 ∉ l.map Prod.fst ∧ (l.map Prod.fst).Nodup := by
      simpa using h
    rcases List.mem_cons.mp hp with hp | hp <;> rcases List.mem_cons.mp hq with hq | hq
    · rw [hp, hq]
    · exfalso
      apply hnd.1
      rw [← hp, e]
      exact List.mem_map_of_mem Prod.fst hq
    · exfalso
      apply hnd.1
      rw [← hq, ← e]
      exact List.mem_map_of_mem Prod.fst hp
    · exact ih hnd.2 hp hq

/-- A pending timer under the clock: it stays pending exactly until its due time, and up to
any time the host has run its callback once, at its due time, if that time has come, and not
at all otherwise. -/
theorem clock_elapse_pending (env : Collaborators) (c : HostClock) (ms h d : Nat) (t : Timer)
    (hnd : (c.dueAt.map Prod.fst).Nodup) (hdue : (h, d) ∈ c.dueAt)
    (hf : c.svc.timers.find? (fun t => t.handle == h) = some t) :
    (t ∈ (c.elapse env ms).svc.timers ↔ c.now + ms < d) ∧
    (c.elapse env ms).firings.filter (fun f => f.handle == h) =
      c.firings.filter (fun f => f.handle == h) ++
        if d ≤ c.now + ms then
          [⟨h, d, (ReminderService.sendReminder env t.userId t.message t.channelId).1⟩]
        else [] := by
  have ht := find_some_spec _ _ _ hf
  have hkey : ∀ p ∈ c.due (c.now + ms), p.1 = h → p = (h, d) := by
    intro p hp e
    exact eq_of_fst_eq c.dueAt hnd p (h, d) ((mem_due c _ p).mp hp).1 hdue e
  have htimers : (c.elapse env ms).svc.timers =
      c.svc.timers.filter (fun t => !(c.due (c.now + ms)).any (fun p => p.1 == t.handle)) :=
    clock_foldl_timers env _ c
  have hfirings : (c.elapse env ms).firings =
      ((c.due (c.now + ms)).foldl (HostClock.fire env) c).firings := rfl
  by_cases hd : d ≤ c.now + ms
  · have hmem : (h, d) ∈ c.due (c.now + ms) := (mem_due c _ _).mpr ⟨hdue, hd⟩
    constructor
    · rw [htimers, List.mem_filter]
      constructor
      · intro hx
        exfalso
        have hany : (c.due (c.now + ms)).any (fun p => p.1 == t.handle) = true := by
          rw [List.any_eq_true]
          exact ⟨(h, d), hmem, by simp [ht.2]⟩
        rw [hany] at hx
        exact absurd hx.2 (by simp)
      · intro hx
        omega
    · rw [hfirings, if_pos hd]
      exact clock_foldl_firings_fired env _ c h d t (due_nodup c _ hnd) hmem hf
  · have hnone : ∀ p ∈ c.due (c.now + ms), p.1 ≠ h := by
      intro p hp e
      have hpd := hkey p hp e
      have := ((mem_due c _ p).mp hp).2
      rw [hpd] at this
      exact hd this
    constructor
    · rw [htimers, List.mem_filter]
      constructor
      · intro _
        omega
      · intro _
        refine ⟨ht.1, ?_⟩
        have hany : (c.due (c.now + ms)).any (fun p => p.1 == t.handle) = false := by
          rw [List.any_eq_false]
          intro p hp
          rw [ht.2]
          simpa using hnone p hp
        rw [hany]
        rfl
    · rw [hfirings, if_neg hd, List.append_nil]
      exact clock_foldl_firings_none env _ c h hnone

/-- What a time of waiting adds to the effects of the service is what the callbacks run in
that time have done, in the order of their runs. -/
theorem clock_elapse_effects (env : Collaborators) (c : HostClock) (ms : Nat) :
    ∃ new, (c.elapse env ms).firings = c.firings ++ new ∧
      (c.elapse env ms).svc.effects = c.svc.effects ++ new.flatMap Firing.effects :=
  clock_foldl_effects env _ c

theorem find_of_mem_nodup (l : List Timer) (hnd : (l.map Timer.handle).Nodup) (t : Timer)
    (ht : t ∈ l) : l.find? (fun t' => t'.handle == t.handle) = some t := by
  induction l with
  | nil => simp at ht
  | cons a l ih =>
    have hnd2 : a.handle ∉ l.map Timer.handle ∧ (l.map Timer.handle).Nodup := by
      simpa using hnd
    rcases List.mem_cons.mp ht with e | e
    · rw [e]
      simp
    · have hne : (a.handle == t.handle) = false := by
        simp only [beq_eq_false_iff_ne, ne_eq]
        intro e2
        apply hnd2.1
        rw [e2]
        exact List.mem_map_of_mem Timer.handle e
      rw [List.find?_cons, hne]
      exact ih hnd2.2 e

/-- Callbacks leave the runs of a handle that no pending timer has as they are. -/
theorem clock_foldl_firings_absent (env : Collaborators) (ps : List (Nat × Nat))
    (c : HostClock) (h : Nat) (hab : ∀ t ∈ c.svc.timers, t.handle ≠ h) :
    (ps.foldl (HostClock.fire env) c).firings.filter (fun f => f.handle == h) =
      c.firings.filter (fun f => f.handle == h) := by
  induction ps generalizing c with
  | nil => rfl
  | cons p ps ih =>
    have hab2 : ∀ t ∈ (HostClock.fire env c p).svc.timers, t.handle ≠ h := by
      intro t ht
      rw [clock_fire_timers] at ht
      exact hab t (List.mem_filter.mp ht).1
    rw [List.foldl_cons, ih _ hab2]
    by_cases hp : p.1 = h
    · have hf : c.svc.timers.find? (fun t => t.handle == p.1) = none := by
        rw [List.find?_eq_none]
        intro t ht
        rw [hp]
        simpa using hab t ht
      rw [clock_fire_of_not_find env c p hf]
    · exact clock_fire_firings_other env c p h hp

theorem elapsedTime_append (a b : List ClockStep) :
    elapsedTime (a ++ b) = elapsedTime a + elapsedTime b := by
  induction a with
  | nil => simp [elapsedTime]
  | cons s a ih =>
    cases s with
    | set userId time message channelId => simpa [elapsedTime] using ih
    | elapse ms =>
      show ms + elapsedTime (a ++ b) = ms + elapsedTime a + elapsedTime b
      rw [ih]
      omega

theorem run_append (wait : Num → Nat) (env : Collaborators) (a b : List ClockStep) :
    HostClock.run wait env (a ++ b) = HostClock.after wait env (HostClock.run wait env a) b := by
  simp [HostClock.run, HostClock.after, List.foldl_append]

theorem clock_after_consistent (wait : Num → Nat) (env : Collaborators)
    (steps : List ClockStep) (c : HostClock) (h : c.Consistent) :
    (HostClock.after wait env c steps).Consistent := by
  unfold HostClock.after
  induction steps generalizing c with
  | nil => exact h
  | cons s l ih =>
    apply ih
    cases s with
    | set userId time message channelId =>
      exact clock_setReminder_consistent wait c userId time message channelId h
    | elapse ms => exact clock_elapse_consistent env c ms h

/-- A reminder under the clock, whatever is set and however time passes after it is set: while
less time has passed than the host waits for its delay, its timer is pending and its callback
has not run; once that time has passed, its timer is no longer pending and its callback has run
exactly once, at the time of the call plus the time the host waits, doing what `sendReminder`
does for its message and channel. -/
theorem clock_reminder_fires (wait : Num → Nat) (env : Collaborators) (c : HostClock)
    (hc : c.Consistent) (userId : JsString) (d : Num) (m : JsString) (ch : Value)
    (later : List ClockStep) :
    (elapsedTime later < wait d →
      (⟨c.svc.nextHandle, d, userId, m, ch⟩ : Timer) ∈
          (HostClock.after wait env (c.setReminder wait userId d m ch) later).svc.timers ∧
        (HostClock.after wait env (c.setReminder wait userId d m ch) later).firings.filter
          (fun f => f.handle == c.svc.nextHandle) = []) ∧
    (0 < wait d → wait d ≤ elapsedTime later →
      (∀ t ∈ (HostClock.after wait env (c.setReminder wait userId d m ch) later).svc.timers,
          t.handle ≠ c.svc.nextHandle) ∧
        (HostClock.after wait env (c.setReminder wait userId d m ch) later).firings.filter
          (fun f => f.handle == c.svc.nextHandle) =
            [⟨c.svc.nextHandle, c.now + wait d,
              (ReminderService.sendReminder env userId m ch).1⟩]) := by
  by_cases hw : wait d = 0
  · constructor
    · intro h
      omega
    · intro h
      omega
  have hcons1 := clock_setReminder_consistent wait c userId d m ch hc
  obtain ⟨h1, _, _, _, h4⟩ := hc
  have hne1 : ∀ t ∈ c.svc.timers, t.handle ≠ c.svc.nextHandle := fun t ht =>
    Nat.ne_of_lt (h1 t ht)
  have hfind1 : (c.setReminder wait userId d m ch).svc.timers.find?
      (fun t => t.handle == c.svc.nextHandle) = some ⟨c.svc.nextHandle, d, userId, m, ch⟩ :=
    find_fresh c.svc.timers c.svc.nextHandle hne1 _ [] rfl
  have hdue1 : (c.svc.nextHandle, c.now + wait d) ∈ (c.setReminder wait userId d m ch).dueAt := by
    simp [HostClock.setReminder]
  have hold1 : (c.setReminder wait userId d m ch).firings.filter
      (fun f => f.handle == c.svc.nextHandle) = [] := by
    rw [List.filter_eq_nil_iff]
    intro f hf
    have := h4 f hf
    simp only [beq_iff_eq]
    omega
  have hgen : ∀ (l : List ClockStep) (C : HostClock) (e : Nat),
      C.Consistent → C.now = c.now + e → (c.svc.nextHandle, c.now + wait d) ∈ C.dueAt →
      ((e < wait d ∧
          C.svc.timers.find? (fun t => t.handle == c.svc.nextHandle) =
            some ⟨c.svc.nextHandle, d, userId, m, ch⟩ ∧
          C.firings.filter (fun f => f.handle == c.svc.nextHandle) = []) ∨
        (wait d ≤ e ∧ (∀ t ∈ C.svc.timers, t.handle ≠ c.svc.nextHandle) ∧
          C.firings.filter (fun f => f.handle == c.svc.nextHandle) =
            [⟨c.svc.nextHandle, c.now + wait d,
              (ReminderService.sendReminder env userId m ch).1⟩])) →
      ((e + elapsedTime l < wait d ∧
          (⟨c.svc.nextHandle, d, userId, m, ch⟩ : Timer) ∈
            (HostClock.after wait env C l).svc.timers ∧
          (HostClock.after wait env C l).firings.filter
            (fun f => f.handle == c.svc.nextHandle) = []) ∨
        (wait d ≤ e + elapsedTime l ∧
          (∀ t ∈ (HostClock.after wait env C l).svc.timers, t.handle ≠ c.svc.nextHandle) ∧
          (HostClock.after wait env C l).firings.filter
            (fun f => f.handle == c.svc.nextHandle) =
              [⟨c.svc.nextHandle, c.now + wait d,
                (ReminderService.sendReminder env userId m ch).1⟩])) := by
    intro l
    induction l with
    | nil =>
      intro C e _ _ _ hinv
      rcases hinv with ⟨he, hf, hfir⟩ | ⟨he, hab, hfir⟩
      · exact Or.inl ⟨by simpa [elapsedTime] using he, (find_some_spec _ _ _ hf).1, hfir⟩
      · exact Or.inr ⟨by simpa [elapsedTime] using he, hab, hfir⟩
    | cons s l ih =>
      intro C e hC hnow hdue hinv
      cases s with
      | set u2 d2 m2 ch2 =>
        have hC2 := clock_setReminder_consistent wait C u2 d2 m2 ch2 hC
        have hlt : c.svc.nextHandle < C.svc.nextHandle := hC.2.2.1 _ hdue
        have hstep : HostClock.after wait env C (ClockStep.set u2 d2 m2 ch2 :: l) =
            HostClock.after wait env (C.setReminder wait u2 d2 m2 ch2) l := rfl
        rw [hstep]
        have hel : elapsedTime (ClockStep.set u2 d2 m2 ch2 :: l) = elapsedTime l := rfl
        rw [hel]
        apply ih _ e hC2 hnow
        · simp only [HostClock.setReminder, List.mem_append]
          exact Or.inl hdue
        · rcases hinv with ⟨he, hf, hfir⟩ | ⟨he, hab, hfir⟩
          · refine Or.inl ⟨he, ?_, hfir⟩
            simp only [HostClock.setReminder, ReminderService.setReminder]
            rw [List.find?_append, hf]
            rfl
          · refine Or.inr ⟨he, ?_, hfir⟩
            intro t ht
            simp only [HostClock.setReminder, ReminderService.setReminder, List.mem_append,
              List.mem_singleton] at ht
            rcases ht with ht | ht
            · exact hab t ht
            · rw [ht]
              exact Nat.ne_of_gt hlt
      | elapse ms =>
        have hC2 := clock_elapse_consistent env C ms hC
        have hstep : HostClock.after wait env C (ClockStep.elapse ms :: l) =
            HostClock.after wait env (C.elapse env ms) l := rfl
        rw [hstep]
        have hel : e + elapsedTime (ClockStep.elapse ms :: l) = (e + ms) + elapsedTime l := by
          simp only [elapsedTime]
          omega
        rw [hel]
        have hnow2 : (C.elapse env ms).now = c.now + (e + ms) := by
          show C.now + ms = c.now + (e + ms)
          omega
        have hdue2 : (c.svc.nextHandle, c.now + wait d) ∈ (C.elapse env ms).dueAt := by
          have : (C.elapse env ms).dueAt = C.dueAt := clock_foldl_dueAt env _ C
          rw [this]
          exact hdue
        apply ih _ (e + ms) hC2 hnow2 hdue2
        rcases hinv with ⟨he, hf, hfir⟩ | ⟨he, hab, hfir⟩
        · have pp := clock_elapse_pending env C ms c.svc.nextHandle (c.now + wait d) _
            hC.2.2.2.1 hdue hf
          rw [hfir, List.nil_append, hnow] at pp
          by_cases hlt : e + ms < wait d
          · have hmem : (⟨c.svc.nextHandle, d, userId, m, ch⟩ : Timer) ∈
                (C.elapse env ms).svc.timers := pp.1.mpr (by omega)
            refine Or.inl ⟨hlt, find_of_mem_nodup _ hC2.2.1 _ hmem, ?_⟩
            rw [pp.2, if_neg (by omega)]
          · have hnot : (⟨c.svc.nextHandle, d, userId, m, ch⟩ : Timer) ∉
                (C.elapse env ms).svc.timers := fun hx => by
              have := pp.1.mp hx
              omega
            refine Or.inr ⟨by omega, ?_, ?_⟩
            · intro t ht e2
              have htC : t ∈ C.svc.timers := by
                have htm : (C.elapse env ms).svc.timers = C.svc.timers.filter
                    (fun t => !(C.due (C.now + ms)).any (fun p => p.1 == t.handle)) :=
                  clock_foldl_timers env _ C
                rw [htm] at ht
                exact (List.mem_filter.mp ht).1
              have hft := find_of_mem_nodup _ hC.2.1 t htC
              rw [e2, hf] at hft
              have hteq : (⟨c.svc.nextHandle, d, userId, m, ch⟩ : Timer) = t := by
                simpa using hft
              rw [← hteq] at ht
              exact hnot ht
            · rw [pp.2, if_pos (by omega)]
        · refine Or.inr ⟨by omega, ?_, ?_⟩
          · intro t ht
            have htm : (C.elapse env ms).svc.timers = C.svc.timers.filter
                (fun t => !(C.due (C.now + ms)).any (fun p => p.1 == t.handle)) :=
              clock_foldl_timers env _ C
            rw [htm] at ht
            exact hab t (List.mem_filter.mp ht).1
          · rw [← hfir]
            exact clock_foldl_firings_absent env _ C c.svc.nextHandle hab
  have hfinal := hgen later (c.setReminder wait userId d m ch) 0 hcons1 rfl hdue1
    (Or.inl ⟨by omega, hfind1, hold1⟩)
  simp only [Nat.zero_add] at hfinal
  constructor
  · intro hlt
    rcases hfinal with ⟨_, hm, hfir⟩ | ⟨hge, _, _⟩
    · exact ⟨hm, hfir⟩
    · omega
  · intro _ hge
    rcases hfinal with ⟨hlt, _, _⟩ | ⟨_, hab, hfir⟩
    · omega
    · exact ⟨hab, hfir⟩

/-- Under the clock no step removes a pending timer other than the run of its own callback:
`setReminder` keeps every pending timer, and a pending timer that a time of waiting removes
has a due time which has come in that time. -/
theorem clock_keeps_pending (wait : Num → Nat) (env : Collaborators) (c : HostClock)
    (t : Timer) (ht : t ∈ c.svc.timers) :
    (∀ (u : JsString) (d : Num) (m : JsString) (ch : Value),
      t ∈ (c.setReminder wait u d m ch).svc.timers) ∧
    (∀ ms, t ∉ (c.elapse env ms).svc.timers →
      ∃ d, (t.handle, d) ∈ c.dueAt ∧ d ≤ c.now + ms) := by
  constructor
  · intro u d m ch
    simp [HostClock.setReminder, ReminderService.setReminder, ht]
  · intro ms hnot
    have htimers : (c.elapse env ms).svc.timers =
        c.svc.timers.filter (fun t => !(c.due (c.now + ms)).any (fun p => p.1 == t.handle)) :=
      clock_foldl_timers env _ c
    rw [htimers, List.mem_filter] at hnot
    have hany : (c.due (c.now + ms)).any (fun p => p.1 == t.handle) = true := by
      cases hb : (c.due (c.now + ms)).any (fun p => p.1 == t.handle) with
      | true => rfl
      | false =>
        rw [hb] at hnot
        exact absurd ⟨ht, rfl⟩ hnot
    obtain ⟨p, hp, he⟩ := List.any_eq_true.mp hany
    have hp2 := (mem_due c _ p).mp hp
    have he2 : p.1 = t.handle := by simpa using he
    refine ⟨p.2, ?_, hp2.2⟩
    rw [← he2]
    exact hp2.1

/-! ## The reminder service: claims -/

/-- C15, as stated, fails when the `sendMessage` module is not found: `sendReminder` looks the
module up before it tests the channel id, so with a missing channel id it delivers nothing and
its promise rejects with a `TypeError`, which the callback of the timer leaves unhandled; with
a channel id it delivers nothing either. When the module is found and `sendMessage` throws,
nothing is delivered to a truthy channel and the promise rejects. -/
theorem sendReminder_counterexample :
    ReminderService.sendReminder
        ⟨false, true, false, fun _ => some ⟨none⟩, some (.str (js "7")), fun _ => .networkError,
          fun s => s, fun _ => [], fun _ => []⟩ (js "1") (js "tea") .undefined = ([], .error .typeError) ∧
    (ReminderService.run
        ⟨false, true, false, fun _ => some ⟨none⟩, some (.str (js "7")), fun _ => .networkError,
          fun s => s, fun _ => [], fun _ => []⟩
        [.set (js "1") (.fin 1000) (js "tea") .undefined, .fire 0]).unhandled = [.typeError] ∧
    ReminderService.sendReminder
        ⟨false, true, false, fun _ => some ⟨none⟩, some (.str (js "7")), fun _ => .networkError,
          fun s => s, fun _ => [], fun _ => []⟩ (js "1") (js "tea") (.str (js "7")) = ([], .error .typeError) ∧
    ReminderService.sendReminder
        ⟨true, true, true, fun _ => some ⟨none⟩, some (.str (js "7")), fun _ => .networkError,
          fun s => s, fun _ => [], fun _ => []⟩ (js "1") (js "tea") (.str (js "7")) = ([], .error .hostError) :=
  ⟨rfl, rfl, rfl, rfl⟩

/-- C15 (amended): for every user id, message and channel id, when a reminder fires
`sendReminder` first looks up the `sendMessage` module. With the module found and a truthy
channel id it delivers exactly one message to that channel, of content
`"<@" + userId + ">, reminder: " + message`, if the send does not throw, and nothing, its
promise rejecting, if the send throws; with the module found and a falsy channel id it
delivers nothing and raises nothing; with the module not found it delivers nothing and its
promise rejects with a `TypeError`, whatever the channel id. The firing of a timer adds to
what has been delivered exactly what `sendReminder` delivers for the user id, message and
channel id of that timer, and a rejection of its promise is left unhandled. -/
theorem sendReminder_delivers (env : Collaborators) (userId message : JsString)
    (channelId : Value) :
    (env.hasSendMessage = true → toBoolean channelId = true → env.sendFails = false →
      ReminderService.sendReminder env userId message channelId =
        ([.send channelId (chatMessage (js "<@" ++ userId ++ js ">, reminder: " ++ message))],
          .ok ())) ∧
    (env.hasSendMessage = true → toBoolean channelId = false →
      ReminderService.sendReminder env userId message channelId = ([], .ok ())) ∧
    (env.hasSendMessage = true → toBoolean channelId = true → env.sendFails = true →
      ReminderService.sendReminder env userId message channelId = ([], .error .hostError)) ∧
    (env.hasSendMessage = false →
      ReminderService.sendReminder env userId message channelId = ([], .error .typeError)) ∧
    (∀ (svc : ReminderService) (t : Timer),
      svc.timers.find? (fun t' => t'.handle == t.handle) = some t →
      (ReminderService.fire env svc t.handle).effects =
        svc.effects ++ (ReminderService.sendReminder env t.userId t.message t.channelId).1 ∧
      (ReminderService.fire env svc t.handle).unhandled =
        svc.unhandled ++
          (match (ReminderService.sendReminder env t.userId t.message t.channelId).2 with
           | .ok _ => []
           | .error e => [e])) := by
  refine ⟨?_, ?_, ?_, ?_, ?_⟩
  · intro hs hc hsend
    exact sendReminder_of_ready env userId message channelId hs hc hsend
  · intro hs hc
    exact sendReminder_of_falsy env userId message channelId hs hc
  · intro hs hc hsend
    exact sendReminder_of_failing env userId message channelId hs hc hsend
  · intro hs
    exact sendReminder_of_missing env userId message channelId hs
  · intro svc t hf
    rw [fire_of_find env svc t.handle t hf]
    exact ⟨rfl, rfl⟩

/-- C15 (amended) at the user `1`, the message `tea` and the channel `7`, and at a missing
channel, with the module found and the send not throwing. -/
theorem sendReminder_delivers_witness :
    ReminderService.sendReminder
        ⟨true, true, false, fun _ => some ⟨none⟩, some (.str (js "7")), fun _ => .networkError,
          fun s => s, fun _ => [], fun _ => []⟩ (js "1") (js "tea") (.str (js "7")) =
      ([.send (.str (js "7")) (chatMessage (js "<@1>, reminder: tea"))], .ok ()) ∧
    ReminderService.sendReminder
        ⟨true, true, false, fun _ => some ⟨none⟩, some (.str (js "7")), fun _ => .networkError,
          fun s => s, fun _ => [], fun _ => []⟩ (js "1") (js "tea") .undefined = ([], .ok ()) :=
  ⟨(sendReminder_delivers
      ⟨true, true, false, fun _ => some ⟨none⟩, some (.str (js "7")), fun _ => .networkError,
          fun s => s, fun _ => [], fun _ => []⟩ (js "1") (js "tea") (.str (js "7"))).1 rfl rfl rfl,
    (sendReminder_delivers
      ⟨true, true, false, fun _ => some ⟨none⟩, some (.str (js "7")), fun _ => .networkError,
          fun s => s, fun _ => [], fun _ => []⟩ (js "1") (js "tea") .undefined).2.1 rfl rfl⟩

/-- Firings in any order, without the clock. In every state reached by
calls of `setReminder` and firings, after two reminders are set for the same user (with any
delays) the pending timers are those of before followed by the two new ones; the firing of
either delivers what `sendReminder` delivers for its own message and channel and leaves the
other pending, and the firing of both, in either order, delivers both; and no step removes a
pending timer other than the firing of that timer: `setReminder` keeps every pending timer,
and the firing of a handle keeps every pending timer of another handle. -/
theorem setReminder_then_fire (env : Collaborators) (steps : List ReminderStep)
    (userId : JsString) (d1 d2 : Num) (m1 m2 : JsString) (c1 c2 : Value) :
    (((ReminderService.run env steps).setReminder userId d1 m1 c1).setReminder
        userId d2 m2 c2).timers =
      (ReminderService.run env steps).timers ++
        [⟨(ReminderService.run env steps).nextHandle, d1, userId, m1, c1⟩,
          ⟨(ReminderService.run env steps).nextHandle + 1, d2, userId, m2, c2⟩] ∧
    ((ReminderService.fire env
        (((ReminderService.run env steps).setReminder userId d1 m1 c1).setReminder
          userId d2 m2 c2) (ReminderService.run env steps).nextHandle).effects =
        (ReminderService.run env steps).effects
          ++ (ReminderService.sendReminder env userId m1 c1).1 ∧
      (⟨(ReminderService.run env steps).nextHandle + 1, d2, userId, m2, c2⟩ : Timer) ∈
        (ReminderService.fire env
          (((ReminderService.run env steps).setReminder userId d1 m1 c1).setReminder
            userId d2 m2 c2) (ReminderService.run env steps).nextHandle).timers) ∧
    ((ReminderService.fire env
        (((ReminderService.run env steps).setReminder userId d1 m1 c1).setReminder
          userId d2 m2 c2) ((ReminderService.run env steps).nextHandle + 1)).effects =
        (ReminderService.run env steps).effects
          ++ (ReminderService.sendReminder env userId m2 c2).1 ∧
      (⟨(ReminderService.run env steps).nextHandle, d1, userId, m1, c1⟩ : Timer) ∈
        (ReminderService.fire env
          (((ReminderService.run env steps).setReminder userId d1 m1 c1).setReminder
            userId d2 m2 c2) ((ReminderService.run env steps).nextHandle + 1)).timers) ∧
    (ReminderService.fire env (ReminderService.fire env
        (((ReminderService.run env steps).setReminder userId d1 m1 c1).setReminder
          userId d2 m2 c2) (ReminderService.run env steps).nextHandle)
        ((ReminderService.run env steps).nextHandle + 1)).effects =
      (ReminderService.run env steps).effects
        ++ (ReminderService.sendReminder env userId m1 c1).1
        ++ (ReminderService.sendReminder env userId m2 c2).1 ∧
    (ReminderService.fire env (ReminderService.fire env
        (((ReminderService.run env steps).setReminder userId d1 m1 c1).setReminder
          userId d2 m2 c2) ((ReminderService.run env steps).nextHandle + 1))
        (ReminderService.run env steps).nextHandle).effects =
      (ReminderService.run env steps).effects
        ++ (ReminderService.sendReminder env userId m2 c2).1
        ++ (ReminderService.sendReminder env userId m1 c1).1 ∧
    (∀ (svc : ReminderService) (t : Timer) (u : JsString) (d : Num) (m : JsString) (c : Value),
      t ∈ svc.timers → t ∈ (svc.setReminder u d m c).timers) ∧
    (∀ (svc : ReminderService) (h : Nat) (t : Timer),
      t ∈ svc.timers → t.handle ≠ h → t ∈ (ReminderService.fire env svc h).timers) := by
  obtain ⟨hlt, _, _⟩ := run_consistent env steps
  generalize ReminderService.run env steps = svc at hlt ⊢
  have hne1 : ∀ t ∈ svc.timers, t.handle ≠ svc.nextHandle := fun t ht =>
    Nat.ne_of_lt (hlt t ht)
  have hne2 : ∀ t ∈ svc.timers, t.handle ≠ svc.nextHandle + 1 := fun t ht =>
    Nat.ne_of_lt (Nat.lt_succ_of_lt (hlt t ht))
  have htimers : ((svc.setReminder userId d1 m1 c1).setReminder userId d2 m2 c2).timers =
      svc.timers ++ [⟨svc.nextHandle, d1, userId, m1, c1⟩,
        ⟨svc.nextHandle + 1, d2, userId, m2, c2⟩] := by
    simp [ReminderService.setReminder]
  have hfind1 : ((svc.setReminder userId d1 m1 c1).setReminder userId d2 m2 c2).timers.find?
      (fun t => t.handle == svc.nextHandle) = some ⟨svc.nextHandle, d1, userId, m1, c1⟩ := by
    rw [htimers]
    exact find_fresh svc.timers svc.nextHandle hne1 _ _ rfl
  have hfind2 : ((svc.setReminder userId d1 m1 c1).setReminder userId d2 m2 c2).timers.find?
      (fun t => t.handle == svc.nextHandle + 1)
      = some ⟨svc.nextHandle + 1, d2, userId, m2, c2⟩ := by
    rw [htimers]
    have h := find_fresh (svc.timers ++ [⟨svc.nextHandle, d1, userId, m1, c1⟩])
      (svc.nextHandle + 1) (by
        intro t ht
        rcases List.mem_append.mp ht with ht | ht
        · exact hne2 t ht
        · simp only [List.mem_singleton] at ht
          rw [ht]
          exact Nat.ne_of_lt (Nat.lt_succ_self _))
      ⟨svc.nextHandle + 1, d2, userId, m2, c2⟩ [] rfl
    simpa using h
  have hfilter1 : (svc.timers ++ [(⟨svc.nextHandle, d1, userId, m1, c1⟩ : Timer),
      ⟨svc.nextHandle + 1, d2, userId, m2, c2⟩]).filter
        (fun t => t.handle != svc.nextHandle)
      = svc.timers ++ [⟨svc.nextHandle + 1, d2, userId, m2, c2⟩] := by
    rw [List.filter_append, filter_fresh svc.timers _ hne1]
    simp [List.filter_cons]
  have hfilter2 : (svc.timers ++ [(⟨svc.nextHandle, d1, userId, m1, c1⟩ : Timer),
      ⟨svc.nextHandle + 1, d2, userId, m2, c2⟩]).filter
        (fun t => t.handle != svc.nextHandle + 1)
      = svc.timers ++ [⟨svc.nextHandle, d1, userId, m1, c1⟩] := by
    rw [List.filter_append, filter_fresh svc.timers _ hne2]
    simp [List.filter_cons]
  have heff : ((svc.setReminder userId d1 m1 c1).setReminder userId d2 m2 c2).effects
      = svc.effects := rfl
  refine ⟨htimers, ⟨?_, ?_⟩, ⟨?_, ?_⟩, ?_, ?_, ?_, ?_⟩
  · rw [fire_of_find env _ _ _ hfind1]
    rfl
  · rw [fire_of_find env _ _ _ hfind1]
    simp only [htimers, hfilter1]
    simp
  · rw [fire_of_find env _ _ _ hfind2]
    rfl
  · rw [fire_of_find env _ _ _ hfind2]
    simp only [htimers, hfilter2]
    simp
  · have hf : (ReminderService.fire env
        ((svc.setReminder userId d1 m1 c1).setReminder userId d2 m2 c2)
        svc.nextHandle).timers.find? (fun t => t.handle == svc.nextHandle + 1)
        = some ⟨svc.nextHandle + 1, d2, userId, m2, c2⟩ := by
      rw [fire_of_find env _ _ _ hfind1]
      simp only [htimers, hfilter1]
      exact find_fresh svc.timers _ hne2 _ _ rfl
    rw [fire_of_find env _ _ _ hf, fire_of_find env _ _ _ hfind1]
    rfl
  · have hf : (ReminderService.fire env
        ((svc.setReminder userId d1 m1 c1).setReminder userId d2 m2 c2)
        (svc.nextHandle + 1)).timers.find? (fun t => t.handle == svc.nextHandle)
        = some ⟨svc.nextHandle, d1, userId, m1, c1⟩ := by
      rw [fire_of_find env _ _ _ hfind2]
      simp only [htimers, hfilter2]
      exact find_fresh svc.timers _ hne1 _ _ rfl
    rw [fire_of_find env _ _ _ hf, fire_of_find env _ _ _ hfind2]
    rfl
  · intro svc' t u d m c ht
    simp [ReminderService.setReminder, ht]
  · intro svc' h t ht hne
    cases hf : svc'.timers.find? (fun t => t.handle == h) with
    | none =>
      rw [fire_of_not_find env svc' h hf]
      exact ht
    | some t0 =>
      rw [fire_of_find env svc' h t0 hf]
      simp only [List.mem_filter, bne_iff_ne, ne_eq]
      exact ⟨ht, hne⟩

/-- C16, as stated, fails for the delivery: two reminders set for one user with a missing
channel id both fire, each at its own time, and neither delivers a message; with the
`sendMessage` module not found neither delivers a message to a channel, and both promises of
`sendReminder` reject. -/
theorem setReminder_counterexample :
    (HostClock.run HostClock.exactWait
        ⟨true, true, false, fun _ => some ⟨none⟩, some (.str (js "7")), fun _ => .networkError,
          fun s => s, fun _ => [], fun _ => []⟩
        [.set (js "u") (.fin 600000) (js "a") .undefined,
          .set (js "u") (.fin 3600000) (js "b") .undefined,
          .elapse 3600000]).firings = [⟨0, 600000, []⟩, ⟨1, 3600000, []⟩] ∧
    (HostClock.run HostClock.exactWait
        ⟨true, true, false, fun _ => some ⟨none⟩, some (.str (js "7")), fun _ => .networkError,
          fun s => s, fun _ => [], fun _ => []⟩
        [.set (js "u") (.fin 600000) (js "a") .undefined,
          .set (js "u") (.fin 3600000) (js "b") .undefined,
          .elapse 3600000]).svc.effects = [] ∧
    (HostClock.run HostClock.exactWait
        ⟨false, true, false, fun _ => some ⟨none⟩, some (.str (js "7")), fun _ => .networkError,
          fun s => s, fun _ => [], fun _ => []⟩
        [.set (js "u") (.fin 600000) (js "a") (.str (js "7")),
          .set (js "u") (.fin 3600000) (js "b") (.str (js "7")),
          .elapse 3600000]).firings = [⟨0, 600000, []⟩, ⟨1, 3600000, []⟩] ∧
    (HostClock.run HostClock.exactWait
        ⟨false, true, false, fun _ => some ⟨none⟩, some (.str (js "7")), fun _ => .networkError,
          fun s => s, fun _ => [], fun _ => []⟩
        [.set (js "u") (.fin 600000) (js "a") (.str (js "7")),
          .set (js "u") (.fin 3600000) (js "b") (.str (js "7")),
          .elapse 3600000]).svc.unhandled = [.typeError, .typeError] :=
  ⟨rfl, rfl, rfl, rfl⟩

/-- C16 (amended): `setReminder` never cancels or replaces a pending timer. Take any state
reached by calls of `setReminder` and the passing of time, a reminder set there for a user,
any steps `between`, a second reminder set for the same user (with any delays), and any steps
`later`. Each call arms its timer. Each of the two timers is pending, and its callback has not
run, while less time has passed since its call than the host waits for its delay; once that
time has passed it is no longer pending and its callback has run exactly once, at the time of
its call plus the time the host waits, and has done what `sendReminder` does for its own
message and channel: with the `sendMessage` module found, a truthy channel id and a send that
does not throw, it has delivered the one message `"<@" + userId + ">, reminder: "` followed by
its own message. What a time of waiting adds to the effects of the service is what the
callbacks run in that time have done. No step removes a pending timer other than the run of its
own callback: `setReminder` keeps every pending timer, a time of waiting removes only timers
whose due time has come, and the firing of a handle keeps every pending timer of another
handle. For the delays of ten minutes and one hour: before ten minutes both reminders are
pending and nothing is delivered, at ten minutes the first message is delivered and the second
reminder is still pending, and at one hour the second message is delivered. -/
theorem setReminder_keeps_timers (wait : Num → Nat) (env : Collaborators)
    (steps between later : List ClockStep) (userId : JsString) (d1 d2 : Num)
    (m1 m2 : JsString) (c1 c2 : Value) :
    ((⟨(HostClock.run wait env steps).svc.nextHandle, d1, userId, m1, c1⟩ : Timer) ∈
        (HostClock.run wait env (steps ++ [.set userId d1 m1 c1])).svc.timers ∧
      (⟨(HostClock.run wait env (steps ++ .set userId d1 m1 c1 :: between)).svc.nextHandle, d2, userId,
          m2, c2⟩ : Timer) ∈
        (HostClock.run wait env (steps ++ .set userId d1 m1 c1 :: between ++ [.set userId d2 m2 c2])).svc.timers ∧
      (HostClock.run wait env (steps ++ .set userId d1 m1 c1 :: between)).now =
        (HostClock.run wait env steps).now + elapsedTime between) ∧
    (elapsedTime between + elapsedTime later < wait d1 →
      (⟨(HostClock.run wait env steps).svc.nextHandle, d1, userId, m1, c1⟩ : Timer) ∈ (HostClock.run wait env (steps ++ .set userId d1 m1 c1 :: between ++ .set userId d2 m2 c2 :: later)).svc.timers ∧
      (HostClock.run wait env (steps ++ .set userId d1 m1 c1 :: between ++ .set userId d2 m2 c2 :: later)).firings.filter
        (fun f => f.handle == (HostClock.run wait env steps).svc.nextHandle) = []) ∧
    (0 < wait d1 → wait d1 ≤ elapsedTime between + elapsedTime later →
      (⟨(HostClock.run wait env steps).svc.nextHandle, d1, userId, m1, c1⟩ : Timer) ∉ (HostClock.run wait env (steps ++ .set userId d1 m1 c1 :: between ++ .set userId d2 m2 c2 :: later)).svc.timers ∧
      (HostClock.run wait env (steps ++ .set userId d1 m1 c1 :: between ++ .set userId d2 m2 c2 :: later)).firings.filter
          (fun f => f.handle == (HostClock.run wait env steps).svc.nextHandle) =
        [⟨(HostClock.run wait env steps).svc.nextHandle, (HostClock.run wait env steps).now + wait d1,
          (ReminderService.sendReminder env userId m1 c1).1⟩] ∧
      (env.hasSendMessage = true → env.sendFails = false → toBoolean c1 = true →
        (HostClock.run wait env (steps ++ .set userId d1 m1 c1 :: between ++ .set userId d2 m2 c2 :: later)).firings.filter
            (fun f => f.handle == (HostClock.run wait env steps).svc.nextHandle) =
          [⟨(HostClock.run wait env steps).svc.nextHandle, (HostClock.run wait env steps).now + wait d1,
            [.send c1 (chatMessage (js "<@" ++ userId ++ js ">, reminder: " ++ m1))]⟩])) ∧
    (elapsedTime later < wait d2 →
      (⟨(HostClock.run wait env (steps ++ .set userId d1 m1 c1 :: between)).svc.nextHandle, d2, userId,
          m2, c2⟩ : Timer) ∈ (HostClock.run wait env (steps ++ .set userId d1 m1 c1 :: between ++ .set userId d2 m2 c2 :: later)).svc.timers ∧
      (HostClock.run wait env (steps ++ .set userId d1 m1 c1 :: between ++ .set userId d2 m2 c2 :: later)).firings.filter
        (fun f => f.handle ==
          (HostClock.run wait env (steps ++ .set userId d1 m1 c1 :: between)).svc.nextHandle) = []) ∧
    (0 < wait d2 → wait d2 ≤ elapsedTime later →
      (⟨(HostClock.run wait env (steps ++ .set userId d1 m1 c1 :: between)).svc.nextHandle, d2, userId,
          m2, c2⟩ : Timer) ∉ (HostClock.run wait env (steps ++ .set userId d1 m1 c1 :: between ++ .set userId d2 m2 c2 :: later)).svc.timers ∧
      (HostClock.run wait env (steps ++ .set userId d1 m1 c1 :: between ++ .set userId d2 m2 c2 :: later)).firings.filter
          (fun f => f.handle ==
            (HostClock.run wait env (steps ++ .set userId d1 m1 c1 :: between)).svc.nextHandle) =
        [⟨(HostClock.run wait env (steps ++ .set userId d1 m1 c1 :: between)).svc.nextHandle,
          (HostClock.run wait env (steps ++ .set userId d1 m1 c1 :: between)).now + wait d2,
          (ReminderService.sendReminder env userId m2 c2).1⟩] ∧
      (env.hasSendMessage = true → env.sendFails = false → toBoolean c2 = true →
        (HostClock.run wait env (steps ++ .set userId d1 m1 c1 :: between ++ .set userId d2 m2 c2 :: later)).firings.filter
            (fun f => f.handle ==
              (HostClock.run wait env (steps ++ .set userId d1 m1 c1 :: between)).svc.nextHandle) =
          [⟨(HostClock.run wait env (steps ++ .set userId d1 m1 c1 :: between)).svc.nextHandle,
            (HostClock.run wait env (steps ++ .set userId d1 m1 c1 :: between)).now + wait d2,
            [.send c2 (chatMessage (js "<@" ++ userId ++ js ">, reminder: " ++ m2))]⟩])) ∧
    (∀ (c : HostClock) (ms : Nat), ∃ new,
      (c.elapse env ms).firings = c.firings ++ new ∧
      (c.elapse env ms).svc.effects = c.svc.effects ++ new.flatMap Firing.effects) ∧
    (∀ (c : HostClock) (t : Timer), t ∈ c.svc.timers →
      (∀ (u : JsString) (d : Num) (m : JsString) (ch : Value),
        t ∈ (c.setReminder wait u d m ch).svc.timers) ∧
      (∀ ms, t ∉ (c.elapse env ms).svc.timers →
        ∃ d, (t.handle, d) ∈ c.dueAt ∧ d ≤ c.now + ms)) ∧
    (∀ (svc : ReminderService) (h : Nat) (t : Timer),
      t ∈ svc.timers → t.handle ≠ h → t ∈ (ReminderService.fire env svc h).timers) ∧
    ((HostClock.run HostClock.exactWait
        ⟨true, true, false, fun _ => some ⟨none⟩, some (.str (js "7")), fun _ => .networkError,
          fun s => s, fun _ => [], fun _ => []⟩
        [.set (js "u") (.fin 600000) (js "a") (.str (js "7")),
          .set (js "u") (.fin 3600000) (js "b") (.str (js "7")),
          .elapse 599999]).svc.timers =
        [⟨0, .fin 600000, js "u", js "a", .str (js "7")⟩,
          ⟨1, .fin 3600000, js "u", js "b", .str (js "7")⟩] ∧
      (HostClock.run HostClock.exactWait
        ⟨true, true, false, fun _ => some ⟨none⟩, some (.str (js "7")), fun _ => .networkError,
          fun s => s, fun _ => [], fun _ => []⟩
        [.set (js "u") (.fin 600000) (js "a") (.str (js "7")),
          .set (js "u") (.fin 3600000) (js "b") (.str (js "7")),
          .elapse 599999]).svc.effects = []) ∧
    ((HostClock.run HostClock.exactWait
        ⟨true, true, false, fun _ => some ⟨none⟩, some (.str (js "7")), fun _ => .networkError,
          fun s => s, fun _ => [], fun _ => []⟩
        [.set (js "u") (.fin 600000) (js "a") (.str (js "7")),
          .set (js "u") (.fin 3600000) (js "b") (.str (js "7")),
          .elapse 600000]).svc.timers =
        [⟨1, .fin 3600000, js "u", js "b", .str (js "7")⟩] ∧
      (HostClock.run HostClock.exactWait
        ⟨true, true, false, fun _ => some ⟨none⟩, some (.str (js "7")), fun _ => .networkError,
          fun s => s, fun _ => [], fun _ => []⟩
        [.set (js "u") (.fin 600000) (js "a") (.str (js "7")),
          .set (js "u") (.fin 3600000) (js "b") (.str (js "7")),
          .elapse 600000]).svc.effects =
        [.send (.str (js "7")) (chatMessage (js "<@u>, reminder: a"))] ∧
      (HostClock.run HostClock.exactWait
        ⟨true, true, false, fun _ => some ⟨none⟩, some (.str (js "7")), fun _ => .networkError,
          fun s => s, fun _ => [], fun _ => []⟩
        [.set (js "u") (.fin 600000) (js "a") (.str (js "7")),
          .set (js "u") (.fin 3600000) (js "b") (.str (js "7")),
          .elapse 600000]).firings =
        [⟨0, 600000, [.send (.str (js "7")) (chatMessage (js "<@u>, reminder: a"))]⟩]) ∧
    ((HostClock.run HostClock.exactWait
        ⟨true, true, false, fun _ => some ⟨none⟩, some (.str (js "7")), fun _ => .networkError,
          fun s => s, fun _ => [], fun _ => []⟩
        [.set (js "u") (.fin 600000) (js "a") (.str (js "7")),
          .set (js "u") (.fin 3600000) (js "b") (.str (js "7")),
          .elapse 600000, .elapse 3000000]).svc.timers = [] ∧
      (HostClock.run HostClock.exactWait
        ⟨true, true, false, fun _ => some ⟨none⟩, some (.str (js "7")), fun _ => .networkError,
          fun s => s, fun _ => [], fun _ => []⟩
        [.set (js "u") (.fin 600000) (js "a") (.str (js "7")),
          .set (js "u") (.fin 3600000) (js "b") (.str (js "7")),
          .elapse 600000, .elapse 3000000]).svc.effects =
        [.send (.str (js "7")) (chatMessage (js "<@u>, reminder: a")),
          .send (.str (js "7")) (chatMessage (js "<@u>, reminder: b"))] ∧
      (HostClock.run HostClock.exactWait
        ⟨true, true, false, fun _ => some ⟨none⟩, some (.str (js "7")), fun _ => .networkError,
          fun s => s, fun _ => [], fun _ => []⟩
        [.set (js "u") (.fin 600000) (js "a") (.str (js "7")),
          .set (js "u") (.fin 3600000) (js "b") (.str (js "7")),
          .elapse 600000, .elapse 3000000]).firings =
        [⟨0, 600000, [.send (.str (js "7")) (chatMessage (js "<@u>, reminder: a"))]⟩,
          ⟨1, 3600000, [.send (.str (js "7")) (chatMessage (js "<@u>, reminder: b"))]⟩]) := by
  have hc0 := clock_run_consistent wait env steps
  have hcb := clock_run_consistent wait env (steps ++ .set userId d1 m1 c1 :: between)
  -- the run as steps after each of the two calls
  have hR1 : (HostClock.run wait env (steps ++ .set userId d1 m1 c1 :: between ++ .set userId d2 m2 c2 :: later)) =
      HostClock.after wait env ((HostClock.run wait env steps).setReminder wait userId d1 m1 c1)
        (between ++ .set userId d2 m2 c2 :: later) := by
    have e : steps ++ .set userId d1 m1 c1 :: between ++ .set userId d2 m2 c2 :: later =
        steps ++ (.set userId d1 m1 c1 :: (between ++ .set userId d2 m2 c2 :: later)) := by
      simp
    rw [e, run_append]
    rfl
  have hR2 : (HostClock.run wait env (steps ++ .set userId d1 m1 c1 :: between ++ .set userId d2 m2 c2 :: later)) =
      HostClock.after wait env ((HostClock.run wait env (steps ++ .set userId d1 m1 c1 :: between)).setReminder wait userId d2 m2 c2) later := by
    rw [run_append]
    rfl
  have hel : elapsedTime (between ++ .set userId d2 m2 c2 :: later) =
      elapsedTime between + elapsedTime later := by
    rw [elapsedTime_append]
    rfl
  have l1 := clock_reminder_fires wait env (HostClock.run wait env steps) hc0 userId d1 m1 c1
    (between ++ .set userId d2 m2 c2 :: later)
  have l2 := clock_reminder_fires wait env (HostClock.run wait env (steps ++ .set userId d1 m1 c1 :: between)) hcb userId d2 m2 c2 later
  rw [← hR1, hel] at l1
  rw [← hR2] at l2
  refine ⟨⟨?_, ?_, ?_⟩, l1.1, ?_, l2.1, ?_, ?_, ?_, ?_, ⟨rfl, rfl⟩, ⟨rfl, rfl, rfl⟩,
    ⟨rfl, rfl, rfl⟩⟩
  · rw [run_append]
    show _ ∈ ((HostClock.run wait env steps).setReminder wait userId d1 m1 c1).svc.timers
    simp [HostClock.setReminder, ReminderService.setReminder]
  · rw [run_append]
    show _ ∈ ((HostClock.run wait env (steps ++ .set userId d1 m1 c1 :: between)).setReminder wait userId d2 m2 c2).svc.timers
    simp [HostClock.setReminder, ReminderService.setReminder]
  · have hnow : ∀ (l : List ClockStep) (c : HostClock),
        (HostClock.after wait env c l).now = c.now + elapsedTime l := by
      intro l
      induction l with
      | nil =>
        intro c
        rfl
      | cons s l ih =>
        intro c
        cases s with
        | set u d m ch =>
          show (HostClock.after wait env (c.setReminder wait u d m ch) l).now = _
          rw [ih]
          rfl
        | elapse ms =>
          show (HostClock.after wait env (c.elapse env ms) l).now = _
          rw [ih]
          show c.now + ms + elapsedTime l = c.now + (ms + elapsedTime l)
          omega
    have e : HostClock.run wait env (steps ++ .set userId d1 m1 c1 :: between) =
        HostClock.after wait env ((HostClock.run wait env steps).setReminder wait userId d1 m1 c1) between := by
      rw [run_append]
      rfl
    rw [e, hnow]
    rfl
  · intro hpos hge
    obtain ⟨hab, hfir⟩ := l1.2 hpos hge
    refine ⟨fun hx => hab _ hx rfl, hfir, ?_⟩
    intro hs hsend hch
    rw [hfir, sendReminder_of_ready env userId m1 c1 hs hch hsend]
  · intro hpos hge
    obtain ⟨hab, hfir⟩ := l2.2 hpos hge
    refine ⟨fun hx => hab _ hx rfl, hfir, ?_⟩
    intro hs hsend hch
    rw [hfir, sendReminder_of_ready env userId m2 c2 hs hch hsend]
  · intro c ms
    exact clock_elapse_effects env c ms
  · intro c t htm
    exact clock_keeps_pending wait env c t htm
  · intro svc h t htm hne
    rw [fire_timers, List.mem_filter]
    exact ⟨htm, by simpa using hne⟩

/-- C16 (amended) at the delays of ten minutes and one hour for the user `u`, set in a row in
the service as constructed, after one hour: the callback of the second reminder has run once,
at one hour, and has delivered the message of the second reminder. -/
theorem setReminder_keeps_timers_witness :
    (HostClock.run HostClock.exactWait
        ⟨true, true, false, fun _ => some ⟨none⟩, some (.str (js "7")), fun _ => .networkError,
          fun s => s, fun _ => [], fun _ => []⟩
        ([] ++ .set (js "u") (.fin 600000) (js "a") (.str (js "7")) :: [] ++
          .set (js "u") (.fin 3600000) (js "b") (.str (js "7")) ::
            [.elapse 3600000])).firings.filter
        (fun f => f.handle ==
          (HostClock.run HostClock.exactWait
            ⟨true, true, false, fun _ => some ⟨none⟩, some (.str (js "7")), fun _ => .networkError,
          fun s => s, fun _ => [], fun _ => []⟩
            ([] ++ .set (js "u") (.fin 600000) (js "a") (.str (js "7")) ::
              [])).svc.nextHandle) =
      [⟨(HostClock.run HostClock.exactWait
          ⟨true, true, false, fun _ => some ⟨none⟩, some (.str (js "7")), fun _ => .networkError,
          fun s => s, fun _ => [], fun _ => []⟩
          ([] ++ .set (js "u") (.fin 600000) (js "a") (.str (js "7")) :: [])).svc.nextHandle,
        (HostClock.run HostClock.exactWait
          ⟨true, true, false, fun _ => some ⟨none⟩, some (.str (js "7")), fun _ => .networkError,
          fun s => s, fun _ => [], fun _ => []⟩
          ([] ++ .set (js "u") (.fin 600000) (js "a") (.str (js "7")) :: [])).now
            + HostClock.exactWait (.fin 3600000),
        [.send (.str (js "7")) (chatMessage (js "<@" ++ js "u" ++ js ">, reminder: "
          ++ js "b"))]⟩] :=
  ((setReminder_keeps_timers HostClock.exactWait
      ⟨true, true, false, fun _ => some ⟨none⟩, some (.str (js "7")), fun _ => .networkError,
          fun s => s, fun _ => [], fun _ => []⟩
      [] [] [.elapse 3600000] (js "u") (.fin 600000) (.fin 3600000) (js "a") (js "b")
      (.str (js "7")) (.str (js "7"))).2.2.2.2.1 (by decide) (by decide)).2.2 rfl rfl rfl

/-- C17, as stated, fails when two reminders are set for one user: after `setReminder` for
the user `u` with the message `a`, `setReminder` for `u` with the message `b`, and the firing
of the first timer (handle 0), the map entry of `u`, which held the handle 1 of the second
reminder, is deleted, while the second reminder is still pending. -/
theorem fire_deletes_counterexample :
    mapGet (ReminderService.run
        ⟨true, true, false, fun _ => some ⟨none⟩, some (.str (js "7")), fun _ => .networkError,
          fun s => s, fun _ => [], fun _ => []⟩
        [.set (js "u") (.fin 1000) (js "a") (.str (js "7")),
          .set (js "u") (.fin 2000) (js "b") (.str (js "7"))]).reminders (js "u") = some 1 ∧
    mapGet (ReminderService.run
        ⟨true, true, false, fun _ => some ⟨none⟩, some (.str (js "7")), fun _ => .networkError,
          fun s => s, fun _ => [], fun _ => []⟩
        [.set (js "u") (.fin 1000) (js "a") (.str (js "7")),
          .set (js "u") (.fin 2000) (js "b") (.str (js "7")),
          .fire 0]).reminders (js "u") = none ∧
    (ReminderService.run
        ⟨true, true, false, fun _ => some ⟨none⟩, some (.str (js "7")), fun _ => .networkError,
          fun s => s, fun _ => [], fun _ => []⟩
        [.set (js "u") (.fin 1000) (js "a") (.str (js "7")),
          .set (js "u") (.fin 2000) (js "b") (.str (js "7")),
          .fire 0]).timers = [⟨1, .fin 2000, js "u", js "b", .str (js "7")⟩] :=
  ⟨rfl, rfl, rfl⟩

/-- C17 (amended): when a reminder fires it deletes the map entry stored under its user id,
whichever reminder that entry belongs to: after the firing that user has no entry, and the
entry of every other user is as before; `setReminder` stores the new handle under the user
id; and in every state reached by calls of `setReminder` and firings every map entry holds
the handle of a pending reminder of that user. (A pending reminder is left without a map
entry when an earlier reminder of the same user fires.) -/
theorem fire_deletes_user_entry (env : Collaborators) :
    (∀ (svc : ReminderService) (h : Nat) (t : Timer),
      svc.timers.find? (fun t' => t'.handle == h) = some t →
      (ReminderService.fire env svc h).reminders = mapDelete svc.reminders t.userId ∧
      mapGet (ReminderService.fire env svc h).reminders t.userId = none ∧
      ∀ u, u ≠ t.userId →
        mapGet (ReminderService.fire env svc h).reminders u = mapGet svc.reminders u) ∧
    (∀ (svc : ReminderService) (u : JsString) (d : Num) (m : JsString) (c : Value),
      mapGet (svc.setReminder u d m c).reminders u = some svc.nextHandle) ∧
    (∀ (steps : List ReminderStep) (u : JsString) (h : Nat),
      (u, h) ∈ (ReminderService.run env steps).reminders →
      ∃ t ∈ (ReminderService.run env steps).timers, t.handle = h ∧ t.userId = u) := by
  refine ⟨?_, ?_, ?_⟩
  · intro svc h t hf
    rw [fire_of_find env svc h t hf]
    exact ⟨rfl, mapGet_mapDelete_self _ _, fun u hu => mapGet_mapDelete_other _ _ _ hu⟩
  · intro svc u d m c
    exact mapGet_mapSet_self _ _ _
  · intro steps u h hmem
    exact (run_consistent env steps).2.2 (u, h) hmem

/-! ## Command registration: claims -/

/-- C18: for every command list returned by the host's command lookup, the registration hook
leaves the existing entries unchanged and in order and, when the thirteen command fields all
hold a record, appends after them exactly these thirteen records in the order of the fields;
after `start` these are the records named avatar, urbanlookup, urban2, lmgtfy, petpet, swirl,
define, whois, rainbow, qr, pizza, money, remind, in this order; when one of the thirteen
fields is undefined, as all are after `stop`, it appends nothing (and logs an error). -/
theorem registerCommands_appends (p : PatchesService) (result : List CommandRecord) :
    (∀ records : List CommandRecord, PatchesService.commands p = records.map some →
      PatchesService.registerCommands p result = (result ++ records, []) ∧
      records.length = 13) ∧
    ((PatchesService.registerCommands (PatchesService.start p) result).1 =
        result ++ [PatchesService.start.profilePicCommand, PatchesService.start.urbanCommand,
          PatchesService.start.urban2Command, PatchesService.start.lmgtfyCommand,
          PatchesService.start.petPetCommand, PatchesService.start.swirlCommand,
          PatchesService.start.defineCommand, PatchesService.start.whoisCommand,
          PatchesService.start.rainbowCommand, PatchesService.start.qrCommand,
          PatchesService.start.pizzaCommand, PatchesService.start.moneyCommand,
          PatchesService.start.remindCommand] ∧
      ((PatchesService.commands (PatchesService.start p)).filterMap id).map
          CommandRecord.untranslatedName =
        [js "avatar", js "urbanlookup", js "urban2", js "lmgtfy", js "petpet", js "swirl",
          js "define", js "whois", js "rainbow", js "qr", js "pizza", js "money",
          js "remind"]) ∧
    ((∃ c ∈ PatchesService.commands p, c = none) →
      PatchesService.registerCommands p result =
        (result, [.logError (js "One or more commands are undefined.")])) ∧
    PatchesService.registerCommands (PatchesService.stop p) result =
      (result, [.logError (js "One or more commands are undefined.")]) := by
  refine ⟨?_, ⟨rfl, rfl⟩, ?_, rfl⟩
  · intro records h
    have hall : (PatchesService.commands p).all Option.isSome = true := by
      rw [h]
      simp
    have hfm : (PatchesService.commands p).filterMap id = records := by
      rw [h]
      simp
    have hlen : (PatchesService.commands p).length = 13 := rfl
    refine ⟨?_, ?_⟩
    · simp [PatchesService.registerCommands, hall, hfm]
    · rw [h, List.length_map] at hlen
      exact hlen
  · rintro ⟨c, hc, hnone⟩
    have hall : (PatchesService.commands p).all Option.isSome = false := by
      rw [List.all_eq_false]
      exact ⟨c, hc, by simp [hnone]⟩
    simp [PatchesService.registerCommands, hall]

/-! ## The execute boundary: claims -/

/-- C19, the code at failing inputs. When `sendMessage` throws, the rainbow command logs the
error and its promise rejects with a `ReferenceError`, no fallback message being sent; the
remind command, given a valid reminder, arms the timer, logs the error and rejects with a
`ReferenceError` as well. When the request of the petpet command fails, nothing is logged, no
message is sent and the rejection of the inner promise is left unhandled; when the module
lookup of the petpet command finds nothing, its promise rejects with a `TypeError`. -/
theorem execute_escapes :
    rainbowCommand.execute
        ⟨true, true, true, fun _ => some ⟨none⟩, some (.str (js "7")), fun _ => .networkError,
          fun s => s, fun _ => [], fun _ => []⟩ ⟨.undefined, []⟩ =
      ⟨[.logError (js "Error executing rainbow command:")], .error .referenceError, []⟩ ∧
    remindCommand.execute
        ⟨true, true, true, fun _ => some ⟨none⟩, some (.str (js "7")), fun _ => .networkError,
          fun s => s, fun _ => [], fun _ => []⟩
        ⟨.undefined, [some (js "1"), some (js "10m"), some (js "hi")]⟩ =
      ⟨[.setReminder (js "1") (.fin 600000) (js "hi") (.str (js "7")),
          .logError (js "Error executing remind command:")], .error .referenceError, []⟩ ∧
    petPetCommand.execute
        ⟨true, true, false, fun _ => some ⟨some (js "abc")⟩, some (.str (js "7")),
          fun _ => .networkError, fun s => s, fun _ => [], fun _ => []⟩
        ⟨.undefined, [some (js "1")]⟩ =
      ⟨[.fetch (js "https://gifstuffapi.com/petpet/?image=https://cdn.discordapp.com/avatars/1/abc.png")],
        .ok (), [.hostError]⟩ ∧
    petPetCommand.execute
        ⟨false, true, false, fun _ => some ⟨some (js "abc")⟩, some (.str (js "7")),
          fun _ => .networkError, fun s => s, fun _ => [], fun _ => []⟩
        ⟨.undefined, [some (js "1")]⟩ =
      ⟨[], .error .typeError, []⟩ :=
  ⟨rfl, rfl, rfl, rfl⟩

/-! ## The user argument: lemmas -/

theorem gif_execute_no_user (endpoint failure : JsString) (env : Collaborators) (event : Event)
    (hu : argValue event 0 = []) :
    (gifCommand.execute endpoint failure env event).effects = [] ∧
      (gifCommand.execute endpoint failure env event).unhandled = [] := by
  unfold gifCommand.execute
  cases env.hasSendMessage with
  | false => exact ⟨rfl, rfl⟩
  | true =>
    cases env.hasGetUser with
    | false => exact ⟨rfl, rfl⟩
    | true =>
      cases resolveChannel env event with
      | error e => exact ⟨rfl, rfl⟩
      | ok ch => simp [hu]

theorem gif_execute_ready (endpoint failure : JsString) (env : Collaborators) (event : Event)
    (channelId : Value) (hs : env.hasSendMessage = true) (hg : env.hasGetUser = true)
    (hch : resolveChannel env event = .ok channelId) :
    (argValue event 0 = [] →
      gifCommand.execute endpoint failure env event = ⟨[], .ok (), []⟩) ∧
    (argValue event 0 ≠ [] → env.getUser (argValue event 0) = none → env.sendFails = false →
      gifCommand.execute endpoint failure env event =
        ⟨[.send channelId (plainMessage (js "User not found!"))], .ok (), []⟩) := by
  constructor
  · intro hu
    simp [gifCommand.execute, hs, hg, hch, hu]
  · intro hu huser hsend
    have he : (argValue event 0).isEmpty = false := by simp [hu]
    simp [gifCommand.execute, hs, hg, hch, he, huser, sendMessage_of_ok env _ _ hsend]

theorem profilePic_execute_no_user (env : Collaborators) (event : Event)
    (hu : argValue event 0 = []) :
    (profilePicCommand.execute env event).effects = [] ∨
      (profilePicCommand.execute env event).effects
        = [.logError (js "Error executing avatar command:")] := by
  unfold profilePicCommand.execute profilePicCommand.tryBlock
  cases env.hasSendMessage with
  | false => exact Or.inr rfl
  | true =>
    cases env.hasGetUser with
    | false => exact Or.inr rfl
    | true =>
      cases resolveChannel env event with
      | error e => exact Or.inr rfl
      | ok ch => exact Or.inl (by simp [hu])

theorem profilePic_execute_ready (env : Collaborators) (event : Event)
    (channelId : Value) (hs : env.hasSendMessage = true) (hg : env.hasGetUser = true)
    (hch : resolveChannel env event = .ok channelId) :
    (argValue event 0 = [] → profilePicCommand.execute env event = ⟨[], .ok (), []⟩) ∧
    (argValue event 0 ≠ [] → env.getUser (argValue event 0) = none → env.sendFails = false →
      profilePicCommand.execute env event =
        ⟨[.send channelId (plainMessage (js "User not found!"))], .ok (), []⟩) := by
  constructor
  · intro hu
    simp [profilePicCommand.execute, profilePicCommand.tryBlock, hs, hg, hch, hu]
  · intro hu huser hsend
    have he : (argValue event 0).isEmpty = false := by simp [hu]
    simp [profilePicCommand.execute, profilePicCommand.tryBlock, hs, hg, hch, he, huser,
      sendMessage_of_ok env _ _ hsend]

theorem remind_execute_no_user (env : Collaborators) (event : Event)
    (hu : argValue event 0 = []) :
    (remindCommand.execute env event).effects = [] ∨
      (remindCommand.execute env event).effects
        = [.logError (js "Error executing remind command:")] := by
  unfold remindCommand.execute remindCommand.tryBlock
  cases env.hasSendMessage with
  | false => exact Or.inr rfl
  | true =>
    cases env.hasGetUser with
    | false => exact Or.inr rfl
    | true =>
      cases resolveChannel env event with
      | error e => exact Or.inr rfl
      | ok ch => exact Or.inl (by simp [hu])

theorem remind_execute_ready (env : Collaborators) (event : Event)
    (channelId : Value) (hs : env.hasSendMessage = true) (hg : env.hasGetUser = true)
    (hch : resolveChannel env event = .ok channelId) :
    (argValue event 0 = [] ∨ argValue event 1 = [] ∨ argValue event 2 = [] →
      remindCommand.execute env event = ⟨[], .ok (), []⟩) ∧
    (argValue event 0 ≠ [] → argValue event 1 ≠ [] → argValue event 2 ≠ [] →
      env.getUser (argValue event 0) = none → env.sendFails = false →
      remindCommand.execute env event =
        ⟨[.send channelId (plainMessage (js "User not found!"))], .ok (), []⟩) := by
  constructor
  · intro hu
    have he : ((argValue event 0).isEmpty || (argValue event 1).isEmpty
        || (argValue event 2).isEmpty) = true := by
      rcases hu with h | h | h <;> simp [h]
    simp [remindCommand.execute, remindCommand.tryBlock, hs, hg, hch, he]
  · intro h0 h1 h2 huser hsend
    have he : ((argValue event 0).isEmpty || (argValue event 1).isEmpty
        || (argValue event 2).isEmpty) = false := by
      simp [h0, h1, h2]
    simp [remindCommand.execute, remindCommand.tryBlock, hs, hg, hch, he, huser,
      sendMessage_of_ok env _ _ hsend]

/-! ## The user argument: claims -/

/-- C20, as stated, fails for the remind command when the time argument is missing: with the
user id `1` that the user lookup does not know, no time and the message `hi`, the command
returns without sending "User not found!" or anything else. -/
theorem user_argument_counterexample :
    remindCommand.execute
        ⟨true, true, false, fun _ => none, some (.str (js "7")), fun _ => .networkError,
          fun s => s, fun _ => [], fun _ => []⟩
        ⟨.undefined, [some (js "1"), none, some (js "hi")]⟩ = ⟨[], .ok (), []⟩ :=
  rfl

/-- C20 (amended): for each command that takes a user argument (avatar, petpet, swirl, pizza,
money, remind), when the user id argument is missing or empty, `execute` sends no message,
issues no request and arms no timer, whatever the surroundings do (its only possible effect
is the logged error of a failed lookup), and with the lookups succeeding it returns without
any effect; when the id is present but the user lookup returns nothing (the lookups
succeeding and the send not throwing), avatar, petpet, swirl, pizza and money send exactly one
message with content "User not found!" and do nothing else, and so does remind when its time
and message arguments are non-empty, whereas remind with an empty time or message returns
without any effect. -/
theorem user_argument_guards (env : Collaborators) (event : Event) (channelId : Value) :
    (argValue event 0 = [] →
      (∀ e ∈ (profilePicCommand.execute env event).effects, ∃ text, e = Effect.logError text) ∧
      (petPetCommand.execute env event).effects = [] ∧
      (swirlCommand.execute env event).effects = [] ∧
      (pizzaCommand.execute env event).effects = [] ∧
      (moneyCommand.execute env event).effects = [] ∧
      (∀ e ∈ (remindCommand.execute env event).effects, ∃ text, e = Effect.logError text)) ∧
    (env.hasSendMessage = true → env.hasGetUser = true →
      resolveChannel env event = .ok channelId →
      (argValue event 0 = [] →
        profilePicCommand.execute env event = ⟨[], .ok (), []⟩ ∧
        petPetCommand.execute env event = ⟨[], .ok (), []⟩ ∧
        swirlCommand.execute env event = ⟨[], .ok (), []⟩ ∧
        pizzaCommand.execute env event = ⟨[], .ok (), []⟩ ∧
        moneyCommand.execute env event = ⟨[], .ok (), []⟩ ∧
        remindCommand.execute env event = ⟨[], .ok (), []⟩) ∧
      (argValue event 0 ≠ [] → env.getUser (argValue event 0) = none →
        env.sendFails = false →
        profilePicCommand.execute env event =
          ⟨[.send channelId (plainMessage (js "User not found!"))], .ok (), []⟩ ∧
        petPetCommand.execute env event =
          ⟨[.send channelId (plainMessage (js "User not found!"))], .ok (), []⟩ ∧
        swirlCommand.execute env event =
          ⟨[.send channelId (plainMessage (js "User not found!"))], .ok (), []⟩ ∧
        pizzaCommand.execute env event =
          ⟨[.send channelId (plainMessage (js "User not found!"))], .ok (), []⟩ ∧
        moneyCommand.execute env event =
          ⟨[.send channelId (plainMessage (js "User not found!"))], .ok (), []⟩ ∧
        (argValue event 1 ≠ [] → argValue event 2 ≠ [] →
          remindCommand.execute env event =
            ⟨[.send channelId (plainMessage (js "User not found!"))], .ok (), []⟩) ∧
        (argValue event 1 = [] ∨ argValue event 2 = [] →
          remindCommand.execute env event = ⟨[], .ok (), []⟩))) := by
  refine ⟨?_, ?_⟩
  · intro hu
    refine ⟨?_, (gif_execute_no_user _ _ env event hu).1, (gif_execute_no_user _ _ env event hu).1,
      (gif_execute_no_user _ _ env event hu).1, (gif_execute_no_user _ _ env event hu).1, ?_⟩
    · intro e he
      rcases profilePic_execute_no_user env event hu with h | h
      · rw [h] at he
        simp at he
      · rw [h] at he
        exact ⟨_, by simpa using he⟩
    · intro e he
      rcases remind_execute_no_user env event hu with h | h
      · rw [h] at he
        simp at he
      · rw [h] at he
        exact ⟨_, by simpa using he⟩
  · intro hs hg hch
    refine ⟨?_, ?_⟩
    · intro hu
      exact ⟨(profilePic_execute_ready env event channelId hs hg hch).1 hu,
        (gif_execute_ready _ _ env event channelId hs hg hch).1 hu,
        (gif_execute_ready _ _ env event channelId hs hg hch).1 hu,
        (gif_execute_ready _ _ env event channelId hs hg hch).1 hu,
        (gif_execute_ready _ _ env event channelId hs hg hch).1 hu,
        (remind_execute_ready env event channelId hs hg hch).1 (Or.inl hu)⟩
    · intro hu huser hsend
      exact ⟨(profilePic_execute_ready env event channelId hs hg hch).2 hu huser hsend,
        (gif_execute_ready _ _ env event channelId hs hg hch).2 hu huser hsend,
        (gif_execute_ready _ _ env event channelId hs hg hch).2 hu huser hsend,
        (gif_execute_ready _ _ env event channelId hs hg hch).2 hu huser hsend,
        (gif_execute_ready _ _ env event channelId hs hg hch).2 hu huser hsend,
        fun h1 h2 => (remind_execute_ready env event channelId hs hg hch).2 hu h1 h2 huser hsend,
        fun h => (remind_execute_ready env event channelId hs hg hch).1 (Or.inr h)⟩

/-- C20 (amended) at the user id `1` that the user lookup does not know: the petpet command
sends the one message "User not found!" to the selected channel. -/
theorem user_argument_guards_witness :
    petPetCommand.execute
        ⟨true, true, false, fun _ => none, some (.str (js "7")), fun _ => .networkError,
          fun s => s, fun _ => [], fun _ => []⟩ ⟨.undefined, [some (js "1")]⟩ =
      ⟨[.send (.str (js "7")) (plainMessage (js "User not found!"))], .ok (), []⟩ :=
  ((user_argument_guards
      ⟨true, true, false, fun _ => none, some (.str (js "7")), fun _ => .networkError,
        fun s => s, fun _ => [], fun _ => []⟩ ⟨.undefined, [some (js "1")]⟩
      (.str (js "7"))).2 rfl rfl rfl).2 (by decide) rfl rfl |>.2.1

/-! ## The candidate command name: claims -/

theorem Obj.getOwn_delete_other (o : Obj) (k k2 : JsString) (h : k2 ≠ k) :
    Obj.getOwn (Obj.delete o k) k2 = Obj.getOwn o k2 := by
  induction o with
  | nil => rfl
  | cons kv rest ih =>
    obtain ⟨k1, v1⟩ := kv
    have hcons : Obj.delete ((k1, v1) :: rest) k =
        if k1 = k then Obj.delete rest k else (k1, v1) :: Obj.delete rest k := by
      by_cases h1 : k1 = k <;> simp [Obj.delete, List.filter_cons, h1]
    rw [hcons]
    by_cases h1 : k1 = k
    · have h3 : ¬ k1 = k2 := fun e => h (e.symm.trans h1)
      simp only [h1, if_true]
      rw [ih]
      have h4 : ¬ k = k2 := fun e => h e.symm
      simp [Obj.getOwn, h4]
    · by_cases h2 : k1 = k2
      · subst h2
        simp [Obj.getOwn, h1]
      · simp [Obj.getOwn, h1, h2, ih]

theorem command_no_space (config : Config) (content : JsString) :
    space ∉ sendMessageHook.command config content := by
  intro hmem
  unfold sendMessageHook.command sliceFrom firstToken at hmem
  have h1 := List.mem_of_mem_drop hmem
  have h2 := List.mem_takeWhile_imp h1
  simp at h2

/-- C27: the candidate command name extracted by the send hook never contains a space
character, so for every configuration a table entry whose name contains a space is never
selected by any message content: the candidate name differs from that name, and every run of
the hook ends as it does with that entry deleted from the table. -/
theorem sendMessageHook_never_selects_spaced_name (config : Config) (content : JsString) :
    space ∉ sendMessageHook.command config content ∧
    ∀ name : JsString, space ∈ name →
      sendMessageHook.command config content ≠ name ∧
      ∀ (channelId : Value) (message : Message),
        sendMessageHook config channelId message =
          sendMessageHook ⟨config.commandPrefix, Obj.delete config.commands name⟩
            channelId message := by
  refine ⟨command_no_space config content, ?_⟩
  intro name hname
  have hne : ∀ c, sendMessageHook.command config c ≠ name := by
    intro c e
    exact command_no_space config c (e ▸ hname)
  refine ⟨hne content, ?_⟩
  intro channelId message
  have hcmd : ∀ c, sendMessageHook.command ⟨config.commandPrefix,
      Obj.delete config.commands name⟩ c = sendMessageHook.command config c := fun _ => rfl
  have hget : ∀ c, getProp (Obj.delete config.commands name) (sendMessageHook.command config c)
      = getProp config.commands (sendMessageHook.command config c) := by
    intro c
    unfold getProp
    rw [Obj.getOwn_delete_other _ _ _ (hne c)]
  unfold sendMessageHook
  cases contentString message.content with
  | none => rfl
  | some c => simp only [hcmd, hget]

/-! ## The invalid-unit branch and the command records: claims -/

theorem timeInMs_of_unit (amount : Num) (u : Char) (hu : u = 'm' ∨ u = 'h') :
    ∃ t, remindCommand.timeInMs amount u = some t := by
  rcases hu with rfl | rfl
  · exact ⟨_, rfl⟩
  · exact ⟨_, rfl⟩

/-- Every effect of the `try` block of the remind command is the unknown-user message, the
invalid-format message, the call of `setReminder`, or a message with the three extra fields of
the confirmation. -/
theorem remind_tryBlock_effects (env : Collaborators) (event : Event) :
    ∀ e ∈ (remindCommand.tryBlock env event).1,
      (∃ ch, e = .send ch (plainMessage (js "User not found!"))) ∨
      (∃ ch, e = .send ch (plainMessage
        (js "Invalid time format. Use '10m' for minutes or '1h' for hours."))) ∨
      (∃ userId time message ch, e = .setReminder userId time message ch) ∨
      (∃ ch text, e = .send ch (chatMessage text)) := by
  intro e he
  cases hmt : matchTime (argValue event 1) with
  | none =>
    rcases remind_tryBlock_of_no_match env event hmt with h | ⟨ch, h⟩ | ⟨ch, h⟩
    · rw [h] at he
      simp at he
    · rw [h] at he
      exact Or.inl ⟨ch, by simpa using he⟩
    · rw [h] at he
      exact Or.inr (Or.inl ⟨ch, by simpa using he⟩)
  | some p =>
    obtain ⟨digits, u⟩ := p
    obtain ⟨_, _, _, hu⟩ := matchTime_some _ digits u hmt
    obtain ⟨t, ht⟩ := timeInMs_of_unit (parseInt digits) u hu
    unfold remindCommand.tryBlock at he
    cases hs : env.hasSendMessage with
    | false => simp [hs] at he
    | true =>
      cases hg : env.hasGetUser with
      | false => simp [hs, hg] at he
      | true =>
        cases hch : resolveChannel env event with
        | error err => simp [hs, hg, hch] at he
        | ok ch =>
          cases hemp : ((argValue event 0).isEmpty || (argValue event 1).isEmpty
              || (argValue event 2).isEmpty) with
          | true => simp [hs, hg, hch, hemp] at he
          | false =>
            cases huser : env.getUser (argValue event 0) with
            | none =>
              simp only [hs, hg, hch, hemp, huser, Bool.not_true, Bool.false_eq_true,
                if_false] at he
              rcases sendMessage_effects env ch (plainMessage (js "User not found!")) with h | h
              · rw [h] at he
                simp at he
              · rw [h] at he
                exact Or.inl ⟨ch, by simpa using he⟩
            | some user =>
              simp only [hs, hg, hch, hemp, huser, hmt, ht, Bool.not_true, Bool.false_eq_true,
                if_false, List.mem_cons] at he
              rcases he with he | he
              · exact Or.inr (Or.inr (Or.inl ⟨_, _, _, _, he⟩))
              · rcases sendMessage_effects env ch (chatMessage
                  (js "Reminder set for <@" ++ argValue event 0 ++ js "> in "
                    ++ numberText env (parseInt digits) ++ [u] ++ js ".")) with h | h
                · rw [h] at he
                  simp at he
                · rw [h] at he
                  exact Or.inr (Or.inr (Or.inr ⟨ch, _, by simpa using he⟩))

/-- C28: in the remind command the invalid-unit branch is unreachable. For every time token
that passes the format check, the captured unit is exactly `m` or `h` and the captured amount
is a non-empty string of decimal digits, so a delay is computed; and for every input and
whatever the surroundings do, the invalid-unit message is never sent. -/
theorem invalid_unit_unreachable (env : Collaborators) (event : Event) :
    (∀ time digits u, matchTime time = some (digits, u) →
      (u = 'm' ∨ u = 'h') ∧ digits ≠ [] ∧ (∀ c ∈ digits, c.isDigit = true) ∧
      ∃ t, remindCommand.timeInMs (parseInt digits) u = some t) ∧
    (∀ ch, Effect.send ch (plainMessage
        (js "Invalid time unit. Use 'm' for minutes or 'h' for hours."))
      ∉ (remindCommand.execute env event).effects) := by
  constructor
  · intro time digits u h
    obtain ⟨_, h2, h3, h4⟩ := matchTime_some time digits u h
    exact ⟨h4, h2, h3, timeInMs_of_unit _ u h4⟩
  · intro ch hin
    have hcases : Effect.send ch (plainMessage
        (js "Invalid time unit. Use 'm' for minutes or 'h' for hours."))
        ∈ (remindCommand.tryBlock env event).1 := by
      rcases remind_execute_effects env event with h | h
      · rw [h] at hin
        exact hin
      · rw [h] at hin
        rcases List.mem_append.mp hin with h2 | h2
        · exact h2
        · simp at h2
    rcases remind_tryBlock_effects env event _ hcases with ⟨c, h⟩ | ⟨c, h⟩ | ⟨_, _, _, _, h⟩
      | ⟨c, text, h⟩
    · simp only [Effect.send.injEq, plainMessage, Message.mk.injEq, Value.str.injEq] at h
      exact absurd h.2.1 (by decide)
    · simp only [Effect.send.injEq, plainMessage, Message.mk.injEq, Value.str.injEq] at h
      exact absurd h.2.1 (by decide)
    · cases h
    · simp only [Effect.send.injEq, plainMessage, chatMessage, Message.mk.injEq] at h
      exact absurd h.2.2 (by simp)

/-- C29: the thirteen registered command records have pairwise distinct ids and pairwise
distinct machine names, and in each record the display name equals the machine name and the
display description equals the untranslated description. -/
theorem command_records_distinct (p : PatchesService) :
    (((PatchesService.commands (PatchesService.start p)).filterMap id).map
      CommandRecord.id).Nodup ∧
    (((PatchesService.commands (PatchesService.start p)).filterMap id).map
      CommandRecord.untranslatedName).Nodup ∧
    (∀ r ∈ (PatchesService.commands (PatchesService.start p)).filterMap id,
      r.displayName = r.untranslatedName ∧
      r.displayDescription = r.untranslatedDescription) ∧
    ((PatchesService.commands (PatchesService.start p)).filterMap id).length = 13 := by
  have hlist : (PatchesService.commands (PatchesService.start p)).filterMap id =
      [PatchesService.start.profilePicCommand, PatchesService.start.urbanCommand,
        PatchesService.start.urban2Command, PatchesService.start.lmgtfyCommand,
        PatchesService.start.petPetCommand, PatchesService.start.swirlCommand,
        PatchesService.start.defineCommand, PatchesService.start.whoisCommand,
        PatchesService.start.rainbowCommand, PatchesService.start.qrCommand,
        PatchesService.start.pizzaCommand, PatchesService.start.moneyCommand,
        PatchesService.start.remindCommand] := rfl
  rw [hlist]
  refine ⟨by decide, by decide, ?_, rfl⟩
  intro r hr
  simp only [List.mem_cons, List.mem_singleton, List.not_mem_nil, or_false] at hr
  rcases hr with h | h | h | h | h | h | h | h | h | h | h | h | h <;> subst h <;>
    exact ⟨rfl, rfl⟩

/-! ## `isValidIPv4`: lemmas -/

theorem isDigit_iff (c : Char) : c.isDigit = true ↔ 48 ≤ c.toNat ∧ c.toNat ≤ 57 := by
  unfold Char.isDigit Char.toNat
  simp only [Bool.and_eq_true, decide_eq_true_eq, ge_iff_le]
  constructor
  · rintro ⟨h1, h2⟩
    exact ⟨h1, h2⟩
  · rintro ⟨h1, h2⟩
    exact ⟨h1, h2⟩

theorem Regex.mem_range (lo hi : Char) (s t : JsString) :
    t ∈ (Regex.range lo hi).rests s ↔
      ∃ c, s = c :: t ∧ lo.toNat ≤ c.toNat ∧ c.toNat ≤ hi.toNat := by
  cases s with
  | nil => simp [Regex.rests]
  | cons c s =>
    by_cases h : lo.toNat ≤ c.toNat ∧ c.toNat ≤ hi.toNat
    · simp only [Regex.rests, h, and_self, if_true, List.mem_singleton, List.cons.injEq]
      constructor
      · intro e
        exact ⟨c, ⟨rfl, e.symm⟩, h⟩
      · rintro ⟨d, ⟨hd, e⟩, _⟩
        exact e.symm
    · simp only [Regex.rests, h, if_false, List.not_mem_nil, List.cons.injEq, false_iff,
        not_exists, not_and]
      rintro d ⟨hd, _⟩ h1
      rw [← hd] at h1
      intro h2
      exact h ⟨h1, by rw [hd]; exact h2⟩

theorem Regex.mem_seq (a b : Regex) (s t : JsString) :
    t ∈ (Regex.seq a b).rests s ↔ ∃ m, m ∈ a.rests s ∧ t ∈ b.rests m := by
  simp [Regex.rests, List.mem_flatMap]

theorem Regex.mem_alt (a b : Regex) (s t : JsString) :
    t ∈ (Regex.alt a b).rests s ↔ t ∈ a.rests s ∨ t ∈ b.rests s := by
  simp [Regex.rests]

theorem Regex.mem_opt (a : Regex) (s t : JsString) :
    t ∈ (Regex.opt a).rests s ↔ t ∈ a.rests s ∨ t = s := by
  simp [Regex.rests]

theorem Regex.test_iff (r : Regex) (s : JsString) :
    r.test s = true ↔ [] ∈ r.rests s := by
  unfold Regex.test
  rw [List.any_eq_true]
  constructor
  · rintro ⟨x, hx, he⟩
    have : x = [] := by simpa using he
    exact this ▸ hx
  · intro h
    exact ⟨[], h, rfl⟩

theorem digitsValue_one (a : Char) : digitsValue [a] = a.toNat - 48 := by
  simp [digitsValue]

theorem digitsValue_two (a b : Char) :
    digitsValue [a, b] = (a.toNat - 48) * 10 + (b.toNat - 48) := by
  simp [digitsValue]

theorem digitsValue_three (a b c : Char) :
    digitsValue [a, b, c] = ((a.toNat - 48) * 10 + (b.toNat - 48)) * 10 + (c.toNat - 48) := by
  simp [digitsValue]

/-- The group of the expression matches at the start of `s`, leaving `t`, exactly when `s` is
a group of one to three digits of value at most 255 followed by `t`. -/
theorem group_rests_iff (s t : JsString) :
    t ∈ Utils.isValidIPv4.group.rests s ↔ ∃ g, IPv4Group g ∧ s = g ++ t := by
  have h0 : ('0' : Char).toNat = 48 := rfl
  have h1 : ('1' : Char).toNat = 49 := rfl
  have h2 : ('2' : Char).toNat = 50 := rfl
  have h4 : ('4' : Char).toNat = 52 := rfl
  have h5 : ('5' : Char).toNat = 53 := rfl
  have h9 : ('9' : Char).toNat = 57 := rfl
  unfold Utils.isValidIPv4.group
  simp only [Regex.mem_alt, Regex.mem_seq, Regex.mem_opt, Regex.mem_range, h0, h1, h2, h4, h5, h9]
  constructor
  · rintro (⟨m, ⟨a, rfl, ha1, ha2⟩, m2, ⟨b, rfl, hb1, hb2⟩, c, rfl, hc1, hc2⟩ |
      ⟨m, ⟨a, rfl, ha1, ha2⟩, m2, ⟨b, rfl, hb1, hb2⟩, c, rfl, hc1, hc2⟩ |
      ⟨m, hm, m2, ⟨b, hb, hb1, hb2⟩, hlast⟩)
    · refine ⟨[a, b, c], ⟨by simp, by simp, ?_, ?_⟩, rfl⟩
      · intro x hx
        simp only [List.mem_cons, List.mem_singleton, List.not_mem_nil, or_false] at hx
        rcases hx with rfl | rfl | rfl <;> rw [isDigit_iff] <;> omega
      · rw [digitsValue_three]
        omega
    · refine ⟨[a, b, c], ⟨by simp, by simp, ?_, ?_⟩, rfl⟩
      · intro x hx
        simp only [List.mem_cons, List.mem_singleton, List.not_mem_nil, or_false] at hx
        rcases hx with rfl | rfl | rfl <;> rw [isDigit_iff] <;> omega
      · rw [digitsValue_three]
        omega
    · rcases hm with ⟨a, rfl, ha1, ha2⟩ | rfl
      · subst hb
        rcases hlast with ⟨c, rfl, hc1, hc2⟩ | rfl
        · refine ⟨[a, b, c], ⟨by simp, by simp, ?_, ?_⟩, rfl⟩
          · intro x hx
            simp only [List.mem_cons, List.mem_singleton, List.not_mem_nil, or_false] at hx
            rcases hx with rfl | rfl | rfl <;> rw [isDigit_iff] <;> omega
          · rw [digitsValue_three]
            omega
        · refine ⟨[a, b], ⟨by simp, by simp, ?_, ?_⟩, rfl⟩
          · intro x hx
            simp only [List.mem_cons, List.mem_singleton, List.not_mem_nil, or_false] at hx
            rcases hx with rfl | rfl <;> rw [isDigit_iff] <;> omega
          · rw [digitsValue_two]
            omega
      · subst hb
        rcases hlast with ⟨c, rfl, hc1, hc2⟩ | rfl
        · refine ⟨[b, c], ⟨by simp, by simp, ?_, ?_⟩, rfl⟩
          · intro x hx
            simp only [List.mem_cons, List.mem_singleton, List.not_mem_nil, or_false] at hx
            rcases hx with rfl | rfl <;> rw [isDigit_iff] <;> omega
          · rw [digitsValue_two]
            omega
        · refine ⟨[b], ⟨by simp, by simp, ?_, ?_⟩, rfl⟩
          · intro x hx
            simp only [List.mem_singleton] at hx
            rw [hx, isDigit_iff]
            omega
          · rw [digitsValue_one]
            omega
  · rintro ⟨g, ⟨hlen1, hlen3, hdig, hval⟩, rfl⟩
    match g, hlen1, hlen3, hdig, hval with
    | [a], _, _, hdig, _ =>
      have ha := (isDigit_iff a).mp (hdig a (by simp))
      exact Or.inr (Or.inr ⟨a :: t, Or.inr rfl, t, ⟨a, rfl, ha.1, ha.2⟩, Or.inr rfl⟩)
    | [a, b], _, _, hdig, _ =>
      have ha := (isDigit_iff a).mp (hdig a (by simp))
      have hb := (isDigit_iff b).mp (hdig b (by simp))
      exact Or.inr (Or.inr ⟨a :: b :: t, Or.inr rfl, b :: t, ⟨a, rfl, ha.1, ha.2⟩,
        Or.inl ⟨b, rfl, hb.1, hb.2⟩⟩)
    | [a, b, c], _, _, hdig, hval =>
      have ha := (isDigit_iff a).mp (hdig a (by simp))
      have hb := (isDigit_iff b).mp (hdig b (by simp))
      have hc := (isDigit_iff c).mp (hdig c (by simp))
      rw [digitsValue_three] at hval
      by_cases hA : a.toNat ≤ 49
      · exact Or.inr (Or.inr ⟨b :: c :: t, Or.inl ⟨a, rfl, ha.1, hA⟩, c :: t,
          ⟨b, rfl, hb.1, hb.2⟩, Or.inl ⟨c, rfl, hc.1, hc.2⟩⟩)
      · have hA2 : a.toNat = 50 := by omega
        by_cases hB : b.toNat ≤ 52
        · exact Or.inr (Or.inl ⟨b :: c :: t, ⟨a, rfl, by omega, by omega⟩, c :: t,
            ⟨b, rfl, hb.1, hB⟩, c, rfl, hc.1, hc.2⟩)
        · have hB2 : b.toNat = 53 := by omega
          exact Or.inl ⟨b :: c :: t, ⟨a, rfl, by omega, by omega⟩, c :: t,
            ⟨b, rfl, by omega, by omega⟩, c, rfl, hc.1, by omega⟩
    | [], h, _, _, _ => simp at h
    | _ :: _ :: _ :: _ :: _, _, h, _, _ =>
      simp only [List.length_cons] at h
      omega

/-- The expression of `Utils.isValidIPv4` matches exactly the texts made of four groups
separated by single dots. -/
theorem isValidIPv4_eq_true_iff (ip : JsString) :
    Utils.isValidIPv4 ip = true ↔
      ∃ a b c d : JsString, IPv4Group a ∧ IPv4Group b ∧ IPv4Group c ∧ IPv4Group d ∧
        ip = a ++ '.' :: (b ++ '.' :: (c ++ '.' :: d)) := by
  have hdot : ∀ s t : JsString,
      t ∈ (Regex.range '.' '.').rests s ↔ s = '.' :: t := by
    intro s t
    rw [Regex.mem_range]
    constructor
    · rintro ⟨c, rfl, h1, h2⟩
      have hc : c = '.' := Char.ext (UInt32.ext (Nat.le_antisymm h2 h1))
      rw [hc]
    · rintro rfl
      exact ⟨'.', rfl, le_refl _, le_refl _⟩
  unfold Utils.isValidIPv4 Utils.isValidIPv4.regex
  rw [Regex.test_iff]
  simp only [Regex.mem_seq, group_rests_iff, hdot]
  constructor
  · rintro ⟨m1, ⟨a, ha, rfl⟩, m2, rfl, m3, ⟨b, hb, rfl⟩, m4, rfl, m5, ⟨c, hc, rfl⟩, m6, rfl,
      d, hd, rfl⟩
    exact ⟨a, b, c, d, ha, hb, hc, hd, by simp⟩
  · rintro ⟨a, b, c, d, ha, hb, hc, hd, rfl⟩
    exact ⟨_, ⟨a, ha, rfl⟩, _, rfl, _, ⟨b, hb, rfl⟩, _, rfl, _, ⟨c, hc, rfl⟩, _, rfl,
      d, hd, by simp⟩

/-- An accepted text consists of decimal digits and dots. -/
theorem isValidIPv4_chars (ip : JsString) (h : Utils.isValidIPv4 ip = true) :
    ∀ c ∈ ip, c.isDigit = true ∨ c = '.' := by
  obtain ⟨a, b, c, d, ha, hb, hc, hd, rfl⟩ := (isValidIPv4_eq_true_iff ip).mp h
  intro x hx
  simp only [List.mem_append, List.mem_cons] at hx
  rcases hx with hx | rfl | hx | rfl | hx | rfl | hx
  · exact Or.inl (ha.2.2.1 x hx)
  · exact Or.inr rfl
  · exact Or.inl (hb.2.2.1 x hx)
  · exact Or.inr rfl
  · exact Or.inl (hc.2.2.1 x hx)
  · exact Or.inr rfl
  · exact Or.inl (hd.2.2.1 x hx)

/-! ## `isValidIPv4`: claims -/

/-- C25: `Utils.isValidIPv4` accepts a string exactly when it is four groups separated by
single dots, each group being one to three ASCII decimal digits of numeric value at most 255
(leading zeros allowed), with nothing before or after; every other string is rejected, the empty
string among them. -/
theorem isValidIPv4_iff_four_groups (ip : JsString) :
    (Utils.isValidIPv4 ip = true ↔
      ∃ a b c d : JsString, IPv4Group a ∧ IPv4Group b ∧ IPv4Group c ∧ IPv4Group d ∧
        ip = a ++ '.' :: (b ++ '.' :: (c ++ '.' :: d))) ∧
    (Utils.isValidIPv4 ip = false ↔
      ¬ ∃ a b c d : JsString, IPv4Group a ∧ IPv4Group b ∧ IPv4Group c ∧ IPv4Group d ∧
        ip = a ++ '.' :: (b ++ '.' :: (c ++ '.' :: d))) ∧
    Utils.isValidIPv4 [] = false ∧
    Utils.isValidIPv4 (js "192.168.0.1") = true ∧
    Utils.isValidIPv4 (js "001.02.3.255") = true ∧
    Utils.isValidIPv4 (js "256.1.1.1") = false ∧
    Utils.isValidIPv4 (js "1.2.3") = false ∧
    Utils.isValidIPv4 (js "1.2.3.4.5") = false ∧
    Utils.isValidIPv4 (js "1..2.3") = false ∧
    Utils.isValidIPv4 (js " 1.2.3.4") = false ∧
    Utils.isValidIPv4 (js "1.2.3.4 ") = false ∧
    Utils.isValidIPv4 (js "1.2.3.1234") = false := by
  have hiff := isValidIPv4_eq_true_iff ip
  refine ⟨hiff, ?_, by decide, by decide, by decide, by decide, by decide, by decide, by decide,
    by decide, by decide, by decide⟩
  rw [← hiff]
  cases Utils.isValidIPv4 ip <;> simp

/-! ## The lookup adapters: lemmas -/

theorem hexDigit_unreserved : ∀ d, d < 16 → isUnreserved (hexDigit d) = true := by
  decide

theorem utf8Bytes_lt (n : Nat) (h : n < 0x110000) : ∀ b ∈ utf8Bytes n, b < 256 := by
  intro b hb
  unfold utf8Bytes at hb
  split_ifs at hb <;>
    simp only [List.mem_cons, List.mem_singleton, List.not_mem_nil, or_false] at hb <;>
    omega

theorem percentByte_chars (b : Nat) (h : b < 256) :
    ∀ c ∈ percentByte b, c = '%' ∨ isUnreserved c = true := by
  intro c hc
  simp only [percentByte, List.mem_cons, List.mem_singleton, List.not_mem_nil, or_false] at hc
  rcases hc with rfl | rfl | rfl
  · exact Or.inl rfl
  · exact Or.inr (hexDigit_unreserved _ (by omega))
  · exact Or.inr (hexDigit_unreserved _ (by omega))

/-- Every character of a percent-encoded text is `%` or an unreserved character. -/
theorem encodeURIComponent_chars (s : JsString) :
    ∀ c ∈ encodeURIComponent s, c = '%' ∨ isUnreserved c = true := by
  intro c hc
  simp only [encodeURIComponent, List.mem_flatMap] at hc
  obtain ⟨a, _, hca⟩ := hc
  by_cases hu : isUnreserved a = true
  · simp only [hu, if_true, List.mem_singleton] at hca
    rw [hca]
    exact Or.inr hu
  · rw [if_neg hu, List.mem_flatMap] at hca
    obtain ⟨b, hb, hcb⟩ := hca
    have hlt : a.toNat < 0x110000 := by
      have := a.valid
      rcases this with h | h
      · exact Nat.lt_trans h (by decide)
      · exact h.2
    exact percentByte_chars b (utf8Bytes_lt a.toNat hlt b hb) c hcb

/-- The percent-encoding leaves a text of unreserved characters as it is. -/
theorem encodeURIComponent_of_unreserved (s : JsString)
    (h : ∀ c ∈ s, isUnreserved c = true) : encodeURIComponent s = s := by
  induction s with
  | nil => rfl
  | cons a t ih =>
    have ha : isUnreserved a = true := h a (by simp)
    have ht : encodeURIComponent t = t := ih (fun c hc => h c (by simp [hc]))
    unfold encodeURIComponent at ht ⊢
    simp only [List.flatMap_cons, ha, if_true, List.singleton_append, ht]

theorem length_le_encodeURIComponent (s : JsString) :
    s.length ≤ (encodeURIComponent s).length := by
  induction s with
  | nil => simp [encodeURIComponent]
  | cons a t ih =>
    unfold encodeURIComponent at ih ⊢
    simp only [List.flatMap_cons, List.length_append, List.length_cons]
    by_cases ha : isUnreserved a = true
    · simp only [ha, if_true, List.length_singleton]
      omega
    · rw [if_neg ha]
      have : 1 ≤ ((utf8Bytes a.toNat).flatMap percentByte).length := by
        unfold utf8Bytes
        split_ifs <;> simp [percentByte]
      omega

theorem length_lt_encodeURIComponent (s : JsString) (c : Char) (hc : c ∈ s)
    (hu : isUnreserved c = false) : s.length < (encodeURIComponent s).length := by
  induction s with
  | nil => simp at hc
  | cons a t ih =>
    have hle := length_le_encodeURIComponent t
    unfold encodeURIComponent at ih hle ⊢
    simp only [List.flatMap_cons, List.length_append, List.length_cons]
    by_cases ha : isUnreserved a = true
    · have hct : c ∈ t := by
        rcases List.mem_cons.mp hc with h | h
        · rw [h, ha] at hu
          exact absurd hu (by decide)
        · exact h
      have := ih hct
      simp only [ha, if_true, List.length_singleton]
      omega
    · rw [if_neg ha]
      have : 3 ≤ ((utf8Bytes a.toNat).flatMap percentByte).length := by
        unfold utf8Bytes
        split_ifs <;> simp [percentByte]
      omega

/-- The percent-encoding of a text is the text itself exactly when all its characters are
unreserved. -/
theorem encodeURIComponent_eq_self_iff (s : JsString) :
    encodeURIComponent s = s ↔ ∀ c ∈ s, isUnreserved c = true := by
  constructor
  · intro h c hc
    by_contra hu
    have hlt := length_lt_encodeURIComponent s c hc (by simpa using hu)
    rw [h] at hlt
    exact Nat.lt_irrefl _ hlt
  · exact encodeURIComponent_of_unreserved s

theorem urban_tryBlock_effects (env : Collaborators) (term : JsString) :
    (UrbanDictionaryService.lookup.tryBlock env term).1 =
      [.fetch (UrbanDictionaryService.lookup.url term)] := by
  unfold UrbanDictionaryService.lookup.tryBlock
  dsimp only
  split <;> rfl

theorem webster_tryBlock_effects (env : Collaborators) (term : JsString) :
    (WebsterDictionaryService.lookup.tryBlock env term).1 =
      [.fetch (WebsterDictionaryService.lookup.url term)] := by
  unfold WebsterDictionaryService.lookup.tryBlock
  dsimp only
  split <;> rfl

theorem whois_tryBlock_effects (env : Collaborators) (ip : JsString) :
    (WhoisService.lookup.tryBlock env ip).1 = [.fetch (WhoisService.lookup.url ip)] := by
  unfold WhoisService.lookup.tryBlock
  dsimp only
  split <;> rfl

/-- The Urban Dictionary adapter issues one request and resolves to a text: the one its `try`
block made, or the fixed text after logging the error. -/
theorem urban_lookup_cases (env : Collaborators) (term : JsString) :
    (∃ text, UrbanDictionaryService.lookup env term =
        ([.fetch (UrbanDictionaryService.lookup.url term)], .ok text)) ∨
      UrbanDictionaryService.lookup env term =
        ([.fetch (UrbanDictionaryService.lookup.url term),
            .logError (js "Error looking up term:")],
          .ok (js "An error occurred while looking up the term.")) := by
  have h1 := urban_tryBlock_effects env term
  unfold UrbanDictionaryService.lookup
  rcases hb : UrbanDictionaryService.lookup.tryBlock env term with ⟨effects, r⟩
  rw [hb] at h1
  simp only at h1
  subst h1
  cases r with
  | ok text => exact Or.inl ⟨text, rfl⟩
  | error e => exact Or.inr rfl

/-- The Webster adapter issues one request and resolves to a text: the one its `try` block
made, or the fixed text after logging the error. -/
theorem webster_lookup_cases (env : Collaborators) (term : JsString) :
    (∃ text, WebsterDictionaryService.lookup env term =
        ([.fetch (WebsterDictionaryService.lookup.url term)], .ok text)) ∨
      WebsterDictionaryService.lookup env term =
        ([.fetch (WebsterDictionaryService.lookup.url term),
            .logError (js "Error looking up term:")],
          .ok (js "An error occurred while looking up the term on Webster's Dictionary.")) := by
  have h1 := webster_tryBlock_effects env term
  unfold WebsterDictionaryService.lookup
  rcases hb : WebsterDictionaryService.lookup.tryBlock env term with ⟨effects, r⟩
  rw [hb] at h1
  simp only at h1
  subst h1
  cases r with
  | ok text => exact Or.inl ⟨text, rfl⟩
  | error e => exact Or.inr rfl

/-- The WHOIS adapter issues one request; it resolves to the text its `try` block made, and
rejects with a `TypeError` whenever the `try` block raises an exception. -/
theorem whois_lookup_cases (env : Collaborators) (ip : JsString) :
    (∃ text, WhoisService.lookup.tryBlock env ip =
          ([.fetch (WhoisService.lookup.url ip)], .ok text) ∧
        WhoisService.lookup env ip = ([.fetch (WhoisService.lookup.url ip)], .ok text)) ∨
      ((∃ e, WhoisService.lookup.tryBlock env ip =
          ([.fetch (WhoisService.lookup.url ip)], .error e)) ∧
        WhoisService.lookup env ip =
          ([.fetch (WhoisService.lookup.url ip)], .error .typeError)) := by
  have h1 := whois_tryBlock_effects env ip
  unfold WhoisService.lookup
  rcases hb : WhoisService.lookup.tryBlock env ip with ⟨effects, r⟩
  rw [hb] at h1
  simp only at h1
  subst h1
  cases r with
  | ok text => exact Or.inl ⟨text, rfl, rfl⟩
  | error e => exact Or.inr ⟨⟨e, rfl⟩, rfl⟩

/-- The QR adapter issues one request and resolves to the value of `data.url` or to `null`,
logging on the way to `null`. -/
theorem qr_generate_cases (env : Collaborators) (url : JsString) :
    (∃ found, toBoolean found = true ∧ QRCodeService.generateQRCode env url =
        ([.fetch (QRCodeService.generateQRCode.apiUrl url)], .ok found)) ∨
      QRCodeService.generateQRCode env url =
        ([.fetch (QRCodeService.generateQRCode.apiUrl url),
            .logError (js "No URL found in the API response:")], .ok .null) ∨
      QRCodeService.generateQRCode env url =
        ([.fetch (QRCodeService.generateQRCode.apiUrl url),
            .logError (js "Error generating QR code:")], .ok .null) := by
  unfold QRCodeService.generateQRCode QRCodeService.generateQRCode.tryBlock
  dsimp only
  cases env.fetch (QRCodeService.generateQRCode.apiUrl url) with
  | networkError => exact Or.inr (Or.inr rfl)
  | notJson => exact Or.inr (Or.inr rfl)
  | body data =>
    dsimp only
    cases hr : readField data (js "url") with
    | error e => exact Or.inr (Or.inr rfl)
    | ok found =>
      by_cases hf : toBoolean found = true
      · refine Or.inl ⟨found, hf, ?_⟩
        simp [hf]
      · refine Or.inr (Or.inl ?_)
        simp [hf]
theorem isUnreserved_of_digit_or_dot (c : Char) (h : c.isDigit = true ∨ c = '.') :
    isUnreserved c = true := by
  rcases h with h | rfl
  · simp [isUnreserved, Char.isAlphanum, h]
  · decide

theorem mem_fetch_single (url u : JsString) :
    Effect.fetch url ∈ [Effect.fetch u] ↔ url = u := by
  simp

theorem mem_fetch_logged (url u text : JsString) :
    Effect.fetch url ∈ [Effect.fetch u, Effect.logError text] ↔ url = u := by
  simp

/-- What the whois command does: for an argument that `isValidIPv4` rejects, the alert alone;
for an accepted one, the request of the adapter, followed by the alert of the result or, when
the adapter rejects, by the logged error and the error alert. -/
theorem whois_execute_cases (env : Collaborators) (event : Event) :
    (Utils.isValidIPv4 (argValue event 0) = false ∧
        whoisCommand.execute env event =
          ⟨[.alert ⟨js "Error", js "Please provide a valid IPv4 address."⟩], .ok (), []⟩) ∨
      (Utils.isValidIPv4 (argValue event 0) = true ∧
        ((∃ text, whoisCommand.execute env event =
            ⟨[.fetch (WhoisService.lookup.url (argValue event 0)),
                .alert ⟨js "IP Info", text⟩], .ok (), []⟩) ∨
          whoisCommand.execute env event =
            ⟨[.fetch (WhoisService.lookup.url (argValue event 0)),
                .logError (js "Error executing whois command:"),
                .alert ⟨js "Error", js "an error has occurred"⟩], .ok (), []⟩)) := by
  unfold whoisCommand.execute whoisCommand.tryBlock
  dsimp only
  cases hv : Utils.isValidIPv4 (argValue event 0) with
  | false =>
    refine Or.inl ⟨rfl, ?_⟩
    simp
  | true =>
    refine Or.inr ⟨rfl, ?_⟩
    have hne : (argValue event 0).isEmpty = false := by
      cases hip : argValue event 0 with
      | nil =>
        rw [hip] at hv
        exact absurd hv (by decide)
      | cons c s => rfl
    simp only [hne, Bool.not_true, Bool.or_false, Bool.false_eq_true, if_false]
    rcases whois_lookup_cases env (argValue event 0) with ⟨text, _, h⟩ | ⟨_, h⟩
    · rw [h]
      exact Or.inl ⟨text, rfl⟩
    · rw [h]
      exact Or.inr rfl

/-! ## The lookup adapters: claims -/

/-- C21, the code at failing inputs. The Urban Dictionary and Webster adapters always resolve
to a text and the QR adapter always resolves to a value, whatever the request yields; the WHOIS
adapter does not: when the request fails, when the body is not JSON, and when the body is
`null`, its promise rejects with a `TypeError` and the fixed error text is not returned, and so
it is whenever its `try` block raises an exception. -/
theorem whois_lookup_rejects (env : Collaborators) (input : JsString) :
    (∃ text, (UrbanDictionaryService.lookup env input).2 = .ok text) ∧
    (∃ text, (WebsterDictionaryService.lookup env input).2 = .ok text) ∧
    (∃ found, (QRCodeService.generateQRCode env input).2 = .ok found) ∧
    (∀ e, (WhoisService.lookup.tryBlock env input).2 = .error e →
      WhoisService.lookup env input =
        ([.fetch (WhoisService.lookup.url input)], .error .typeError)) ∧
    WhoisService.lookup
        ⟨true, true, false, fun _ => none, none, fun _ => .networkError, fun s => s,
          fun _ => [], fun _ => []⟩ (js "8.8.8.8") =
      ([.fetch (js "https://geolocation-db.com/json/8.8.8.8&position=true")],
        .error .typeError) ∧
    WhoisService.lookup
        ⟨true, true, false, fun _ => none, none, fun _ => .notJson, fun s => s,
          fun _ => [], fun _ => []⟩ (js "8.8.8.8") =
      ([.fetch (js "https://geolocation-db.com/json/8.8.8.8&position=true")],
        .error .typeError) ∧
    WhoisService.lookup
        ⟨true, true, false, fun _ => none, none, fun _ => .body .null, fun s => s,
          fun _ => [], fun _ => []⟩ (js "8.8.8.8") =
      ([.fetch (js "https://geolocation-db.com/json/8.8.8.8&position=true")],
        .error .typeError) ∧
    UrbanDictionaryService.lookup
        ⟨true, true, false, fun _ => none, none, fun _ => .networkError, fun s => s,
          fun _ => [], fun _ => []⟩ (js "yeet") =
      ([.fetch (js "https://api.urbandictionary.com/v0/define?term=yeet"),
          .logError (js "Error looking up term:")],
        .ok (js "An error occurred while looking up the term.")) := by
  refine ⟨?_, ?_, ?_, ?_, rfl, rfl, rfl, rfl⟩
  · rcases urban_lookup_cases env input with ⟨text, h⟩ | h
    · exact ⟨text, by rw [h]⟩
    · exact ⟨_, by rw [h]⟩
  · rcases webster_lookup_cases env input with ⟨text, h⟩ | h
    · exact ⟨text, by rw [h]⟩
    · exact ⟨_, by rw [h]⟩
  · rcases qr_generate_cases env input with ⟨found, _, h⟩ | h | h
    · exact ⟨found, by rw [h]⟩
    · exact ⟨_, by rw [h]⟩
    · exact ⟨_, by rw [h]⟩
  · intro e he
    rcases whois_lookup_cases env input with ⟨text, ht, _⟩ | ⟨_, h⟩
    · rw [ht] at he
      cases he
    · exact h

/-- C22, as stated, fails for the WHOIS adapter: for the input `a b&c` it requests the address
with the input inserted as it is, blank and `&` included, which is not the address with the
percent-encoded input `a%20b%26c`. -/
theorem whois_url_counterexample :
    WhoisService.lookup.url (js "a b&c") =
      js "https://geolocation-db.com/json/a b&c&position=true" ∧
    encodeURIComponent (js "a b&c") = js "a%20b%26c" ∧
    WhoisService.lookup.url (js "a b&c") ≠
      js "https://geolocation-db.com/json/" ++ encodeURIComponent (js "a b&c")
        ++ js "&position=true" ∧
    space ∈ WhoisService.lookup.url (js "a b&c") ∧
    (WhoisService.lookup
        ⟨true, true, false, fun _ => none, none, fun _ => .networkError, fun s => s,
          fun _ => [], fun _ => []⟩ (js "a b&c")).1 =
      [.fetch (js "https://geolocation-db.com/json/a b&c&position=true")] := by
  refine ⟨by decide, by decide, by decide, by decide, rfl⟩

/-- C22, amended: for every input, the Urban Dictionary, Webster and QR adapters request the
fixed endpoint text followed by the percent-encoded input, and nothing else, and the LMGTFY
link is built the same way; no character of the percent-encoded input is `&`, `?`, `/`, `#` or
a blank. The WHOIS adapter requests the endpoint text with the input inserted as it is, which
is the percent-encoded form exactly when every character of the input is unreserved. -/
theorem lookup_urls_encoded (env : Collaborators) (input : JsString) :
    (∀ c ∈ encodeURIComponent input, c ≠ '&' ∧ c ≠ '?' ∧ c ≠ '/' ∧ c ≠ '#' ∧ c ≠ space) ∧
    (∀ url, Effect.fetch url ∈ (UrbanDictionaryService.lookup env input).1 ↔
      url = js "https://api.urbandictionary.com/v0/define?term=" ++ encodeURIComponent input) ∧
    (∀ url, Effect.fetch url ∈ (WebsterDictionaryService.lookup env input).1 ↔
      url = js "https://api.dictionaryapi.dev/api/v2/entries/en/"
        ++ encodeURIComponent input) ∧
    (∀ url, Effect.fetch url ∈ (QRCodeService.generateQRCode env input).1 ↔
      url = js "https://gifstuffapi.com/qr/?url=" ++ encodeURIComponent input) ∧
    LmgtfyService.generateLink input =
      js "https://letmegooglethat.com/?q=" ++ encodeURIComponent input ∧
    (∀ url, Effect.fetch url ∈ (WhoisService.lookup env input).1 ↔
      url = js "https://geolocation-db.com/json/" ++ input ++ js "&position=true") ∧
    (js "https://geolocation-db.com/json/" ++ input ++ js "&position=true" =
        js "https://geolocation-db.com/json/" ++ encodeURIComponent input
          ++ js "&position=true" ↔
      ∀ c ∈ input, isUnreserved c = true) := by
  refine ⟨?_, ?_, ?_, ?_, rfl, ?_, ?_⟩
  · intro c hc
    rcases encodeURIComponent_chars input c hc with rfl | hu
    · decide
    · refine ⟨?_, ?_, ?_, ?_, ?_⟩ <;>
      · rintro rfl
        exact absurd hu (by decide)
  · intro url
    rcases urban_lookup_cases env input with ⟨text, h⟩ | h
    · rw [h]
      exact mem_fetch_single _ _
    · rw [h]
      exact mem_fetch_logged _ _ _
  · intro url
    rcases webster_lookup_cases env input with ⟨text, h⟩ | h
    · rw [h]
      exact mem_fetch_single _ _
    · rw [h]
      exact mem_fetch_logged _ _ _
  · intro url
    rcases qr_generate_cases env input with ⟨found, _, h⟩ | h | h
    · rw [h]
      exact mem_fetch_single _ _
    · rw [h]
      exact mem_fetch_logged _ _ _
    · rw [h]
      exact mem_fetch_logged _ _ _
  · intro url
    rcases whois_lookup_cases env input with ⟨text, _, h⟩ | ⟨_, h⟩
    · rw [h]
      exact mem_fetch_single _ _
    · rw [h]
      exact mem_fetch_single _ _
  · rw [← encodeURIComponent_eq_self_iff]
    constructor
    · intro h
      have h1 := List.append_cancel_right h
      exact (List.append_cancel_left h1).symm
    · intro h
      rw [h]

/-- C26: the whois command calls the WHOIS adapter only with an argument that `isValidIPv4`
accepts. For an argument that is empty or rejected it shows the alert `Please provide a valid
IPv4 address.` and does nothing else, so it issues no request; for an accepted argument it
issues the request of the adapter. Every address it requests has an accepted argument in place
of the input, made of digits and dots only, and is equal to the address with the
percent-encoded argument. -/
theorem whoisCommand_validates (env : Collaborators) (event : Event) :
    ((argValue event 0 = [] ∨ Utils.isValidIPv4 (argValue event 0) = false) →
      whoisCommand.execute env event =
        ⟨[.alert ⟨js "Error", js "Please provide a valid IPv4 address."⟩], .ok (), []⟩) ∧
    (Utils.isValidIPv4 (argValue event 0) = true →
      (whoisCommand.execute env event).effects.head? =
        some (.fetch (js "https://geolocation-db.com/json/" ++ argValue event 0
          ++ js "&position=true"))) ∧
    (∀ url, Effect.fetch url ∈ (whoisCommand.execute env event).effects →
      Utils.isValidIPv4 (argValue event 0) = true ∧
      (∀ c ∈ argValue event 0, c.isDigit = true ∨ c = '.') ∧
      url = js "https://geolocation-db.com/json/" ++ argValue event 0
        ++ js "&position=true" ∧
      url = js "https://geolocation-db.com/json/" ++ encodeURIComponent (argValue event 0)
        ++ js "&position=true") := by
  have hempty : Utils.isValidIPv4 [] = false := by decide
  refine ⟨?_, ?_, ?_⟩
  · intro h
    have hv : Utils.isValidIPv4 (argValue event 0) = false := by
      rcases h with h | h
      · rw [h]
        exact hempty
      · exact h
    rcases whois_execute_cases env event with ⟨_, h1⟩ | ⟨h1, _⟩
    · exact h1
    · rw [hv] at h1
      cases h1
  · intro hv
    rcases whois_execute_cases env event with ⟨h1, _⟩ | ⟨_, ⟨text, h1⟩ | h1⟩
    · rw [hv] at h1
      cases h1
    · rw [h1]
      rfl
    · rw [h1]
      rfl
  · intro url hmem
    have key : Utils.isValidIPv4 (argValue event 0) = true ∧
        url = WhoisService.lookup.url (argValue event 0) := by
      rcases whois_execute_cases env event with ⟨_, h1⟩ | ⟨hv, ⟨text, h1⟩ | h1⟩
      · rw [h1] at hmem
        simp at hmem
      · rw [h1] at hmem
        refine ⟨hv, ?_⟩
        simpa using hmem
      · rw [h1] at hmem
        refine ⟨hv, ?_⟩
        simpa using hmem
    obtain ⟨hv, hurl⟩ := key
    have hchars := isValidIPv4_chars (argValue event 0) hv
    have henc : encodeURIComponent (argValue event 0) = argValue event 0 :=
      encodeURIComponent_of_unreserved _
        (fun c hc => isUnreserved_of_digit_or_dot c (hchars c hc))
    refine ⟨hv, hchars, hurl, ?_⟩
    rw [henc]
    exact hurl

/-! ## The urban2 command: lemmas -/

theorem stripBrackets_no_brackets (text : JsString) :
    '[' ∉ stripBrackets text ∧ ']' ∉ stripBrackets text := by
  unfold stripBrackets
  constructor
  · intro h
    have := (List.mem_filter.mp h).2
    exact absurd this (by decide)
  · intro h
    have := (List.mem_filter.mp h).2
    exact absurd this (by decide)

/-- The sorted list is in non-increasing order of `thumbs_up`. -/
theorem urban2_sorted_sorted (list : List UrbanDefinition) :
    (urban2Command.sorted list).Pairwise (fun a b => b.thumbs_up ≤ a.thumbs_up) := by
  haveI : IsTotal UrbanDefinition UrbanDefinition.moreLiked :=
    ⟨fun a b => Nat.le_total b.thumbs_up a.thumbs_up⟩
  haveI : IsTrans UrbanDefinition UrbanDefinition.moreLiked :=
    ⟨fun a b c hab hbc => Nat.le_trans hbc hab⟩
  exact List.sorted_insertionSort UrbanDefinition.moreLiked list

theorem numberText_small (env : Collaborators) (n : Nat) (h : n < 10 ^ 21) :
    numberText env (.fin n) = Nat.toDigits 10 n := by
  show (if n < 10 ^ 21 then Nat.toDigits 10 n else env.exponentText n) = _
  rw [if_pos h]

/-- The text of a record starts with its number, its definition and its example, the two
texts without their square brackets. -/
theorem definitionText_eq (env : Collaborators) (formatDate : JsString → JsString)
    (index : Nat) (d : UrbanDefinition) (h : index < 4) :
    ∃ rest, urban2Command.definitionText env formatDate index d =
      lineFeed :: urban2Command.indent ++ js "Definition " ++ Nat.toDigits 10 (index + 1)
        ++ js ":"
        ++ lineFeed :: urban2Command.indent ++ stripBrackets d.definition
        ++ lineFeed :: lineFeed :: urban2Command.indent ++ js "Example:"
        ++ lineFeed :: urban2Command.indent ++ stripBrackets d.exampleText ++ rest := by
  have hn : numberText env (.fin (index + 1)) = Nat.toDigits 10 (index + 1) :=
    numberText_small env _ (by
      have : (4 : Nat) < 10 ^ 21 := by norm_num
      omega)
  refine ⟨lineFeed :: lineFeed :: urban2Command.indent ++ js "Likes: "
    ++ numberText env (.fin d.thumbs_up) ++ js ", Dislikes: "
    ++ numberText env (.fin d.thumbs_down) ++ js ", Author: " ++ d.author ++ js ", Date: "
    ++ formatDate d.written_on ++ lineFeed :: urban2Command.indent ++ List.replicate 42 '-'
    ++ lineFeed :: List.replicate 12 space, ?_⟩
  unfold urban2Command.definitionText
  simp only [hn, List.append_assoc, List.cons_append]

theorem urban2_execute_of_answer (env : Collaborators) (answer : JsString → UrbanAnswer)
    (formatDate : JsString → JsString) (event : Event) (list : List UrbanDefinition)
    (hterm : argValue event 0 ≠ [])
    (hans : answer (urban2Command.url (argValue event 0)) = .definitions list) :
    urban2Command.execute env answer formatDate event =
      if list.length = 0 then
        ⟨[.fetch (urban2Command.url (argValue event 0)),
          .alert ⟨js "No Definition Found", js "No definition found for "
            ++ doubleQuote :: argValue event 0 ++ doubleQuote :: js " on Urban Dictionary."⟩],
          .ok (), []⟩
      else
        ⟨[.fetch (urban2Command.url (argValue event 0)),
          .alert ⟨js "Urban Dictionary: " ++ argValue event 0,
            [lineFeed].intercalate (urban2Command.definitionTexts env formatDate list)⟩],
          .ok (), []⟩ := by
  have hne : (argValue event 0).isEmpty = false := by
    cases h : argValue event 0 with
    | nil => exact absurd h hterm
    | cons c s => rfl
  unfold urban2Command.execute urban2Command.tryBlock
  simp only [hne, Bool.false_eq_true, if_false, hans]
  by_cases hl : list.length = 0
  · simp only [hl, if_true]
  · simp only [hl, if_false]

/-! ## The urban2 command: claims -/

/-- C24: when the request of the urban2 command yields a list of `n` definitions, the command
shows, for `n = 0`, the no-definition alert and nothing else, and for `n > 0` one alert whose
content joins `min(4, n)` texts: the text at index `i` is that of the record at index `i` of
the sorted list, is numbered `i + 1`, and holds the definition and the example of the record
without their square brackets. The records shown are in non-increasing order of `thumbs_up`,
each has at least the count of every record left out, and shown and left out records together
are the list returned. -/
theorem urban2_displays_most_liked (env : Collaborators) (answer : JsString → UrbanAnswer)
    (formatDate : JsString → JsString) (event : Event) (list : List UrbanDefinition)
    (hterm : argValue event 0 ≠ [])
    (hans : answer (urban2Command.url (argValue event 0)) = .definitions list) :
    (list = [] →
      urban2Command.execute env answer formatDate event =
        ⟨[.fetch (urban2Command.url (argValue event 0)),
          .alert ⟨js "No Definition Found", js "No definition found for "
            ++ doubleQuote :: argValue event 0 ++ doubleQuote :: js " on Urban Dictionary."⟩],
          .ok (), []⟩) ∧
    (list ≠ [] →
      urban2Command.execute env answer formatDate event =
        ⟨[.fetch (urban2Command.url (argValue event 0)),
          .alert ⟨js "Urban Dictionary: " ++ argValue event 0,
            [lineFeed].intercalate (urban2Command.definitionTexts env formatDate list)⟩],
          .ok (), []⟩ ∧
      (urban2Command.definitionTexts env formatDate list).length = min 4 list.length ∧
      (∀ i, i < min 4 list.length →
        ∃ d rest, ((urban2Command.sorted list).take 4)[i]? = some d ∧
          (urban2Command.definitionTexts env formatDate list)[i]? =
            some (lineFeed :: urban2Command.indent ++ js "Definition "
              ++ Nat.toDigits 10 (i + 1) ++ js ":"
              ++ lineFeed :: urban2Command.indent ++ stripBrackets d.definition
              ++ lineFeed :: lineFeed :: urban2Command.indent ++ js "Example:"
              ++ lineFeed :: urban2Command.indent ++ stripBrackets d.exampleText ++ rest)) ∧
      ((urban2Command.sorted list).take 4 ++ (urban2Command.sorted list).drop 4).Perm list ∧
      ((urban2Command.sorted list).take 4).Pairwise (fun a b => b.thumbs_up ≤ a.thumbs_up) ∧
      (∀ a ∈ (urban2Command.sorted list).take 4, ∀ b ∈ (urban2Command.sorted list).drop 4,
        b.thumbs_up ≤ a.thumbs_up) ∧
      ∀ text, '[' ∉ stripBrackets text ∧ ']' ∉ stripBrackets text) := by
  have hexec := urban2_execute_of_answer env answer formatDate event list hterm hans
  have hsorted := urban2_sorted_sorted list
  have hlen : (urban2Command.sorted list).length = list.length :=
    List.length_insertionSort _ list
  constructor
  · intro hnil
    rw [hexec, hnil]
    rfl
  · intro hne
    have hl : ¬ list.length = 0 := fun h => hne (List.length_eq_zero.mp h)
    refine ⟨?_, ?_, ?_, ?_, ?_, ?_, stripBrackets_no_brackets⟩
    · rw [hexec, if_neg hl]
    · unfold urban2Command.definitionTexts
      rw [List.length_mapIdx, List.length_take, hlen]
    · intro i hi
      have hi4 : i < 4 := lt_of_lt_of_le hi (Nat.min_le_left _ _)
      have hlt : i < ((urban2Command.sorted list).take 4).length := by
        rw [List.length_take, hlen]
        exact hi
      obtain ⟨rest, hrest⟩ := definitionText_eq env formatDate i
        (((urban2Command.sorted list).take 4).get ⟨i, hlt⟩) hi4
      refine ⟨((urban2Command.sorted list).take 4).get ⟨i, hlt⟩, rest, ?_, ?_⟩
      · exact List.getElem?_eq_getElem hlt
      · unfold urban2Command.definitionTexts
        rw [List.getElem?_mapIdx, List.getElem?_eq_getElem hlt, Option.map_some', ← hrest]
        rfl
    · rw [List.take_append_drop]
      exact List.perm_insertionSort _ list
    · exact hsorted.sublist (List.take_sublist 4 _)
    · have h := hsorted
      rw [← List.take_append_drop 4 (urban2Command.sorted list), List.pairwise_append] at h
      exact h.2.2

/-- C24 at a list of five definitions with the counts 1, 5, 5, 0 and 7: the command requests
the address of the term `yeet` and shows one alert, whose content joins four texts. -/
theorem urban2_displays_most_liked_witness :
    (urban2Command.definitionTexts
        ⟨true, true, false, fun _ => none, none, fun _ => .networkError, fun s => s,
          fun _ => [], fun _ => []⟩ (fun s => s)
        [⟨js "a", js "[x]", 1, 0, js "p", js "2020"⟩, ⟨js "b", js "y", 5, 0, js "q", js "2021"⟩,
          ⟨js "c", js "z", 5, 1, js "r", js "2022"⟩, ⟨js "d", js "u", 0, 0, js "s", js "2023"⟩,
          ⟨js "e", js "v", 7, 2, js "t", js "2024"⟩]).length = min 4 5 :=
  ((urban2_displays_most_liked
      ⟨true, true, false, fun _ => none, none, fun _ => .networkError, fun s => s,
        fun _ => [], fun _ => []⟩
      (fun _ => .definitions
        [⟨js "a", js "[x]", 1, 0, js "p", js "2020"⟩, ⟨js "b", js "y", 5, 0, js "q", js "2021"⟩,
          ⟨js "c", js "z", 5, 1, js "r", js "2022"⟩, ⟨js "d", js "u", 0, 0, js "s", js "2023"⟩,
          ⟨js "e", js "v", 7, 2, js "t", js "2024"⟩])
      (fun s => s) ⟨.undefined, [some (js "yeet")]⟩
      [⟨js "a", js "[x]", 1, 0, js "p", js "2020"⟩, ⟨js "b", js "y", 5, 0, js "q", js "2021"⟩,
        ⟨js "c", js "z", 5, 1, js "r", js "2022"⟩, ⟨js "d", js "u", 0, 0, js "s", js "2023"⟩,
        ⟨js "e", js "v", 7, 2, js "t", js "2024"⟩]
      (by decide) rfl).2 (by decide)).2.1

/-! ## Opening the settings panel: lemmas -/

theorem removeFirst_nil_pattern (text : JsString) : removeFirst text [] = text := by
  cases text with
  | nil => rfl
  | cons c rest => simp [removeFirst, startsWith, List.isPrefixOf]

/-- Removing the first occurrence of a pattern that does not occur leaves the text as it is. -/
theorem removeFirst_of_no_occurrence (text pattern : JsString)
    (h : ∀ s t : JsString, text ≠ s ++ pattern ++ t) : removeFirst text pattern = text := by
  induction text with
  | nil => rfl
  | cons c rest ih =>
    have hs : startsWith (c :: rest) pattern = false := by
      cases hsw : startsWith (c :: rest) pattern with
      | false => rfl
      | true =>
        obtain ⟨t, ht⟩ := exists_append_of_startsWith pattern (c :: rest) hsw
        exact absurd ht (by simpa using h [] t)
    have hrest : ∀ s t : JsString, rest ≠ s ++ pattern ++ t := by
      intro s t e
      exact h (c :: s) t (by rw [e]; simp)
    unfold removeFirst
    rw [hs, ih hrest]
    simp

theorem textFieldValue_of_no_break (value : JsString) (hl : lineFeed ∉ value)
    (hr : carriageReturn ∉ value) : textFieldValue value = value := by
  unfold textFieldValue
  rw [List.filter_eq_self]
  intro c hc
  have h1 : c ≠ lineFeed := fun e => hl (e ▸ hc)
  have h2 : c ≠ carriageReturn := fun e => hr (e ▸ hc)
  simp [h1, h2]

theorem textAreaValue_of_no_return (value : JsString) (hr : carriageReturn ∉ value) :
    textAreaValue value = value := by
  unfold textAreaValue
  induction value with
  | nil => rfl
  | cons c rest ih =>
    have hc : c ≠ carriageReturn := fun e => hr (by simp [e])
    have hrest : carriageReturn ∉ rest := fun h => hr (List.mem_cons_of_mem _ h)
    unfold textAreaValue.go
    rw [if_neg hc]
    by_cases hlf : c = lineFeed
    · rw [if_pos hlf, ih hrest]
      simp [hlf]
    · rw [if_neg hlf, ih hrest]

theorem Obj.getOwn_of_mem (o : Obj) (hwf : Obj.WF o) (kv : JsString × Value) (h : kv ∈ o) :
    Obj.getOwn o kv.1 = some kv.2 := by
  induction o with
  | nil => simp at h
  | cons e rest ih =>
    obtain ⟨k1, v1⟩ := e
    have hnd : k1 ∉ Obj.keys rest ∧ Obj.WF rest := List.nodup_cons.mp hwf
    rcases List.mem_cons.mp h with h1 | h1
    · rw [h1]
      simp [Obj.getOwn]
    · have hne : ¬ k1 = kv.1 := by
        intro e
        apply hnd.1
        rw [e]
        exact List.mem_map_of_mem Prod.fst h1
      simp only [Obj.getOwn, hne, if_false]
      exact ih hnd.2 h1

theorem mapM_ok_of_forall {α β : Type} (f : α → Except JsError β) (g : α → β) (l : List α)
    (h : ∀ a ∈ l, f a = .ok (g a)) : l.mapM f = .ok (l.map g) := by
  induction l with
  | nil => rfl
  | cons a rest ih =>
    have ha : f a = .ok (g a) := h a (by simp)
    have hrest : rest.mapM f = .ok (rest.map g) := ih (fun b hb => h b (by simp [hb]))
    rw [List.mapM_cons, ha, hrest]
    rfl

/-- Collecting rows whose names are new, non-empty, trimmed and not `__proto__`, with
non-empty trimmed responses, appends them to the table in their order. -/
theorem foldl_step_append (text : Value → JsString) (l acc : Obj)
    (hnd : (Obj.keys l).Nodup)
    (h : ∀ kv ∈ l, kv.1 ∉ Obj.keys acc ∧ kv.1 ≠ [] ∧ trim kv.1 = kv.1 ∧
      kv.1 ≠ js "__proto__" ∧ kv.2 = .str (text kv.2) ∧ text kv.2 ≠ [] ∧
      trim (text kv.2) = text kv.2) :
    (l.map (fun kv => (kv.1, text kv.2))).foldl saveCommandsClick.step acc = acc ++ l := by
  induction l generalizing acc with
  | nil => simp
  | cons e rest ih =>
    obtain ⟨k, v⟩ := e
    obtain ⟨hk1, hk2, hk3, hk4, hv1, hv2, hv3⟩ := h (k, v) (by simp)
    have hnd2 : k ∉ Obj.keys rest ∧ (Obj.keys rest).Nodup := List.nodup_cons.mp hnd
    have hstep : saveCommandsClick.step acc (k, text v) = acc ++ [(k, v)] := by
      unfold saveCommandsClick.step
      simp only at hk1 hk2 hk3 hk4 hv1 hv2 hv3
      simp only [hk3, hv3]
      have e1 : k.isEmpty = false := by
        cases k with
        | nil => exact absurd rfl hk2
        | cons c s => rfl
      have e2 : (text v).isEmpty = false := by
        cases hq : text v with
        | nil => exact absurd hq hv2
        | cons c s => rfl
      simp only [e1, e2, Bool.not_false, Bool.and_self, if_true]
      unfold assignString
      have hnot : ¬ (k = js "__proto__" ∧ (Obj.getOwn acc k).isNone = true) := fun hp => hk4 hp.1
      rw [if_neg hnot, Obj.set_of_not_mem acc k _ hk1, ← hv1]
    simp only [List.map_cons, List.foldl_cons]
    rw [hstep, ih (acc ++ [(k, v)]) hnd2.2]
    · simp
    · intro kv hkv
      obtain ⟨h1, h2, h3, h4, h5, h6, h7⟩ := h kv (List.mem_cons_of_mem _ hkv)
      refine ⟨?_, h2, h3, h4, h5, h6, h7⟩
      simp only [Obj.keys, List.map_append, List.map_cons, List.map_nil, List.mem_append,
        List.mem_singleton, not_or]
      refine ⟨h1, ?_⟩
      intro e
      apply hnd2.1
      rw [← e]
      exact List.mem_map_of_mem Prod.fst hkv

/-! ## Opening the settings panel: claims -/

/-- C23, as stated, fails when a name contains the prefix: with the prefix `h` and the table
holding the name `hello`, the panel shows the name `ello`, and Save Commands stores the key
`ello` and no key `hello`; with the default prefix `./` the name `a./b` is stored as `ab`. A
name with a line break and a response with a carriage return are changed as well. -/
theorem getSettingsPanel_counterexample :
    getSettingsPanel.rows
        ⟨true, true, false, fun _ => none, none, fun _ => .networkError, fun s => s,
          fun _ => [], fun _ => []⟩
        ⟨js "h", [(js "hello", .str (js "Hello!"))]⟩ = .ok [(js "ello", js "Hello!")] ∧
    saveCommandsClick.commands [(js "ello", js "Hello!")] = [(js "ello", .str (js "Hello!"))] ∧
    Obj.getOwn (saveCommandsClick.commands [(js "ello", js "Hello!")]) (js "hello") = none ∧
    getSettingsPanel.rows
        ⟨true, true, false, fun _ => none, none, fun _ => .networkError, fun s => s,
          fun _ => [], fun _ => []⟩
        ⟨js "./", [(js "a./b", .str (js "x"))]⟩ = .ok [(js "ab", js "x")] ∧
    saveCommandsClick.commands [(js "ab", js "x")] = [(js "ab", .str (js "x"))] ∧
    getSettingsPanel.rows
        ⟨true, true, false, fun _ => none, none, fun _ => .networkError, fun s => s,
          fun _ => [], fun _ => []⟩
        ⟨js "./", [(js "a" ++ lineFeed :: js "b", .str (js "x" ++ carriageReturn :: js "y"))]⟩ =
      .ok [(js "ab", js "x" ++ lineFeed :: js "y")] :=
  ⟨rfl, rfl, rfl, rfl, rfl, rfl⟩

/-- C23, amended: for a configuration whose table has distinct names, every name being
non-empty, without leading or trailing whitespace, without a line break, other than
`__proto__`, and not containing the prefix (or the prefix being empty), and every response
being a non-empty string without leading or trailing whitespace and without a carriage return,
opening the settings panel succeeds and pressing Save Commands on its rows, no field edited,
stores the command table of the configuration: the same names with the same responses, in the
same order. -/
theorem getSettingsPanel_round_trip (env : Collaborators) (config : Config)
    (hwf : Obj.WF config.commands)
    (hnames : ∀ kv ∈ config.commands,
      kv.1 ≠ [] ∧ trim kv.1 = kv.1 ∧ kv.1 ≠ js "__proto__" ∧ lineFeed ∉ kv.1 ∧
        carriageReturn ∉ kv.1 ∧
        (config.commandPrefix = [] ∨ ∀ s t : JsString, kv.1 ≠ s ++ config.commandPrefix ++ t))
    (hresponses : ∀ kv ∈ config.commands,
      ∃ r, kv.2 = .str r ∧ r ≠ [] ∧ trim r = r ∧ carriageReturn ∉ r) :
    ∃ rows, getSettingsPanel.rows env config = .ok rows ∧
      saveCommandsClick.commands rows = config.commands := by
  have hrow : ∀ k ∈ Obj.keys config.commands,
      getSettingsPanel.row env config k =
        .ok (k, templateText env (getProp config.commands k)) := by
    intro k hk
    obtain ⟨kv, hkv, rfl⟩ := List.mem_map.mp hk
    obtain ⟨_, _, _, hl, hr, hp⟩ := hnames kv hkv
    obtain ⟨r, hr1, hr2, _, hr4⟩ := hresponses kv hkv
    have hget : getProp config.commands kv.1 = .str r := by
      unfold getProp
      rw [Obj.getOwn_of_mem _ hwf kv hkv, hr1]
    have hremove : removeFirst kv.1 config.commandPrefix = kv.1 := by
      rcases hp with hp | hp
      · rw [hp]
        exact removeFirst_nil_pattern _
      · exact removeFirst_of_no_occurrence _ _ hp
    have hre : r.isEmpty = false := by
      cases r with
      | nil => exact absurd rfl hr2
      | cons c s => rfl
    unfold getSettingsPanel.row
    rw [hget, hremove, textFieldValue_of_no_break _ hl hr]
    simp only [convertTextOr, toBoolean, hre, Bool.not_false, if_true, convertText,
      conversionThrows, Bool.false_eq_true, if_false, templateText]
    show Except.ok (kv.1, textAreaValue r) = Except.ok (kv.1, r)
    rw [textAreaValue_of_no_return _ hr4]
  have hrows : getSettingsPanel.rows env config =
      .ok (config.commands.map (fun kv => (kv.1, templateText env kv.2))) := by
    unfold getSettingsPanel.rows
    rw [mapM_ok_of_forall _ _ _ hrow]
    unfold Obj.keys
    rw [List.map_map]
    congr 1
    apply List.map_congr_left
    intro kv hkv
    simp only [Function.comp]
    unfold getProp
    rw [Obj.getOwn_of_mem _ hwf kv hkv]
  refine ⟨_, hrows, ?_⟩
  rw [commands_eq_foldl, foldl_step_append (templateText env) config.commands [] hwf]
  · rfl
  · intro kv hkv
    obtain ⟨h1, h2, h3, _, _, _⟩ := hnames kv hkv
    obtain ⟨r, hr1, hr2, hr3, _⟩ := hresponses kv hkv
    refine ⟨by simp [Obj.keys], h1, h2, h3, ?_, ?_, ?_⟩
    · rw [hr1]
      rfl
    · rw [hr1]
      exact hr2
    · rw [hr1]
      exact hr3

/-- C23 (amended) at the prefix `./` and the table with the names `hello` and `bye`: the rows
of the panel, saved as they are, give the table back. -/
theorem getSettingsPanel_round_trip_witness :
    ∃ rows,
      getSettingsPanel.rows
          ⟨true, true, false, fun _ => none, none, fun _ => .networkError, fun s => s,
            fun _ => [], fun _ => []⟩
          ⟨js "./", [(js "hello", .str (js "Hello!")), (js "bye", .str (js "Bye!"))]⟩ =
        .ok rows ∧
      saveCommandsClick.commands rows =
        [(js "hello", .str (js "Hello!")), (js "bye", .str (js "Bye!"))] :=
  getSettingsPanel_round_trip
    ⟨true, true, false, fun _ => none, none, fun _ => .networkError, fun s => s,
      fun _ => [], fun _ => []⟩
    ⟨js "./", [(js "hello", .str (js "Hello!")), (js "bye", .str (js "Bye!"))]⟩
    (by decide)
    (by
      intro kv hkv
      have hdot : ∀ name : JsString, '.' ∉ name → ∀ s t : JsString, name ≠ s ++ js "./" ++ t := by
        intro name hn s t e
        apply hn
        rw [e]
        simp [js]
      simp only [List.mem_cons, List.mem_singleton, List.not_mem_nil, or_false] at hkv
      rcases hkv with rfl | rfl
      · exact ⟨by decide, by decide, by decide, by decide, by decide,
          Or.inr (hdot _ (by decide))⟩
      · exact ⟨by decide, by decide, by decide, by decide, by decide,
          Or.inr (hdot _ (by decide))⟩)
    (by
      intro kv hkv
      simp only [List.mem_cons, List.mem_singleton, List.not_mem_nil, or_false] at hkv
      rcases hkv with rfl | rfl
      · exact ⟨js "Hello!", rfl, by decide, by decide, by decide⟩
      · exact ⟨js "Bye!", rfl, by decide, by decide, by decide⟩)

end CommandCenter
